import Mathlib

/-! MinuteTorus: torus approximation and torus-patch Gauss map.

A shallow embedding of `src/Torus/TorusApprox.cpp` and `src/Torus/TorusGaussmap.h`.

The C++ type `Real` is embedded as an arbitrary linearly ordered field `K`
(exact arithmetic, no rounding), so every definition is executable over `ℚ`
and can be read over `ℝ`.  Functions that return through reference
parameters return the written values; a `bool` result with an output
parameter becomes a pair of the flag and the (possibly untouched) output.
-/

namespace MN

/-! ## Intervals -/

/-- Modelled from the spec: the class `Domain` (header not among the sources) is a pair
of reals `(first, second)` read through `beg()` and `end()`. -/
structure Domain (K : Type) where
  beg : K
  end_ : K
deriving DecidableEq, Repr

namespace Domain
variable {K : Type} [LinearOrderedField K]

/-- Modelled from the spec: `Domain::width()`, the length `end - beg`. -/
def width (d : Domain K) : K := d.end_ - d.beg

end Domain

/-- Modelled from the spec: the class `piDomain` (header not among the sources), "a pair
(begin, end) representing an interval of angle values, interpreted modulo a full turn". -/
structure piDomain (K : Type) where
  beg : K
  end_ : K
deriving DecidableEq, Repr

namespace piDomain
variable {K : Type} [LinearOrderedField K]

/-- Modelled from the spec: `piDomain::set(beg, end)` stores the pair. -/
def set (beg end_ : K) : piDomain K := ⟨beg, end_⟩

/-- Modelled from the spec: `piDomain::create(beg, end)` builds the pair. -/
def create (beg end_ : K) : piDomain K := ⟨beg, end_⟩

/-- Modelled from the spec: `piDomain::width()`, the length `end - beg`. -/
def width (d : piDomain K) : K := d.end_ - d.beg

end piDomain

/-! ## Angle constants -/

section Constants
variable {K : Type} [LinearOrderedField K]

/-- Modelled from the spec: the constants header is not among the sources; `PI05` is the
boundary "0.5π", a quarter turn, for the half-turn constant `PI`. -/
def PI05 (PI : K) : K := PI / 2

/-- Modelled from the spec: `PI15` is the boundary "1.5π" ("3π/2"). -/
def PI15 (PI : K) : K := 3 * PI / 2

/-- Modelled from the spec: `PI20` is the "full-turn length" 2π. -/
def PI20 (PI : K) : K := 2 * PI

end Constants

/-! ## Vectors -/

/-- Modelled from the spec: the class `Vec3` (header not among the sources), a vector of
three reals with componentwise arithmetic. -/
structure Vec3 (K : Type) where
  x : K
  y : K
  z : K
deriving DecidableEq, Repr

namespace Vec3
variable {K : Type} [LinearOrderedField K]

/-- Modelled from the spec: `Vec3 - Vec3`, componentwise difference. -/
instance : Sub (Vec3 K) := ⟨fun a b => ⟨a.x - b.x, a.y - b.y, a.z - b.z⟩⟩

/-- Modelled from the spec: `Vec3 * Real`, scaling of every component. -/
instance : HMul (Vec3 K) K (Vec3 K) := ⟨fun a s => ⟨a.x * s, a.y * s, a.z * s⟩⟩

end Vec3

/-! ## Quadratic polynomials in two variables -/

/-- The coefficient array `std::array<Real, 6>`; `c0 .. c5` are `c[0] .. c[5]`. -/
structure Coefs (K : Type) where
  c0 : K
  c1 : K
  c2 : K
  c3 : K
  c4 : K
  c5 : K
deriving DecidableEq, Repr

section Approx
variable {K : Type} [LinearOrderedField K]

/-- The function `TorusApprox::Mapping::evaluate` (TorusApprox.cpp:128). -/
def evaluate (c : Coefs K) (u v : K) : K :=
  c.c0 * u * u + c.c1 * v * v + c.c2 * u * v + c.c3 * u + c.c4 * v + c.c5

/-- The block `// Check [ Mu ]` of `TorusApprox::Mapping::calDomainM` (TorusApprox.cpp:139-188).
`none` is the early `return false`, `some b` leaves the block with `posMu = b`. -/
def calDomainM_checkMu (mCoefs : Coefs K) (uDomain vDomain : Domain K) : Option Bool :=
  let Mu00 := 2 * mCoefs.c0 * uDomain.beg + mCoefs.c2 * vDomain.beg + mCoefs.c3
  if Mu00 > 0 then
    if mCoefs.c0 > 0 ∧ mCoefs.c2 > 0 then some true
    else if mCoefs.c0 > 0 then
      let det := 2 * mCoefs.c0 * uDomain.beg + mCoefs.c2 * vDomain.end_ + mCoefs.c3
      if det < 0 then none else some true
    else if mCoefs.c2 > 0 then
      let det := 2 * mCoefs.c0 * uDomain.end_ + mCoefs.c2 * vDomain.beg + mCoefs.c3
      if det < 0 then none else some true
    else
      let det := 2 * mCoefs.c0 * uDomain.end_ + mCoefs.c2 * vDomain.end_ + mCoefs.c3
      if det < 0 then none else some true
  else if Mu00 < 0 then
    if mCoefs.c0 < 0 ∧ mCoefs.c2 < 0 then some false
    else if mCoefs.c0 < 0 then
      let det := 2 * mCoefs.c0 * uDomain.beg + mCoefs.c2 * vDomain.end_ + mCoefs.c3
      if det > 0 then none else some false
    else if mCoefs.c2 < 0 then
      let det := 2 * mCoefs.c0 * uDomain.end_ + mCoefs.c2 * vDomain.beg + mCoefs.c3
      if det > 0 then none else some false
    else
      let det := 2 * mCoefs.c0 * uDomain.end_ + mCoefs.c2 * vDomain.end_ + mCoefs.c3
      if det > 0 then none else some false
  else none

/-- The block `// Check [ Mv ]` of `TorusApprox::Mapping::calDomainM` (TorusApprox.cpp:190-238).
`none` is the early `return false`, `some b` leaves the block with `posMv = b`. -/
def calDomainM_checkMv (mCoefs : Coefs K) (uDomain vDomain : Domain K) : Option Bool :=
  let Mv00 := 2 * mCoefs.c1 * vDomain.beg + mCoefs.c2 * uDomain.beg + mCoefs.c4
  if Mv00 > 0 then
    if mCoefs.c1 > 0 ∧ mCoefs.c2 > 0 then some true
    else if mCoefs.c1 > 0 then
      let det := 2 * mCoefs.c1 * vDomain.beg + mCoefs.c2 * uDomain.end_ + mCoefs.c4
      if det < 0 then none else some true
    else if mCoefs.c2 > 0 then
      let det := 2 * mCoefs.c0 * vDomain.end_ + mCoefs.c2 * uDomain.beg + mCoefs.c4
      if det < 0 then none else some true
    else
      let det := 2 * mCoefs.c0 * vDomain.end_ + mCoefs.c2 * uDomain.end_ + mCoefs.c4
      if det < 0 then none else some true
  else if Mv00 < 0 then
    if mCoefs.c1 < 0 ∧ mCoefs.c2 < 0 then some false
    else if mCoefs.c1 < 0 then
      let det := 2 * mCoefs.c1 * vDomain.beg + mCoefs.c2 * uDomain.end_ + mCoefs.c4
      if det > 0 then none else some false
    else if mCoefs.c2 < 0 then
      let det := 2 * mCoefs.c1 * vDomain.end_ + mCoefs.c2 * uDomain.beg + mCoefs.c4
      if det > 0 then none else some false
    else
      let det := 2 * mCoefs.c1 * vDomain.end_ + mCoefs.c2 * uDomain.end_ + mCoefs.c4
      if det > 0 then none else some false
  else none

/-- The block `// Get min, max value` of `TorusApprox::Mapping::calDomainM`
(TorusApprox.cpp:240-257): the pair `(min, max)`. -/
def calDomainM_minmax (mCoefs : Coefs K) (uDomain vDomain : Domain K) (posMu posMv : Bool) :
    K × K :=
  if posMu && posMv then
    (evaluate mCoefs uDomain.beg vDomain.beg, evaluate mCoefs uDomain.end_ vDomain.end_)
  else if posMu then
    (evaluate mCoefs uDomain.beg vDomain.end_, evaluate mCoefs uDomain.end_ vDomain.beg)
  else if posMv then
    (evaluate mCoefs uDomain.end_ vDomain.beg, evaluate mCoefs uDomain.beg vDomain.end_)
  else
    (evaluate mCoefs uDomain.end_ vDomain.end_, evaluate mCoefs uDomain.beg vDomain.beg)

/-- The function `TorusApprox::Mapping::calDomainM` (TorusApprox.cpp:138-263), its three
blocks in sequence.
`PI` is the half-turn constant; `mDomain` is the output parameter on entry.  The result is the returned flag and the
output parameter on exit (untouched when the function returns `false`). -/
def calDomainM (PI : K) (mCoefs : Coefs K) (uDomain vDomain : Domain K) (mDomain : piDomain K) :
    Bool × piDomain K :=
  match calDomainM_checkMu mCoefs uDomain vDomain with
  | none => (false, mDomain)
  | some posMu =>
    match calDomainM_checkMv mCoefs uDomain vDomain with
    | none => (false, mDomain)
    | some posMv =>
      let mm := calDomainM_minmax mCoefs uDomain vDomain posMu posMv
      if mm.2 - mm.1 < PI20 PI then (true, piDomain.set mm.1 mm.2)
      else (true, piDomain.set 0 (PI20 PI))

/-- The block `// Check [ Nu ]` of `TorusApprox::Mapping::calDomainN` (TorusApprox.cpp:265-314).
`none` is the early `return false`, `some b` leaves the block with `posNu = b`. -/
def calDomainN_checkNu (nCoefs : Coefs K) (uDomain vDomain : Domain K) : Option Bool :=
  let Nu00 := 2 * nCoefs.c0 * uDomain.beg + nCoefs.c2 * vDomain.beg + nCoefs.c3
  if Nu00 > 0 then
    if nCoefs.c0 > 0 ∧ nCoefs.c2 > 0 then some true
    else if nCoefs.c0 > 0 then
      let det := 2 * nCoefs.c0 * uDomain.beg + nCoefs.c2 * vDomain.end_ + nCoefs.c3
      if det < 0 then none else some true
    else if nCoefs.c2 > 0 then
      let det := 2 * nCoefs.c0 * uDomain.end_ + nCoefs.c2 * vDomain.beg + nCoefs.c3
      if det < 0 then none else some true
    else
      let det := 2 * nCoefs.c0 * uDomain.end_ + nCoefs.c2 * vDomain.end_ + nCoefs.c3
      if det < 0 then none else some true
  else if Nu00 < 0 then
    if nCoefs.c0 < 0 ∧ nCoefs.c2 < 0 then some false
    else if nCoefs.c0 < 0 then
      let det := 2 * nCoefs.c0 * uDomain.beg + nCoefs.c2 * vDomain.end_ + nCoefs.c3
      if det > 0 then none else some false
    else if nCoefs.c2 < 0 then
      let det := 2 * nCoefs.c0 * uDomain.end_ + nCoefs.c2 * vDomain.beg + nCoefs.c3
      if det > 0 then none else some false
    else
      let det := 2 * nCoefs.c0 * uDomain.end_ + nCoefs.c2 * vDomain.end_ + nCoefs.c3
      if det > 0 then none else some false
  else none

/-- The block `// Check [ Nv ]` of `TorusApprox::Mapping::calDomainN` (TorusApprox.cpp:316-364).
`none` is the early `return false`, `some b` leaves the block with `posNv = b`. -/
def calDomainN_checkNv (nCoefs : Coefs K) (uDomain vDomain : Domain K) : Option Bool :=
  let Nv00 := 2 * nCoefs.c1 * vDomain.beg + nCoefs.c2 * uDomain.beg + nCoefs.c4
  if Nv00 > 0 then
    if nCoefs.c1 > 0 ∧ nCoefs.c2 > 0 then some true
    else if nCoefs.c1 > 0 then
      let det := 2 * nCoefs.c1 * vDomain.beg + nCoefs.c2 * uDomain.end_ + nCoefs.c4
      if det < 0 then none else some true
    else if nCoefs.c2 > 0 then
      let det := 2 * nCoefs.c1 * vDomain.end_ + nCoefs.c2 * uDomain.beg + nCoefs.c4
      if det < 0 then none else some true
    else
      let det := 2 * nCoefs.c1 * vDomain.end_ + nCoefs.c2 * uDomain.end_ + nCoefs.c4
      if det < 0 then none else some true
  else if Nv00 < 0 then
    if nCoefs.c1 < 0 ∧ nCoefs.c2 < 0 then some false
    else if nCoefs.c1 < 0 then
      let det := 2 * nCoefs.c1 * vDomain.beg + nCoefs.c2 * uDomain.end_ + nCoefs.c4
      if det > 0 then none else some false
    else if nCoefs.c2 < 0 then
      let det := 2 * nCoefs.c1 * vDomain.end_ + nCoefs.c2 * uDomain.beg + nCoefs.c4
      if det > 0 then none else some false
    else
      let det := 2 * nCoefs.c1 * vDomain.end_ + nCoefs.c2 * uDomain.end_ + nCoefs.c4
      if det > 0 then none else some false
  else none

/-- The block `// Get min, max value` of `TorusApprox::Mapping::calDomainN`
(TorusApprox.cpp:366-383): the pair `(min, max)`. -/
def calDomainN_minmax (nCoefs : Coefs K) (uDomain vDomain : Domain K) (posNu posNv : Bool) :
    K × K :=
  if posNu && posNv then
    (evaluate nCoefs uDomain.beg vDomain.beg, evaluate nCoefs uDomain.end_ vDomain.end_)
  else if posNu then
    (evaluate nCoefs uDomain.beg vDomain.end_, evaluate nCoefs uDomain.end_ vDomain.beg)
  else if posNv then
    (evaluate nCoefs uDomain.end_ vDomain.beg, evaluate nCoefs uDomain.beg vDomain.end_)
  else
    (evaluate nCoefs uDomain.end_ vDomain.end_, evaluate nCoefs uDomain.beg vDomain.beg)

/-- The function `TorusApprox::Mapping::calDomainN` (TorusApprox.cpp:264-389), its three
blocks in sequence.
`PI` is the half-turn constant; `nDomain` is the output parameter on entry.  The result is the returned flag and the
output parameter on exit (untouched when the function returns `false`). -/
def calDomainN (PI : K) (nCoefs : Coefs K) (uDomain vDomain : Domain K) (nDomain : piDomain K) :
    Bool × piDomain K :=
  match calDomainN_checkNu nCoefs uDomain vDomain with
  | none => (false, nDomain)
  | some posNu =>
    match calDomainN_checkNv nCoefs uDomain vDomain with
    | none => (false, nDomain)
    | some posNv =>
      let mm := calDomainN_minmax nCoefs uDomain vDomain posNu posNv
      if mm.2 - mm.1 < PI20 PI then (true, piDomain.set mm.1 mm.2)
      else (true, piDomain.set 0 (PI20 PI))

/-! ## The quadratic mapping -/

/-- Modelled from the spec: the fields of `SurfaceInfo` (header not among the sources)
read by `TorusApprox`, the "SurfaceSample" of the spec: the sample parameters `u`, `v`, the point `F`, the first and second derivatives, the
parameter rectangle and the third-derivative bounds `M1 .. M4`. -/
structure SurfaceInfo (K : Type) where
  u : K
  v : K
  F : Vec3 K
  Fu : Vec3 K
  Fv : Vec3 K
  Fuu : Vec3 K
  Fuv : Vec3 K
  Fvv : Vec3 K
  uDomain : Domain K
  vDomain : Domain K
  M1 : K
  M2 : K
  M3 : K
  M4 : K

/-- Modelled from the spec: the data members of `TorusApprox::Mapping` (declared in a
header not among the sources), the anchor `(m0, n0)` and the four coefficient arrays. -/
structure Mapping (K : Type) where
  m0 : K
  n0 : K
  mCoefs : Coefs K
  nCoefs : Coefs K
  uCoefs : Coefs K
  vCoefs : Coefs K

/-- The function `TorusApprox::Mapping::set` (TorusApprox.cpp:14-119).  The collaborators that are not
among the sources enter as parameters: `factorize` is `Vec3::factorize`, `len` is
`Vec3::len`, and `G i j` is `torus.transform.applyR(torus.patch.differentiate(m, n, i, j))`,
the rotated torus derivative of order `(i, j)` at the anchor. -/
def Mapping.set (factorize : Vec3 K → Vec3 K → Bool → K) (len : Vec3 K → K)
    (surface : SurfaceInfo K) (G : Nat → Nat → Vec3 K) (m n : K) : Mapping K :=
  let u := surface.u
  let v := surface.v
  let Fuu := surface.Fuu
  let Fuv := surface.Fuv
  let Fvv := surface.Fvv
  let Fu := surface.Fu
  let Fv := surface.Fv
  let Gmm := G 2 0
  let Gmn := G 1 1
  let Gnn := G 0 2
  let Gm := G 1 0
  let Gn := G 0 1
  -- M, N Coefs
  let Gm_len := len Gm
  let Gn_len := len Gn
  let Gm_len2 := Gm_len * Gm_len
  let Gn_len2 := Gn_len * Gn_len
  let A := factorize Fu Gm true / Gm_len2
  let B := factorize Fu Gn true / Gn_len2
  let C := factorize Fv Gm true / Gm_len2
  let D := factorize Fv Gn true / Gn_len2
  let helperA := Fuu - Gmm * A * A - Gmn * (2 : K) * A * B - Gnn * B * B
  let helperB := Fvv - Gmm * C * C - Gmn * (2 : K) * C * D - Gnn * D * D
  let helperC := Fuv - Gmm * A * C - Gmn * (A * D + B * C) - Gnn * C * D
  let mCoefs0 := factorize helperA Gm true * 0.5 / Gm_len2
  let mCoefs1 := factorize helperB Gm true * 0.5 / Gm_len2
  let mCoefs2 := factorize helperC Gm true / Gm_len2
  let mCoefs3 := A - 2 * mCoefs0 * u - mCoefs2 * v
  let mCoefs4 := C - 2 * mCoefs1 * v - mCoefs2 * u
  let mCoefs5 := m - mCoefs0 * u * u - mCoefs1 * v * v - mCoefs2 * u * v - mCoefs3 * u
    - mCoefs4 * v
  let nCoefs0 := factorize helperA Gn true * 0.5 / Gn_len2
  let nCoefs1 := factorize helperB Gn true * 0.5 / Gn_len2
  let nCoefs2 := factorize helperC Gn true / Gn_len2
  let nCoefs3 := B - 2 * nCoefs0 * u - nCoefs2 * v
  let nCoefs4 := D - 2 * nCoefs1 * v - nCoefs2 * u
  let nCoefs5 := n - nCoefs0 * u * u - nCoefs1 * v * v - nCoefs2 * u * v - nCoefs3 * u
    - nCoefs4 * v
  -- U, V Coefs
  let A := factorize Gm Fu false
  let B := factorize Gm Fv false
  let C := factorize Gn Fu false
  let D := factorize Gn Fv false
  -- C1
  let terms0 := Fuu * A * A
  let terms1 := Fvv * B * B
  let terms2 := Fuv * (2 : K) * A * B
  let res1 := Gmm - terms0 - terms1 - terms2
  let uCoefs0 := factorize res1 Fu false * 0.5
  let vCoefs0 := factorize res1 Fv false * 0.5
  -- C2
  let terms0 := Fuu * C * C
  let terms1 := Fvv * D * D
  let terms2 := Fuv * (2 : K) * C * D
  let res2 := Gnn - terms0 - terms1 - terms2
  let uCoefs1 := factorize res2 Fu false * 0.5
  let vCoefs1 := factorize res2 Fv false * 0.5
  -- C3
  let terms0 := Fuu * A * C
  let terms1 := Fvv * B * D
  let terms2 := Fuv * (A * D + B * C)
  let res3 := Gmn - terms0 - terms1 - terms2
  let uCoefs2 := factorize res3 Fu false
  let vCoefs2 := factorize res3 Fv false
  -- C4
  let uCoefs3 := A - 2 * uCoefs0 * m - uCoefs2 * n
  let vCoefs3 := B - 2 * vCoefs0 * m - vCoefs2 * n
  -- C5
  let uCoefs4 := C - 2 * uCoefs1 * n - uCoefs2 * m
  let vCoefs4 := D - 2 * vCoefs1 * n - vCoefs2 * m
  -- C6
  let uCoefs5 := u - uCoefs0 * m * m - uCoefs1 * n * n - uCoefs2 * m * n - uCoefs3 * m
    - uCoefs4 * n
  let vCoefs5 := v - vCoefs0 * m * m - vCoefs1 * n * n - vCoefs2 * m * n - vCoefs3 * m
    - vCoefs4 * n
  { m0 := m
    n0 := n
    mCoefs := ⟨mCoefs0, mCoefs1, mCoefs2, mCoefs3, mCoefs4, mCoefs5⟩
    nCoefs := ⟨nCoefs0, nCoefs1, nCoefs2, nCoefs3, nCoefs4, nCoefs5⟩
    uCoefs := ⟨uCoefs0, uCoefs1, uCoefs2, uCoefs3, uCoefs4, uCoefs5⟩
    vCoefs := ⟨vCoefs0, vCoefs1, vCoefs2, vCoefs3, vCoefs4, vCoefs5⟩ }

/-- The function `TorusApprox::Mapping::calMN` (TorusApprox.cpp:120): the pair `(m, n)` it writes. -/
def Mapping.calMN (mp : Mapping K) (u v : K) : K × K :=
  (evaluate mp.mCoefs u v, evaluate mp.nCoefs u v)

/-- The function `TorusApprox::Mapping::calUV` (TorusApprox.cpp:124): the pair `(u, v)` it writes. -/
def Mapping.calUV (mp : Mapping K) (m n : K) : K × K :=
  (evaluate mp.uCoefs m n, evaluate mp.vCoefs m n)

/-! ## The position error bound -/

/-- Modelled from the spec: the data members of `TorusPatch` (header not among the
sources) read here, the two radii and the parameter domains. -/
structure TorusPatch (K : Type) where
  majorRadius : K
  minorRadius : K
  uDomain : piDomain K
  vDomain : piDomain K

/-- The local variables of `TorusApprox::Mapping::calPositionErrorUpperBound` at its end. -/
structure PositionErrorLocals (K : Type) where
  Mu : K
  Mv : K
  Nu : K
  Nv : K
  Muu : K
  Muv : K
  Mvv : K
  Nuu : K
  Nuv : K
  Nvv : K
  Gmmm : K
  Gmmn : K
  Gmnn : K
  Gnnn : K
  Gmm : K
  Gmn : K
  Gnn : K
  N1 : K
  N2 : K
  N3 : K
  N4 : K

/-- The body of `TorusApprox::Mapping::calPositionErrorUpperBound` (TorusApprox.cpp:467-567)
with all its local variables.  `cos` and `sin` are the functions of the C math library,
`PI` the half-turn constant, `fabs` is the absolute value. -/
def Mapping.calPositionErrorUpperBound_locals (cos sin : K → K) (PI : K) (mp : Mapping K)
    (patch : TorusPatch K) (uDomain vDomain : Domain K) : PositionErrorLocals K :=
  let mCoefs := mp.mCoefs
  let nCoefs := mp.nCoefs
  let n0 := mp.n0
  let Mu := |2 * mCoefs.c0 * uDomain.beg + mCoefs.c2 * vDomain.beg + mCoefs.c3|
  let tMu := |2 * mCoefs.c0 * uDomain.beg + mCoefs.c2 * vDomain.end_ + mCoefs.c3|
  let Mu := if tMu > Mu then tMu else Mu
  let tMu := |2 * mCoefs.c0 * uDomain.end_ + mCoefs.c2 * vDomain.beg + mCoefs.c3|
  let Mu := if tMu > Mu then tMu else Mu
  let tMu := |2 * mCoefs.c0 * uDomain.end_ + mCoefs.c2 * vDomain.end_ + mCoefs.c3|
  let Mu := if tMu > Mu then tMu else Mu
  let Mv := |2 * mCoefs.c1 * vDomain.beg + mCoefs.c2 * uDomain.beg + mCoefs.c4|
  let tMv := |2 * mCoefs.c1 * vDomain.beg + mCoefs.c2 * uDomain.end_ + mCoefs.c4|
  let Mv := if tMv > Mv then tMv else Mv
  let tMv := |2 * mCoefs.c1 * vDomain.end_ + mCoefs.c2 * uDomain.beg + mCoefs.c4|
  let Mv := if tMv > Mv then tMv else Mv
  let tMv := |2 * mCoefs.c1 * vDomain.end_ + mCoefs.c2 * uDomain.end_ + mCoefs.c4|
  let Mv := if tMv > Mv then tMv else Mv
  let Nu := |2 * nCoefs.c0 * uDomain.beg + nCoefs.c2 * vDomain.beg + nCoefs.c3|
  let tNu := |2 * nCoefs.c0 * uDomain.beg + nCoefs.c2 * vDomain.end_ + nCoefs.c3|
  let Nu := if tNu > Nu then tNu else Nu
  let tNu := |2 * nCoefs.c0 * uDomain.end_ + nCoefs.c2 * vDomain.beg + nCoefs.c3|
  let Nu := if tNu > Nu then tNu else Nu
  let tNu := |2 * nCoefs.c0 * uDomain.end_ + nCoefs.c2 * vDomain.end_ + nCoefs.c3|
  let Nu := if tNu > Nu then tNu else Nu
  let Nv := |2 * nCoefs.c1 * vDomain.beg + nCoefs.c2 * uDomain.beg + nCoefs.c4|
  let tNv := |2 * nCoefs.c1 * vDomain.beg + nCoefs.c2 * uDomain.end_ + nCoefs.c4|
  let Nv := if tNv > Nv then tNv else Nv
  let tNv := |2 * nCoefs.c1 * vDomain.end_ + nCoefs.c2 * uDomain.beg + nCoefs.c4|
  let Nv := if tNv > Nv then tNv else Nv
  let tNv := |2 * nCoefs.c1 * vDomain.end_ + nCoefs.c2 * uDomain.end_ + nCoefs.c4|
  let Nv := if tNv > Nv then tNv else Nv
  let Muu := |2 * mCoefs.c0|
  let Muv := |mCoefs.c2|
  let Mvv := |2 * mCoefs.c1|
  let Nuu := |2 * nCoefs.c0|
  let Nuv := |nCoefs.c2|
  let Nvv := |2 * nCoefs.c1|
  let nDomain := patch.vDomain
  let Gs : K × K × K × K :=
    if n0 = 0 then
      (patch.majorRadius + patch.minorRadius,
       (if nDomain.width > PI then patch.minorRadius
        else patch.minorRadius * |sin nDomain.end_|),
       patch.minorRadius,
       patch.minorRadius)
    else
      (patch.majorRadius + patch.minorRadius * cos nDomain.beg,
       (if nDomain.width > PI then patch.minorRadius
        else patch.minorRadius * |sin nDomain.end_|),
       patch.minorRadius,
       patch.minorRadius)
  let Gmmm := Gs.1
  let Gmmn := Gs.2.1
  let Gmnn := Gs.2.2.1
  let Gnnn := Gs.2.2.2
  let Gmm := Gmmm
  let Gmn := Gmmn
  let Gnn := Gnnn
  let N1 := (Gmmm * Mu * Mu * Mu) + 3 * (Gmmn * Mu * Mu * Nu) + 3 * (Gmnn * Mu * Nu * Nu)
    + (Gnnn * Nu * Nu * Nu)
    + 3 * (Gmm * Mu * Muu) + 3 * (Gnn * Nu * Nuu) + 3 * (Gmn * (Muu * Nu + Mu * Nuu))
  let N2 := (Gmmm * Mu * Mu * Mv) + (Gmmn * (Mu * Mu * Nv + 2 * Mu * Nu * Mv))
    + (Gmnn * (Mv * Nu * Nu + 2 * Mu * Nu * Nv))
    + (Gnnn * Nu * Nu * Nv) + (Gmm * (2 * Mu * Muv + Muu * Mv))
    + (Gnn * (2 * Nu * Nuv + Nuu * Nv))
    + (Gmn * (2 * Muv * Nu + 2 * Nuv * Mu + Muu * Nv + Nuu * Mv))
  let N3 := (Gmmm * Mv * Mv * Mu) + (Gmmn * (Mv * Mv * Nu + 2 * Mv * Nv * Mu))
    + (Gmnn * (Mu * Nv * Nv + 2 * Mv * Nv * Nu))
    + (Gnnn * Nv * Nv * Nu) + (Gmm * (2 * Mv * Muv + Mvv * Mu))
    + (Gnn * (2 * Nv * Nuv + Nvv * Nu))
    + (Gmn * (2 * Muv * Nv + 2 * Nuv * Mv + Mvv * Nu + Nvv * Mu))
  let N4 := (Gmmm * Mv * Mv * Mv) + 3 * (Gmmn * Mv * Mv * Nv) + 3 * (Gmnn * Mv * Nv * Nv)
    + (Gnnn * Nv * Nv * Nv)
    + 3 * (Gmm * Mv * Mvv) + 3 * (Gnn * Nv * Nvv) + 3 * (Gmn * (Mvv * Nv + Mv * Nvv))
  { Mu := Mu, Mv := Mv, Nu := Nu, Nv := Nv, Muu := Muu, Muv := Muv, Mvv := Mvv,
    Nuu := Nuu, Nuv := Nuv, Nvv := Nvv, Gmmm := Gmmm, Gmmn := Gmmn, Gmnn := Gmnn,
    Gnnn := Gnnn, Gmm := Gmm, Gmn := Gmn, Gnn := Gnn, N1 := N1, N2 := N2, N3 := N3, N4 := N4 }

/-- The function `TorusApprox::Mapping::calPositionErrorUpperBound` (TorusApprox.cpp:467): the values
written to the output parameters `(N1, N2, N3, N4)`. -/
def Mapping.calPositionErrorUpperBound (cos sin : K → K) (PI : K) (mp : Mapping K)
    (patch : TorusPatch K) (uDomain vDomain : Domain K) : K × K × K × K :=
  let l := mp.calPositionErrorUpperBound_locals cos sin PI patch uDomain vDomain
  (l.N1, l.N2, l.N3, l.N4)

/-! ## The torus fit -/

/-- Modelled from the spec: the data members of `TorusApprox` (header not among the
sources) set by `create`, the rigid placement apart. -/
structure TorusApprox (K : Type) where
  patch : TorusPatch K
  mapping : Mapping K
  validPatchDomain : Bool
  positionError : K

/-- The constant `curvatureEps = 1e-7` of `TorusApprox::create` (TorusApprox.cpp:633). -/
def curvatureEps : K := 1 / 10000000

/-- The clamp step of `TorusApprox::create` (TorusApprox.cpp:636-639), for one curvature:
`if (fabs(k) < curvatureEps) k = (k < 0 ? -curvatureEps : curvatureEps);`. -/
def create_clamp (k : K) : K :=
  if |k| < curvatureEps then (if k < 0 then -curvatureEps else curvatureEps) else k

/-- The state of `TorusApprox::create` after the clamp, anchor, swap and flip steps
(TorusApprox.cpp:633-663): the curvatures, the anchor `(m, n)`, whether the principal
directions were swapped and whether the normal was negated. -/
structure CurvatureState (K : Type) where
  k1 : K
  k2 : K
  m : K
  n : K
  swapped : Bool
  flipped : Bool

/-- The steps of `TorusApprox::create` at lines 633-663: clamp both curvatures away from zero, choose the
anchor, order the curvatures by magnitude and make `k1` negative. -/
def create_curvature (PI : K) (k1 k2 : K) : CurvatureState K :=
  let k1 := if |k1| < curvatureEps then (if k1 < 0 then -curvatureEps else curvatureEps) else k1
  let k2 := if |k2| < curvatureEps then (if k2 < 0 then -curvatureEps else curvatureEps) else k2
  -- Map surface(u, v) to proper torus parameters
  let mn : K × K := if k1 * k2 < 0 then (0, PI) else (0, 0)
  let sw : Bool := decide (|k1| > |k2|)
  let k12 : K × K := if |k1| > |k2| then (k2, k1) else (k1, k2)
  let fl : Bool := decide (k12.1 > 0)
  let k12 : K × K := if k12.1 > 0 then (k12.1 * -1, k12.2 * -1) else k12
  { k1 := k12.1, k2 := k12.2, m := mn.1, n := mn.2, swapped := sw, flipped := fl }

/-- The block `// Set Torus Patch Domain` of `TorusApprox::create` (TorusApprox.cpp:697-712):
the values it gives to `ta.patch.uDomain`, `ta.patch.vDomain` and `ta.validPatchDomain`.
`dflt` is a default-constructed `piDomain`, the initial value of the locals `mDomain` and
`nDomain`. -/
def create_patchDomain (PI : K) (mapping : Mapping K) (surface : SurfaceInfo K)
    (dflt : piDomain K) : piDomain K × piDomain K × Bool :=
  let rM := calDomainM PI mapping.mCoefs surface.uDomain surface.vDomain dflt
  let rN := calDomainN PI mapping.nCoefs surface.uDomain surface.vDomain dflt
  let validM := rM.1
  let mDomain := rM.2
  let validN := rN.1
  let nDomain := rN.2
  if validM && validN then (mDomain, nDomain, true)
  else (piDomain.set 0 (PI20 PI), piDomain.set 0 (PI20 PI), false)

/-- The block `// Set Error Bound` of `TorusApprox::create` (TorusApprox.cpp:714-727): the
value it gives to `ta.positionError`. -/
def create_positionError (cos sin : K → K) (PI : K) (mapping : Mapping K)
    (patch : TorusPatch K) (surface : SurfaceInfo K) : K :=
  let L1 := surface.uDomain.width * 0.5
  let L2 := surface.vDomain.width * 0.5
  let M1 := surface.M1
  let M2 := surface.M2
  let M3 := surface.M3
  let M4 := surface.M4
  let N := mapping.calPositionErrorUpperBound cos sin PI patch surface.uDomain surface.vDomain
  let N1 := N.1
  let N2 := N.2.1
  let N3 := N.2.2.1
  let N4 := N.2.2.2
  (2 / 3) * ((L1 * L1 * L1) * (M1 + N1) + 3 * (L1 * L1 * L2) * (M2 + N2)
    + 3 * (L1 * L2 * L2) * (M3 + N3) + (L2 * L2 * L2) * (M4 + N4))

/-- The function `TorusApprox::create` (TorusApprox.cpp:570-729) from the principal
curvatures on.
`k1`, `k2` are the principal curvatures computed at lines 586-602; `G i j` stands for the
torus derivatives rotated by the placement built at lines 664-690 (see `Mapping.set`);
`dflt` is a default-constructed `piDomain`.  The result holds the radii, the mapping, the
patch domains, the validity flag and the error bound. -/
def create (cos sin : K → K) (PI : K) (factorize : Vec3 K → Vec3 K → Bool → K)
    (len : Vec3 K → K) (dflt : piDomain K) (surface : SurfaceInfo K)
    (G : Nat → Nat → Vec3 K) (k1 k2 : K) : TorusApprox K :=
  let cs := create_curvature PI k1 k2
  let k1 := cs.k1
  let k2 := cs.k2
  let m := cs.m
  let n := cs.n
  let majorRadius := -1 / k1 + 1 / k2
  let minorRadius := 1 / |k2|
  -- Set [H].
  let mapping := Mapping.set factorize len surface G m n
  -- Set Torus Patch Domain
  let pd := create_patchDomain PI mapping surface dflt
  let patch : TorusPatch K :=
    { majorRadius := majorRadius, minorRadius := minorRadius, uDomain := pd.1, vDomain := pd.2.1 }
  -- Set Error Bound
  { patch := patch, mapping := mapping, validPatchDomain := pd.2.2,
    positionError := create_positionError cos sin PI mapping patch surface }

end Approx

/-! ## The Gauss map of a torus patch -/

section Gaussmap
variable {K : Type} [LinearOrderedField K] [FloorRing K]

/-- Modelled from the spec: `piDomain::regularize` (header not among the sources), the
"operation mapping an arbitrary angle to its canonical representative in [0, 2π)". -/
def piDomain.regularize (PI : K) (x : K) : K :=
  x - PI20 PI * ((Int.floor (x / PI20 PI) : ℤ) : K)

/-- Modelled from the spec: `piDomain::has` (header not among the sources), the "membership
test that accounts for wraparound": `x` is a member when one of its full-turn translates
lies in `[beg, end]`, that is when the canonical representative of `x - beg` is at most the
width `end - beg`. -/
def piDomain.has (PI : K) (d : piDomain K) (x : K) : Bool :=
  decide (piDomain.regularize PI (x - d.beg) ≤ d.end_ - d.beg)

/-- Modelled from the spec: the class `Gaussmap` (header not among the sources), "a
rectangle in angular parameter space"; `Gaussmap::create(uDomain, vDomain)` is the
constructor `Gaussmap.mk`. -/
structure Gaussmap (K : Type) where
  uDomain : piDomain K
  vDomain : piDomain K
deriving DecidableEq, Repr

/-- The data members of `TorusPatchGaussmap` (TorusGaussmap.h:22-36); the arrays
`gaussmap[4]`, `iGaussmap[4]` and `validGaussmap[4]` are spelled out entry by entry. -/
structure TorusPatchGaussmap (K : Type) where
  patch : TorusPatch K
  gaussmap0 : Gaussmap K
  gaussmap1 : Gaussmap K
  gaussmap2 : Gaussmap K
  gaussmap3 : Gaussmap K
  iGaussmap0 : Gaussmap K
  iGaussmap1 : Gaussmap K
  iGaussmap2 : Gaussmap K
  iGaussmap3 : Gaussmap K
  validGaussmap0 : Bool
  validGaussmap1 : Bool
  validGaussmap2 : Bool
  validGaussmap3 : Bool

namespace TorusPatchGaussmap

/-- Modelled from the spec: the static constant `h1` (defined outside the sources), the
reference half-domain "h1 = [−π/2, π/2]". -/
def h1 (PI : K) : piDomain K := piDomain.create (-(PI05 PI)) (PI05 PI)

/-- Modelled from the spec: the static table `uInversion` (defined outside the sources):
the u-domain is "the patch's own u-domain (outward variants) or that domain shifted by π
(inward variants)"; entries 0, 1 are the outward and 2, 3 the inward regions. -/
def uInversion (i : Fin 4) : Bool := decide (2 ≤ i.val)

/-- The function `TorusPatchGaussmap::invertGaussmapDomainU` (TorusGaussmap.h:44). -/
def invertGaussmapDomainU (PI : K) (uDomain : piDomain K) : piDomain K :=
  piDomain.create (uDomain.beg + PI) (uDomain.end_ + PI)

/-- The function `TorusPatchGaussmap::invertGaussmapDomainV` (TorusGaussmap.h:47). -/
def invertGaussmapDomainV (PI : K) (vDomain : piDomain K) : piDomain K :=
  piDomain.create (PI - vDomain.end_) (PI - vDomain.beg)

/-- The function `TorusPatchGaussmap::invertGaussmap` (TorusGaussmap.h:50). -/
def invertGaussmap (PI : K) (gaussmap : Gaussmap K) : Gaussmap K :=
  let uDomain := invertGaussmapDomainU PI gaussmap.uDomain
  let vDomain := invertGaussmapDomainV PI gaussmap.vDomain
  ⟨uDomain, vDomain⟩

/-- The branches of `TorusPatchGaussmap::create(patch)` (TorusGaussmap.h:56-153): the object
after the u-domain loop and the case analysis on the n-domain, before the final loop that
fills `iGaussmap`.  `dflt` is the value of `Gaussmap::create()`, with which every entry of
`gaussmap` and `iGaussmap` starts. -/
def create_regions (PI : K) (dflt : Gaussmap K) (patch : TorusPatch K) :
    TorusPatchGaussmap K :=
  let u0 :=
    if uInversion 0 then invertGaussmapDomainU PI patch.uDomain else patch.uDomain
  let u1 :=
    if uInversion 1 then invertGaussmapDomainU PI patch.uDomain else patch.uDomain
  let u2 :=
    if uInversion 2 then invertGaussmapDomainU PI patch.uDomain else patch.uDomain
  let u3 :=
    if uInversion 3 then invertGaussmapDomainU PI patch.uDomain else patch.uDomain
  let vIncludePI05 := patch.vDomain.has PI (PI05 PI)
  let vIncludePI15 := patch.vDomain.has PI (PI15 PI)
  if vIncludePI05 && vIncludePI15 then
    -- @TODO : In this case, just set [ vDomain ] of every gaussmap to [ 0, PI ]...
    { patch := patch
      gaussmap0 := ⟨u0, piDomain.set 0 PI⟩
      gaussmap1 := ⟨u1, piDomain.set 0 PI⟩
      gaussmap2 := ⟨u2, piDomain.set 0 PI⟩
      gaussmap3 := ⟨u3, piDomain.set 0 PI⟩
      iGaussmap0 := dflt, iGaussmap1 := dflt, iGaussmap2 := dflt, iGaussmap3 := dflt
      validGaussmap0 := true, validGaussmap1 := true
      validGaussmap2 := true, validGaussmap3 := true }
  else if vIncludePI05 then
    let h12 : K × K :=
      if (h1 PI).has PI patch.vDomain.beg then
        (piDomain.regularize PI patch.vDomain.beg, piDomain.regularize PI patch.vDomain.end_)
      else
        (piDomain.regularize PI patch.vDomain.end_, piDomain.regularize PI patch.vDomain.beg)
    let h1v := if h12.1 ≥ PI15 PI then h12.1 - PI20 PI else h12.1
    let h2v := h12.2
    let v0 := piDomain.set 0 (PI05 PI - h1v)
    let v1 := piDomain.set 0 (h2v - PI05 PI)
    let v2 := invertGaussmapDomainV PI v0
    let v3 := invertGaussmapDomainV PI v1
    { patch := patch
      gaussmap0 := ⟨u0, v0⟩, gaussmap1 := ⟨u1, v1⟩, gaussmap2 := ⟨u2, v2⟩, gaussmap3 := ⟨u3, v3⟩
      iGaussmap0 := dflt, iGaussmap1 := dflt, iGaussmap2 := dflt, iGaussmap3 := dflt
      validGaussmap0 := true, validGaussmap1 := true
      validGaussmap2 := true, validGaussmap3 := true }
  else if vIncludePI15 then
    let h12 : K × K :=
      if (h1 PI).has PI patch.vDomain.beg then
        (piDomain.regularize PI patch.vDomain.beg, piDomain.regularize PI patch.vDomain.end_)
      else
        (piDomain.regularize PI patch.vDomain.end_, piDomain.regularize PI patch.vDomain.beg)
    let h1v := if h12.1 ≥ PI15 PI then h12.1 - PI20 PI else h12.1
    let h2v := h12.2
    let v0 := piDomain.set (h1v + PI05 PI) PI
    let v1 := piDomain.set (PI15 PI - h2v) PI
    let v2 := invertGaussmapDomainV PI v0
    let v3 := invertGaussmapDomainV PI v1
    { patch := patch
      gaussmap0 := ⟨u0, v0⟩, gaussmap1 := ⟨u1, v1⟩, gaussmap2 := ⟨u2, v2⟩, gaussmap3 := ⟨u3, v3⟩
      iGaussmap0 := dflt, iGaussmap1 := dflt, iGaussmap2 := dflt, iGaussmap3 := dflt
      validGaussmap0 := true, validGaussmap1 := true
      validGaussmap2 := true, validGaussmap3 := true }
  else if (h1 PI).has PI patch.vDomain.beg then
    let vBegin := piDomain.regularize PI patch.vDomain.beg
    let vBegin := if vBegin ≥ PI15 PI then PI - (vBegin - PI15 PI) else PI05 PI - vBegin
    let vEnd := piDomain.regularize PI patch.vDomain.end_
    let vEnd := if vEnd ≥ PI15 PI then PI - (vEnd - PI15 PI) else PI05 PI - vEnd
    let be : K × K := if vBegin > vEnd then (vEnd, vBegin) else (vBegin, vEnd)
    let v0 := piDomain.set be.1 be.2
    let v2 := invertGaussmapDomainV PI v0
    { patch := patch
      gaussmap0 := ⟨u0, v0⟩, gaussmap1 := ⟨u1, dflt.vDomain⟩
      gaussmap2 := ⟨u2, v2⟩, gaussmap3 := ⟨u3, dflt.vDomain⟩
      iGaussmap0 := dflt, iGaussmap1 := dflt, iGaussmap2 := dflt, iGaussmap3 := dflt
      validGaussmap0 := true, validGaussmap1 := false
      validGaussmap2 := true, validGaussmap3 := false }
  else
    let vBegin := piDomain.regularize PI patch.vDomain.beg
    let vBegin := vBegin - PI05 PI
    let vEnd := piDomain.regularize PI patch.vDomain.end_
    let vEnd := vEnd - PI05 PI
    let v0 := dflt.vDomain
    let v1 := piDomain.set vBegin vEnd
    let v3 := invertGaussmapDomainV PI v0
    { patch := patch
      gaussmap0 := ⟨u0, v0⟩, gaussmap1 := ⟨u1, v1⟩
      gaussmap2 := ⟨u2, dflt.vDomain⟩, gaussmap3 := ⟨u3, v3⟩
      iGaussmap0 := dflt, iGaussmap1 := dflt, iGaussmap2 := dflt, iGaussmap3 := dflt
      validGaussmap0 := false, validGaussmap1 := true
      validGaussmap2 := false, validGaussmap3 := true }

/-- The function `TorusPatchGaussmap::create(patch)` (TorusGaussmap.h:56-159): the regions, then the
final loop (lines 155-157) that inverts every valid region into `iGaussmap`. -/
def create (PI : K) (dflt : Gaussmap K) (patch : TorusPatch K) : TorusPatchGaussmap K :=
  let tpg := create_regions PI dflt patch
  { tpg with
    iGaussmap0 := if tpg.validGaussmap0 then invertGaussmap PI tpg.gaussmap0 else tpg.iGaussmap0
    iGaussmap1 := if tpg.validGaussmap1 then invertGaussmap PI tpg.gaussmap1 else tpg.iGaussmap1
    iGaussmap2 := if tpg.validGaussmap2 then invertGaussmap PI tpg.gaussmap2 else tpg.iGaussmap2
    iGaussmap3 := if tpg.validGaussmap3 then invertGaussmap PI tpg.gaussmap3 else tpg.iGaussmap3 }

end TorusPatchGaussmap

end Gaussmap

section Approx
variable {K : Type} [LinearOrderedField K]

/-! ## Proof-side notions for the domain bounds -/

/-- The common shape of the blocks `Check [ Mu ]`, `Check [ Nu ]` and `Check [ Nv ]`: the
sign test of the affine form `2*a*x + b*y + k` on the rectangle `[x0, x1] x [y0, y1]`,
looking at the corner `(x0, y0)` and at the corner picked by the signs of `a` and `b`. -/
def cornerSign (a b k x0 x1 y0 y1 : K) : Option Bool :=
  let d00 := 2 * a * x0 + b * y0 + k
  if d00 > 0 then
    if a > 0 ∧ b > 0 then some true
    else if a > 0 then
      let det := 2 * a * x0 + b * y1 + k
      if det < 0 then none else some true
    else if b > 0 then
      let det := 2 * a * x1 + b * y0 + k
      if det < 0 then none else some true
    else
      let det := 2 * a * x1 + b * y1 + k
      if det < 0 then none else some true
  else if d00 < 0 then
    if a < 0 ∧ b < 0 then some false
    else if a < 0 then
      let det := 2 * a * x0 + b * y1 + k
      if det > 0 then none else some false
    else if b < 0 then
      let det := 2 * a * x1 + b * y0 + k
      if det > 0 then none else some false
    else
      let det := 2 * a * x1 + b * y1 + k
      if det > 0 then none else some false
  else none

/-- The partial derivative in the first variable of the quadratic `evaluate c`. -/
def dEvaluate_du (c : Coefs K) (u v : K) : K := 2 * c.c0 * u + c.c2 * v + c.c3

/-- The partial derivative in the second variable of the quadratic `evaluate c`. -/
def dEvaluate_dv (c : Coefs K) (u v : K) : K := 2 * c.c1 * v + c.c2 * u + c.c4

/-- The local variables of the call of `calPositionErrorUpperBound` made by `create`
(TorusApprox.cpp:726), on the fitted patch and the surface rectangle. -/
def create_locals (cos sin : K → K) (PI : K) (factorize : Vec3 K → Vec3 K → Bool → K)
    (len : Vec3 K → K) (dflt : piDomain K) (surface : SurfaceInfo K)
    (G : Nat → Nat → Vec3 K) (k1 k2 : K) : PositionErrorLocals K :=
  (create cos sin PI factorize len dflt surface G k1 k2).mapping.calPositionErrorUpperBound_locals
    cos sin PI (create cos sin PI factorize len dflt surface G k1 k2).patch
    surface.uDomain surface.vDomain

/-- Membership of the point `(u, v)` in the rectangle `uDomain x vDomain`. -/
def inRect (uDomain vDomain : Domain K) (u v : K) : Prop :=
  uDomain.beg ≤ u ∧ u ≤ uDomain.end_ ∧ vDomain.beg ≤ v ∧ v ≤ vDomain.end_

/-- The form `f` is non-zero at the corner `(uDomain.beg, vDomain.beg)` and nowhere on the
rectangle takes the strictly opposite sign. -/
def keepsSign (f : K → K → K) (uDomain vDomain : Domain K) : Prop :=
  f uDomain.beg vDomain.beg ≠ 0 ∧
  ∀ u v : K, inRect uDomain vDomain u v →
    (0 < f uDomain.beg vDomain.beg → 0 ≤ f u v) ∧ (f uDomain.beg vDomain.beg < 0 → f u v ≤ 0)

/-- The form `f` is non-zero at the corner `(uDomain.beg, vDomain.beg)` and does not take
the strictly opposite sign at the other three corners. -/
def keepsSignAtCorners (f : K → K → K) (uDomain vDomain : Domain K) : Prop :=
  f uDomain.beg vDomain.beg ≠ 0 ∧
  (0 < f uDomain.beg vDomain.beg →
    0 ≤ f uDomain.beg vDomain.end_ ∧ 0 ≤ f uDomain.end_ vDomain.beg ∧
      0 ≤ f uDomain.end_ vDomain.end_) ∧
  (f uDomain.beg vDomain.beg < 0 →
    f uDomain.beg vDomain.end_ ≤ 0 ∧ f uDomain.end_ vDomain.beg ≤ 0 ∧
      f uDomain.end_ vDomain.end_ ≤ 0)


/-- A sample mapping for concrete instances: `m = u`, `n = v` and back, anchored at the
origin. -/
def sampleMapping : Mapping K :=
  { m0 := 0, n0 := 0, mCoefs := ⟨0, 0, 0, 1, 0, 0⟩, nCoefs := ⟨0, 0, 0, 0, 1, 0⟩,
    uCoefs := ⟨0, 0, 0, 1, 0, 0⟩, vCoefs := ⟨0, 0, 0, 0, 1, 0⟩ }

/-- A sample patch for concrete instances: radii `2` and `1`, both domains `[0, 1]`. -/
def samplePatch : TorusPatch K :=
  { majorRadius := 2, minorRadius := 1, uDomain := ⟨0, 1⟩, vDomain := ⟨0, 1⟩ }

end Approx

/-! ## Further vector primitives and the locals of `Mapping::set` -/

section VectorPrimitives
variable {K : Type} [LinearOrderedField K]

/-- Modelled from the spec: `Vec3 + Vec3`, componentwise sum. -/
instance : Add (Vec3 K) := ⟨fun a b => ⟨a.x + b.x, a.y + b.y, a.z + b.z⟩⟩

/-- Modelled from the spec: `Vec3::dot`, the dot product of the "vector arithmetic
primitives". -/
def Vec3.dot (a b : Vec3 K) : K := a.x * b.x + a.y * b.y + a.z * b.z

/-- Modelled from the spec: `Vec3::cross`, the cross product. -/
def Vec3.cross (a b : Vec3 K) : Vec3 K :=
  ⟨a.y * b.z - a.z * b.y, a.z * b.x - a.x * b.z, a.x * b.y - a.y * b.x⟩

/-- Modelled from the spec: `Vec3::Tcross`, the "triple product" `(a x b) . c`. -/
def Vec3.Tcross (a b c : Vec3 K) : K := (a.cross b).dot c

/-- Modelled from the spec: `Vec3::factorize(a, b, flag)`, the operation "resolving one
vector as a scalar multiple/component along another": the component `a.b / b.b` of `a`
along `b`.  With the flag set, `b` is taken as already normalised and the result is the
plain `a.b`; that is how `Mapping::set` uses it, dividing by `Gm_len2` itself. -/
def Vec3.factorize (a b : Vec3 K) (normalized : Bool) : K :=
  if normalized then a.dot b else a.dot b / b.dot b

/-- The local variables of `TorusApprox::Mapping::set` (TorusApprox.cpp:14-119) that the
coefficients are built from: `A .. D` and `helperA .. helperC` of the block `M, N Coefs`,
and `A .. D` (here `uvA .. uvD`) and the three `res` vectors of the block `U, V Coefs`. -/
structure SetLocals (K : Type) where
  Gm_len2 : K
  Gn_len2 : K
  A : K
  B : K
  C : K
  D : K
  helperA : Vec3 K
  helperB : Vec3 K
  helperC : Vec3 K
  uvA : K
  uvB : K
  uvC : K
  uvD : K
  res1 : Vec3 K
  res2 : Vec3 K
  res3 : Vec3 K

/-- The local variables of `TorusApprox::Mapping::set`, computed as in `Mapping.set`
(same statements, TorusApprox.cpp:33-108). -/
def Mapping.set_locals (factorize : Vec3 K → Vec3 K → Bool → K) (len : Vec3 K → K)
    (surface : SurfaceInfo K) (G : Nat → Nat → Vec3 K) : SetLocals K :=
  let Fuu := surface.Fuu
  let Fuv := surface.Fuv
  let Fvv := surface.Fvv
  let Fu := surface.Fu
  let Fv := surface.Fv
  let Gmm := G 2 0
  let Gmn := G 1 1
  let Gnn := G 0 2
  let Gm := G 1 0
  let Gn := G 0 1
  -- M, N Coefs
  let Gm_len := len Gm
  let Gn_len := len Gn
  let Gm_len2 := Gm_len * Gm_len
  let Gn_len2 := Gn_len * Gn_len
  let A := factorize Fu Gm true / Gm_len2
  let B := factorize Fu Gn true / Gn_len2
  let C := factorize Fv Gm true / Gm_len2
  let D := factorize Fv Gn true / Gn_len2
  let helperA := Fuu - Gmm * A * A - Gmn * (2 : K) * A * B - Gnn * B * B
  let helperB := Fvv - Gmm * C * C - Gmn * (2 : K) * C * D - Gnn * D * D
  let helperC := Fuv - Gmm * A * C - Gmn * (A * D + B * C) - Gnn * C * D
  -- U, V Coefs
  let uvA := factorize Gm Fu false
  let uvB := factorize Gm Fv false
  let uvC := factorize Gn Fu false
  let uvD := factorize Gn Fv false
  -- C1
  let terms0 := Fuu * uvA * uvA
  let terms1 := Fvv * uvB * uvB
  let terms2 := Fuv * (2 : K) * uvA * uvB
  let res1 := Gmm - terms0 - terms1 - terms2
  -- C2
  let terms0 := Fuu * uvC * uvC
  let terms1 := Fvv * uvD * uvD
  let terms2 := Fuv * (2 : K) * uvC * uvD
  let res2 := Gnn - terms0 - terms1 - terms2
  -- C3
  let terms0 := Fuu * uvA * uvC
  let terms1 := Fvv * uvB * uvD
  let terms2 := Fuv * (uvA * uvD + uvB * uvC)
  let res3 := Gmn - terms0 - terms1 - terms2
  { Gm_len2 := Gm_len2, Gn_len2 := Gn_len2, A := A, B := B, C := C, D := D,
    helperA := helperA, helperB := helperB, helperC := helperC,
    uvA := uvA, uvB := uvB, uvC := uvC, uvD := uvD, res1 := res1, res2 := res2, res3 := res3 }

/-- The coefficient arrays that `Mapping::set` builds from its local variables
(TorusApprox.cpp:50-62 and 82-117). -/
def Mapping.set_of_locals (factorize : Vec3 K → Vec3 K → Bool → K) (surface : SurfaceInfo K)
    (G : Nat → Nat → Vec3 K) (l : SetLocals K) (m n : K) : Mapping K :=
  let u := surface.u
  let v := surface.v
  let Fu := surface.Fu
  let Fv := surface.Fv
  let Gm := G 1 0
  let Gn := G 0 1
  let mCoefs0 := factorize l.helperA Gm true * 0.5 / l.Gm_len2
  let mCoefs1 := factorize l.helperB Gm true * 0.5 / l.Gm_len2
  let mCoefs2 := factorize l.helperC Gm true / l.Gm_len2
  let mCoefs3 := l.A - 2 * mCoefs0 * u - mCoefs2 * v
  let mCoefs4 := l.C - 2 * mCoefs1 * v - mCoefs2 * u
  let mCoefs5 := m - mCoefs0 * u * u - mCoefs1 * v * v - mCoefs2 * u * v - mCoefs3 * u
    - mCoefs4 * v
  let nCoefs0 := factorize l.helperA Gn true * 0.5 / l.Gn_len2
  let nCoefs1 := factorize l.helperB Gn true * 0.5 / l.Gn_len2
  let nCoefs2 := factorize l.helperC Gn true / l.Gn_len2
  let nCoefs3 := l.B - 2 * nCoefs0 * u - nCoefs2 * v
  let nCoefs4 := l.D - 2 * nCoefs1 * v - nCoefs2 * u
  let nCoefs5 := n - nCoefs0 * u * u - nCoefs1 * v * v - nCoefs2 * u * v - nCoefs3 * u
    - nCoefs4 * v
  let uCoefs0 := factorize l.res1 Fu false * 0.5
  let vCoefs0 := factorize l.res1 Fv false * 0.5
  let uCoefs1 := factorize l.res2 Fu false * 0.5
  let vCoefs1 := factorize l.res2 Fv false * 0.5
  let uCoefs2 := factorize l.res3 Fu false
  let vCoefs2 := factorize l.res3 Fv false
  let uCoefs3 := l.uvA - 2 * uCoefs0 * m - uCoefs2 * n
  let vCoefs3 := l.uvB - 2 * vCoefs0 * m - vCoefs2 * n
  let uCoefs4 := l.uvC - 2 * uCoefs1 * n - uCoefs2 * m
  let vCoefs4 := l.uvD - 2 * vCoefs1 * n - vCoefs2 * m
  let uCoefs5 := u - uCoefs0 * m * m - uCoefs1 * n * n - uCoefs2 * m * n - uCoefs3 * m
    - uCoefs4 * n
  let vCoefs5 := v - vCoefs0 * m * m - vCoefs1 * n * n - vCoefs2 * m * n - vCoefs3 * m
    - vCoefs4 * n
  { m0 := m
    n0 := n
    mCoefs := ⟨mCoefs0, mCoefs1, mCoefs2, mCoefs3, mCoefs4, mCoefs5⟩
    nCoefs := ⟨nCoefs0, nCoefs1, nCoefs2, nCoefs3, nCoefs4, nCoefs5⟩
    uCoefs := ⟨uCoefs0, uCoefs1, uCoefs2, uCoefs3, uCoefs4, uCoefs5⟩
    vCoefs := ⟨vCoefs0, vCoefs1, vCoefs2, vCoefs3, vCoefs4, vCoefs5⟩ }

end VectorPrimitives


/-! ## Proof-side notions for the composition of the mappings -/

section ComposeNotions
variable {K : Type} [LinearOrderedField K]

/-- The Taylor coefficient of `s^i * t^j` of the composite
`(s, t) ↦ evaluate f (evaluate gx (x0 + s) (y0 + t)) (evaluate gy (x0 + s) (y0 + t))`
of three quadratic polynomials, by the chain rule: `a, c` and `b, d` are the first
derivatives of `gx` and `gy` at `(x0, y0)`, `fa, fc` those of `f` at the image point. -/
def composeCoef (f gx gy : Coefs K) (x0 y0 : K) (i j : ℕ) : K :=
  let a := dEvaluate_du gx x0 y0
  let c := dEvaluate_dv gx x0 y0
  let b := dEvaluate_du gy x0 y0
  let d := dEvaluate_dv gy x0 y0
  let fa := dEvaluate_du f (evaluate gx x0 y0) (evaluate gy x0 y0)
  let fc := dEvaluate_dv f (evaluate gx x0 y0) (evaluate gy x0 y0)
  let p0 := gx.c0
  let p1 := gx.c1
  let p2 := gx.c2
  let q0 := gy.c0
  let q1 := gy.c1
  let q2 := gy.c2
  let r0 := f.c0
  let r1 := f.c1
  let r2 := f.c2
  match i, j with
  | 0, 0 => evaluate f (evaluate gx x0 y0) (evaluate gy x0 y0)
  | 1, 0 => a * fa + b * fc
  | 0, 1 => c * fa + d * fc
  | 2, 0 => a * b * r2 + a * a * r0 + b * b * r1 + fa * p0 + fc * q0
  | 1, 1 => 2 * a * c * r0 + a * d * r2 + b * c * r2 + 2 * b * d * r1 + fa * p2 + fc * q2
  | 0, 2 => c * d * r2 + c * c * r0 + d * d * r1 + fa * p1 + fc * q1
  | 3, 0 => 2 * a * p0 * r0 + a * q0 * r2 + b * p0 * r2 + 2 * b * q0 * r1
  | 2, 1 => 2 * a * p2 * r0 + a * q2 * r2 + b * p2 * r2 + 2 * b * q2 * r1 + 2 * c * p0 * r0
      + c * q0 * r2 + d * p0 * r2 + 2 * d * q0 * r1
  | 1, 2 => 2 * a * p1 * r0 + a * q1 * r2 + b * p1 * r2 + 2 * b * q1 * r1 + 2 * c * p2 * r0
      + c * q2 * r2 + d * p2 * r2 + 2 * d * q2 * r1
  | 0, 3 => 2 * c * p1 * r0 + c * q1 * r2 + d * p1 * r2 + 2 * d * q1 * r1
  | 4, 0 => p0 * q0 * r2 + p0 * p0 * r0 + q0 * q0 * r1
  | 3, 1 => 2 * p0 * p2 * r0 + p0 * q2 * r2 + p2 * q0 * r2 + 2 * q0 * q2 * r1
  | 2, 2 => 2 * p0 * p1 * r0 + p0 * q1 * r2 + p1 * q0 * r2 + p2 * q2 * r2 + p2 * p2 * r0
      + 2 * q0 * q1 * r1 + q2 * q2 * r1
  | 1, 3 => 2 * p1 * p2 * r0 + p1 * q2 * r2 + p2 * q1 * r2 + 2 * q1 * q2 * r1
  | 0, 4 => p1 * q1 * r2 + p1 * p1 * r0 + q1 * q1 * r1
  | _, _ => 0

/-- The terms of order three and four of the composite of three quadratic polynomials. -/
def composeRemainder (f gx gy : Coefs K) (x0 y0 s t : K) : K :=
  composeCoef f gx gy x0 y0 3 0 * s * s * s
    + composeCoef f gx gy x0 y0 2 1 * s * s * t
    + composeCoef f gx gy x0 y0 1 2 * s * t * t
    + composeCoef f gx gy x0 y0 0 3 * t * t * t
    + composeCoef f gx gy x0 y0 4 0 * s * s * s * s
    + composeCoef f gx gy x0 y0 3 1 * s * s * s * t
    + composeCoef f gx gy x0 y0 2 2 * s * s * t * t
    + composeCoef f gx gy x0 y0 1 3 * s * t * t * t
    + composeCoef f gx gy x0 y0 0 4 * t * t * t * t

end ComposeNotions


/-! ## Sample data for concrete instances -/

section Samples
variable {K : Type} [LinearOrderedField K]

/-- A stand-in for `Vec3::len` in concrete instances: the sum of the absolute values of the
components, which is the Euclidean length of every vector along a coordinate axis. -/
def lenAxis (v : Vec3 K) : K := |v.x| + |v.y| + |v.z|

/-- The derivatives at `(m, n) = (0, 0)` of the torus
`((R + r cos n) cos m, (R + r cos n) sin m, r sin n)` with `R = r = 1` under the identity
placement: `G 1 0 = Gm`, `G 0 1 = Gn`, `G 2 0 = Gmm`, `G 1 1 = Gmn`, `G 0 2 = Gnn`. -/
def torusDerivs11 (i j : ℕ) : Vec3 K :=
  match i, j with
  | 1, 0 => ⟨0, 2, 0⟩
  | 0, 1 => ⟨0, 0, 1⟩
  | 2, 0 => ⟨-2, 0, 0⟩
  | 0, 2 => ⟨-1, 0, 0⟩
  | _, _ => ⟨0, 0, 0⟩

/-- A sample of the torus of `torusDerivs11` itself, reparametrised by `m = u`, `n = u + v`
around the anchor: `Fu = Gm + Gn`, `Fv = Gn`, `Fuu = Gmm + 2 Gmn + Gnn`, `Fuv = Gmn + Gnn`,
`Fvv = Gnn`.  Its tangent vectors span the tangent plane of the torus and are not
orthogonal. -/
def skewSurface : SurfaceInfo K :=
  { u := 0, v := 0, F := ⟨2, 0, 0⟩, Fu := ⟨0, 2, 1⟩, Fv := ⟨0, 0, 1⟩,
    Fuu := ⟨-3, 0, 0⟩, Fuv := ⟨-1, 0, 0⟩, Fvv := ⟨-1, 0, 0⟩,
    uDomain := ⟨0, 1⟩, vDomain := ⟨0, 1⟩, M1 := 0, M2 := 0, M3 := 0, M4 := 0 }

end Samples

/-! ## The principal curvatures and directions of `create` -/

section Principal
variable {K : Type} [LinearOrderedField K]

/-- The coefficients of the first and second fundamental forms that `TorusApprox::create`
computes first (TorusApprox.cpp:587-594). -/
structure FundamentalForms (α : Type) where
  E : α
  F : α
  G : α
  e : α
  f : α
  g : α

/-- The locals of the block `// Calculate principal curvatures and directions` of
`TorusApprox::create` (TorusApprox.cpp:596-607): Gaussian and mean curvature, the root
`tmp`, the principal curvatures and the four entries `a11 .. a22`. -/
structure PrincipalLocals (α : Type) where
  K : α
  H : α
  tmp : α
  k1 : α
  k2 : α
  a11 : α
  a12 : α
  a21 : α
  a22 : α

/-- The first statements of the block (TorusApprox.cpp:587-594); `sqrt` is the library
square root. -/
def create_forms (sqrt : K → K) (surface : SurfaceInfo K) : FundamentalForms K :=
  let Fu := surface.Fu
  let Fv := surface.Fv
  let Fuu := surface.Fuu
  let Fuv := surface.Fuv
  let Fvv := surface.Fvv
  let E := Fu.dot Fu
  let F := Fu.dot Fv
  let G := Fv.dot Fv
  let denom := sqrt (E * G - F * F)
  let e := Vec3.Tcross Fu Fv Fuu / denom
  let f := Vec3.Tcross Fu Fv Fuv / denom
  let g := Vec3.Tcross Fu Fv Fvv / denom
  { E := E, F := F, G := G, e := e, f := f, g := g }

/-- The curvatures and the `a` entries of the block (TorusApprox.cpp:595-607). -/
def create_principal (sqrt : K → K) (ff : FundamentalForms K) : PrincipalLocals K :=
  let E := ff.E
  let F := ff.F
  let G := ff.G
  let e := ff.e
  let f := ff.f
  let g := ff.g
  let denom := E * G - F * F
  let K_ := (e * g - f * f) / denom
  let H := 0.5 * (e * G - 2.0 * f * F + g * E) / denom
  let tmp := sqrt (H * H - K_)
  let k1 := H + tmp
  let k2 := H - tmp
  let a11 := (f * F - e * G) / denom
  let a12 := (g * F - f * G) / denom
  let a21 := (e * F - f * E) / denom
  let a22 := (f * F - g * E) / denom
  { K := K_, H := H, tmp := tmp, k1 := k1, k2 := k2,
    a11 := a11, a12 := a12, a21 := a21, a22 := a22 }

/-- The choice of the principal directions (TorusApprox.cpp:608-629), before the two calls
of `normalize`: whether the disambiguation branch `fabs(a12) < eps && fabs(a21) < eps` was
taken, and the vectors `w1`, `w2`. -/
def create_directions (Fu Fv : Vec3 K) (p : PrincipalLocals K) : Bool × Vec3 K × Vec3 K :=
  let k1 := p.k1
  let k2 := p.k2
  let a11 := p.a11
  let a12 := p.a12
  let a21 := p.a21
  let eps : K := 1 / 100000
  if |a12| < eps ∧ |a21| < eps then
    -- Set principal direction properly
    let a11_k1 := (a11 + k1) * (a11 + k1)
    let a11_k2 := (a11 + k2) * (a11 + k2)
    if a11_k1 < a11_k2 then (true, Fu, Fv)
    else (true, Fv, Fu)
  else
    (false, Fu + Fv * ((-k1 - a11) / a12), Fu + Fv * ((-k2 - a11) / a12))

/-- A sample at the point `(1, 0, 0)` of the unit sphere
`(cos u cos v, sin u cos v, sin v)`, anchor `u = v = 0`, on the parameter square
`[0, 1] x [0, 1]`, with the third-derivative bounds `M1 .. M4 = 1`. -/
def sphereSurface : SurfaceInfo K :=
  { u := 0, v := 0, F := ⟨1, 0, 0⟩, Fu := ⟨0, 1, 0⟩, Fv := ⟨0, 0, 1⟩,
    Fuu := ⟨-1, 0, 0⟩, Fuv := ⟨0, 0, 0⟩, Fvv := ⟨-1, 0, 0⟩,
    uDomain := ⟨0, 1⟩, vDomain := ⟨0, 1⟩, M1 := 1, M2 := 1, M3 := 1, M4 := 1 }

/-- The derivatives at `(m, n) = (0, 0)` of the torus with `majorRadius = 0` and
`minorRadius = 1` (the unit sphere) under the identity placement. -/
def sphereDerivs (i j : ℕ) : Vec3 K :=
  match i, j with
  | 1, 0 => ⟨0, 1, 0⟩
  | 0, 1 => ⟨0, 0, 1⟩
  | 2, 0 => ⟨-1, 0, 0⟩
  | 0, 2 => ⟨-1, 0, 0⟩
  | _, _ => ⟨0, 0, 0⟩

end Principal

/-! ## Sample patches for the torus derivative constants -/

section SamplePatches
variable {K : Type} [LinearOrderedField K]

/-- A sample patch with radii `2` and `1` whose n-domain is the half turn `[0, PI]`. -/
def halfTurnPatch (PI : K) : TorusPatch K :=
  { majorRadius := 2, minorRadius := 1, uDomain := ⟨0, 1⟩, vDomain := ⟨0, PI⟩ }

/-- A sample patch with radii `2` and `1` whose n-domain `[-1, 1]` is symmetric about `0`. -/
def symmetricPatch : TorusPatch K :=
  { majorRadius := 2, minorRadius := 1, uDomain := ⟨0, 1⟩, vDomain := ⟨-1, 1⟩ }

end SamplePatches

/-! ## A bound for the remainder of the composition -/

section ComposeBound
variable {K : Type} [LinearOrderedField K]

/-- The sum of the absolute values of the Taylor coefficients of order three and four of
the composite of three quadratic polynomials. -/
def composeRemainderBound (f gx gy : Coefs K) (x0 y0 : K) : K :=
  |composeCoef f gx gy x0 y0 3 0| + |composeCoef f gx gy x0 y0 2 1|
    + |composeCoef f gx gy x0 y0 1 2| + |composeCoef f gx gy x0 y0 0 3|
    + |composeCoef f gx gy x0 y0 4 0| + |composeCoef f gx gy x0 y0 3 1|
    + |composeCoef f gx gy x0 y0 2 2| + |composeCoef f gx gy x0 y0 1 3|
    + |composeCoef f gx gy x0 y0 0 4|

end ComposeBound

/-! ## A sample with a triangular shape operator -/

section ShearSample
variable {K : Type} [LinearOrderedField K]

/-- A sample with skew tangent vectors `Fu = (1, 0, 0)`, `Fv = (1, 1, 0)` and second
derivatives along the normal `(0, 0, 1)`: `E = 1`, `F = 1`, `G = 2`, `e = 2`, `f = 1`,
`g = 2`, for which `g*F - f*G = 0` and `e*F - f*E = 1`. -/
def shearSurface : SurfaceInfo K :=
  { u := 0, v := 0, F := ⟨0, 0, 0⟩, Fu := ⟨1, 0, 0⟩, Fv := ⟨1, 1, 0⟩,
    Fuu := ⟨0, 0, 2⟩, Fuv := ⟨0, 0, 1⟩, Fvv := ⟨0, 0, 2⟩,
    uDomain := ⟨0, 1⟩, vDomain := ⟨0, 1⟩, M1 := 0, M2 := 0, M3 := 0, M4 := 0 }

end ShearSample

end MN

/-! ## Theorems -/

namespace MN

section ApproxTheorems
variable {K : Type} [LinearOrderedField K]

theorem calDomainN_checkNu_eq (c : Coefs K) (uD vD : Domain K) :
    calDomainN_checkNu c uD vD = cornerSign c.c0 c.c2 c.c3 uD.beg uD.end_ vD.beg vD.end_ := rfl

theorem calDomainN_checkNv_eq (c : Coefs K) (uD vD : Domain K) :
    calDomainN_checkNv c uD vD = cornerSign c.c1 c.c2 c.c4 vD.beg vD.end_ uD.beg uD.end_ := rfl

theorem calDomainM_checkMu_eq (c : Coefs K) (uD vD : Domain K) :
    calDomainM_checkMu c uD vD = cornerSign c.c0 c.c2 c.c3 uD.beg uD.end_ vD.beg vD.end_ := rfl

/-- A `true` answer of the corner test: the affine form is non-negative on the rectangle. -/
theorem cornerSign_true (a b k x0 x1 y0 y1 : K)
    (h : cornerSign a b k x0 x1 y0 y1 = some true) (x y : K)
    (hx0 : x0 ≤ x) (hx1 : x ≤ x1) (hy0 : y0 ≤ y) (hy1 : y ≤ y1) :
    0 ≤ 2 * a * x + b * y + k := by
  have X0 := sub_nonneg.2 hx0
  have X1 := sub_nonneg.2 hx1
  have Y0 := sub_nonneg.2 hy0
  have Y1 := sub_nonneg.2 hy1
  simp only [cornerSign] at h
  by_cases hp : 2 * a * x0 + b * y0 + k > 0
  · rw [if_pos hp] at h
    by_cases ha : a > 0 <;> by_cases hb : b > 0
    · nlinarith [mul_nonneg ha.le X0, mul_nonneg hb.le Y0]
    · rw [if_neg (fun hc => hb hc.2), if_pos ha] at h
      by_cases hd : 2 * a * x0 + b * y1 + k < 0
      · rw [if_pos hd] at h; exact absurd h (by simp)
      · nlinarith [mul_nonneg ha.le X0, mul_nonneg (neg_nonneg.2 (not_lt.1 hb)) Y1]
    · rw [if_neg (fun hc => ha hc.1), if_neg ha, if_pos hb] at h
      by_cases hd : 2 * a * x1 + b * y0 + k < 0
      · rw [if_pos hd] at h; exact absurd h (by simp)
      · nlinarith [mul_nonneg (neg_nonneg.2 (not_lt.1 ha)) X1, mul_nonneg hb.le Y0]
    · rw [if_neg (fun hc => ha hc.1), if_neg ha, if_neg hb] at h
      by_cases hd : 2 * a * x1 + b * y1 + k < 0
      · rw [if_pos hd] at h; exact absurd h (by simp)
      · nlinarith [mul_nonneg (neg_nonneg.2 (not_lt.1 ha)) X1,
          mul_nonneg (neg_nonneg.2 (not_lt.1 hb)) Y1]
  · rw [if_neg hp] at h
    split_ifs at h <;> simp at h

/-- A `false` answer of the corner test: the affine form is non-positive on the rectangle. -/
theorem cornerSign_false (a b k x0 x1 y0 y1 : K)
    (h : cornerSign a b k x0 x1 y0 y1 = some false) (x y : K)
    (hx0 : x0 ≤ x) (hx1 : x ≤ x1) (hy0 : y0 ≤ y) (hy1 : y ≤ y1) :
    2 * a * x + b * y + k ≤ 0 := by
  have X0 := sub_nonneg.2 hx0
  have X1 := sub_nonneg.2 hx1
  have Y0 := sub_nonneg.2 hy0
  have Y1 := sub_nonneg.2 hy1
  simp only [cornerSign] at h
  by_cases hp : 2 * a * x0 + b * y0 + k > 0
  · rw [if_pos hp] at h
    split_ifs at h <;> simp at h
  · rw [if_neg hp] at h
    by_cases hn : 2 * a * x0 + b * y0 + k < 0
    · rw [if_pos hn] at h
      by_cases ha : a < 0 <;> by_cases hb : b < 0
      · nlinarith [mul_nonneg (neg_pos.2 ha).le X0, mul_nonneg (neg_pos.2 hb).le Y0]
      · rw [if_neg (fun hc => hb hc.2), if_pos ha] at h
        by_cases hd : 2 * a * x0 + b * y1 + k > 0
        · rw [if_pos hd] at h; exact absurd h (by simp)
        · nlinarith [mul_nonneg (neg_pos.2 ha).le X0, mul_nonneg (not_lt.1 hb) Y1]
      · rw [if_neg (fun hc => ha hc.1), if_neg ha, if_pos hb] at h
        by_cases hd : 2 * a * x1 + b * y0 + k > 0
        · rw [if_pos hd] at h; exact absurd h (by simp)
        · nlinarith [mul_nonneg (not_lt.1 ha) X1, mul_nonneg (neg_pos.2 hb).le Y0]
      · rw [if_neg (fun hc => ha hc.1), if_neg ha, if_neg hb] at h
        by_cases hd : 2 * a * x1 + b * y1 + k > 0
        · rw [if_pos hd] at h; exact absurd h (by simp)
        · nlinarith [mul_nonneg (not_lt.1 ha) X1, mul_nonneg (not_lt.1 hb) Y1]
    · rw [if_neg hn] at h
      exact absurd h (by simp)

/-- Increment of the quadratic along the first variable, by its `u`-derivative. -/
theorem evaluate_sub_u (c : Coefs K) (u1 u2 v : K) :
    evaluate c u2 v - evaluate c u1 v
      = (u2 - u1) * ((dEvaluate_du c u1 v + dEvaluate_du c u2 v) / 2) := by
  unfold evaluate dEvaluate_du; ring

/-- Increment of the quadratic along the second variable, by its `v`-derivative. -/
theorem evaluate_sub_v (c : Coefs K) (u v1 v2 : K) :
    evaluate c u v2 - evaluate c u v1
      = (v2 - v1) * ((dEvaluate_dv c u v1 + dEvaluate_dv c u v2) / 2) := by
  unfold evaluate dEvaluate_dv; ring

/-- The quadratic does not decrease along `u` between two points with non-negative
`u`-derivative. -/
theorem evaluate_mono_u (c : Coefs K) (v u1 u2 : K) (h12 : u1 ≤ u2)
    (h1 : 0 ≤ dEvaluate_du c u1 v) (h2 : 0 ≤ dEvaluate_du c u2 v) :
    evaluate c u1 v ≤ evaluate c u2 v := by
  have e := evaluate_sub_u c u1 u2 v
  have p : 0 ≤ (u2 - u1) * ((dEvaluate_du c u1 v + dEvaluate_du c u2 v) / 2) :=
    mul_nonneg (sub_nonneg.2 h12) (by linarith)
  linarith

/-- The quadratic does not increase along `u` between two points with non-positive
`u`-derivative. -/
theorem evaluate_anti_u (c : Coefs K) (v u1 u2 : K) (h12 : u1 ≤ u2)
    (h1 : dEvaluate_du c u1 v ≤ 0) (h2 : dEvaluate_du c u2 v ≤ 0) :
    evaluate c u2 v ≤ evaluate c u1 v := by
  have e := evaluate_sub_u c u1 u2 v
  have p : 0 ≤ (u2 - u1) * (-((dEvaluate_du c u1 v + dEvaluate_du c u2 v) / 2)) :=
    mul_nonneg (sub_nonneg.2 h12) (by linarith)
  linarith

/-- The quadratic does not decrease along `v` between two points with non-negative
`v`-derivative. -/
theorem evaluate_mono_v (c : Coefs K) (u v1 v2 : K) (h12 : v1 ≤ v2)
    (h1 : 0 ≤ dEvaluate_dv c u v1) (h2 : 0 ≤ dEvaluate_dv c u v2) :
    evaluate c u v1 ≤ evaluate c u v2 := by
  have e := evaluate_sub_v c u v1 v2
  have p : 0 ≤ (v2 - v1) * ((dEvaluate_dv c u v1 + dEvaluate_dv c u v2) / 2) :=
    mul_nonneg (sub_nonneg.2 h12) (by linarith)
  linarith

/-- The quadratic does not increase along `v` between two points with non-positive
`v`-derivative. -/
theorem evaluate_anti_v (c : Coefs K) (u v1 v2 : K) (h12 : v1 ≤ v2)
    (h1 : dEvaluate_dv c u v1 ≤ 0) (h2 : dEvaluate_dv c u v2 ≤ 0) :
    evaluate c u v2 ≤ evaluate c u v1 := by
  have e := evaluate_sub_v c u v1 v2
  have p : 0 ≤ (v2 - v1) * (-((dEvaluate_dv c u v1 + dEvaluate_dv c u v2) / 2)) :=
    mul_nonneg (sub_nonneg.2 h12) (by linarith)
  linarith

/-- When both partial derivatives keep the sign recorded in `posNu`, `posNv` on the whole
rectangle, the two corners picked by `Get min, max value` enclose every value of the
quadratic on the rectangle. -/
theorem calDomainN_minmax_bounds (c : Coefs K) (uD vD : Domain K) (bu bv : Bool)
    (hU : ∀ u v, inRect uD vD u v →
      (bu = true → 0 ≤ dEvaluate_du c u v) ∧ (bu = false → dEvaluate_du c u v ≤ 0))
    (hV : ∀ u v, inRect uD vD u v →
      (bv = true → 0 ≤ dEvaluate_dv c u v) ∧ (bv = false → dEvaluate_dv c u v ≤ 0))
    (u v : K) (hin : inRect uD vD u v) :
    (calDomainN_minmax c uD vD bu bv).1 ≤ evaluate c u v ∧
      evaluate c u v ≤ (calDomainN_minmax c uD vD bu bv).2 := by
  obtain ⟨hu0, hu1, hv0, hv1⟩ := hin
  have hub := le_trans hu0 hu1
  have hvb := le_trans hv0 hv1
  have r00 : inRect uD vD uD.beg vD.beg := ⟨le_refl _, hub, le_refl _, hvb⟩
  have r01 : inRect uD vD uD.beg vD.end_ := ⟨le_refl _, hub, hvb, le_refl _⟩
  have r10 : inRect uD vD uD.end_ vD.beg := ⟨hub, le_refl _, le_refl _, hvb⟩
  have r11 : inRect uD vD uD.end_ vD.end_ := ⟨hub, le_refl _, hvb, le_refl _⟩
  have ru0 : inRect uD vD u vD.beg := ⟨hu0, hu1, le_refl _, hvb⟩
  have ru1 : inRect uD vD u vD.end_ := ⟨hu0, hu1, hvb, le_refl _⟩
  have ruv : inRect uD vD u v := ⟨hu0, hu1, hv0, hv1⟩
  cases bu <;> cases bv <;> simp only [calDomainN_minmax, Bool.and_self, Bool.and_true,
    Bool.and_false, Bool.false_eq_true, if_false, if_true]
  · -- decreasing in u, decreasing in v
    have a1 := evaluate_anti_u c vD.end_ u uD.end_ hu1 ((hU _ _ ru1).2 rfl) ((hU _ _ r11).2 rfl)
    have a2 := evaluate_anti_v c u v vD.end_ hv1 ((hV _ _ ruv).2 rfl) ((hV _ _ ru1).2 rfl)
    have a3 := evaluate_anti_v c u vD.beg v hv0 ((hV _ _ ru0).2 rfl) ((hV _ _ ruv).2 rfl)
    have a4 := evaluate_anti_u c vD.beg uD.beg u hu0 ((hU _ _ r00).2 rfl) ((hU _ _ ru0).2 rfl)
    exact ⟨le_trans a1 a2, le_trans a3 a4⟩
  · -- decreasing in u, increasing in v
    have a1 := evaluate_anti_u c vD.beg u uD.end_ hu1 ((hU _ _ ru0).2 rfl) ((hU _ _ r10).2 rfl)
    have a2 := evaluate_mono_v c u vD.beg v hv0 ((hV _ _ ru0).1 rfl) ((hV _ _ ruv).1 rfl)
    have a3 := evaluate_mono_v c u v vD.end_ hv1 ((hV _ _ ruv).1 rfl) ((hV _ _ ru1).1 rfl)
    have a4 := evaluate_anti_u c vD.end_ uD.beg u hu0 ((hU _ _ r01).2 rfl) ((hU _ _ ru1).2 rfl)
    exact ⟨le_trans a1 a2, le_trans a3 a4⟩
  · -- increasing in u, decreasing in v
    have a1 := evaluate_mono_u c vD.end_ uD.beg u hu0 ((hU _ _ r01).1 rfl) ((hU _ _ ru1).1 rfl)
    have a2 := evaluate_anti_v c u v vD.end_ hv1 ((hV _ _ ruv).2 rfl) ((hV _ _ ru1).2 rfl)
    have a3 := evaluate_anti_v c u vD.beg v hv0 ((hV _ _ ru0).2 rfl) ((hV _ _ ruv).2 rfl)
    have a4 := evaluate_mono_u c vD.beg u uD.end_ hu1 ((hU _ _ ru0).1 rfl) ((hU _ _ r10).1 rfl)
    exact ⟨le_trans a1 a2, le_trans a3 a4⟩
  · -- increasing in u, increasing in v
    have a1 := evaluate_mono_u c vD.beg uD.beg u hu0 ((hU _ _ r00).1 rfl) ((hU _ _ ru0).1 rfl)
    have a2 := evaluate_mono_v c u vD.beg v hv0 ((hV _ _ ru0).1 rfl) ((hV _ _ ruv).1 rfl)
    have a3 := evaluate_mono_v c u v vD.end_ hv1 ((hV _ _ ruv).1 rfl) ((hV _ _ ru1).1 rfl)
    have a4 := evaluate_mono_u c vD.end_ u uD.end_ hu1 ((hU _ _ ru1).1 rfl) ((hU _ _ r11).1 rfl)
    exact ⟨le_trans a1 a2, le_trans a3 a4⟩

/-- Block `Check [ Nu ]` is sound: leaving it with `posNu = true` (resp. `false`) means
the `u`-derivative is non-negative (resp. non-positive) on the whole rectangle. -/
theorem calDomainN_checkNu_sound (c : Coefs K) (uD vD : Domain K) (b : Bool)
    (h : calDomainN_checkNu c uD vD = some b) (u v : K) (hin : inRect uD vD u v) :
    (b = true → 0 ≤ dEvaluate_du c u v) ∧ (b = false → dEvaluate_du c u v ≤ 0) := by
  obtain ⟨hu0, hu1, hv0, hv1⟩ := hin
  rw [calDomainN_checkNu_eq] at h
  constructor
  · rintro rfl
    exact cornerSign_true _ _ _ _ _ _ _ h u v hu0 hu1 hv0 hv1
  · rintro rfl
    exact cornerSign_false _ _ _ _ _ _ _ h u v hu0 hu1 hv0 hv1

/-- Block `Check [ Nv ]` is sound: leaving it with `posNv = true` (resp. `false`) means
the `v`-derivative is non-negative (resp. non-positive) on the whole rectangle. -/
theorem calDomainN_checkNv_sound (c : Coefs K) (uD vD : Domain K) (b : Bool)
    (h : calDomainN_checkNv c uD vD = some b) (u v : K) (hin : inRect uD vD u v) :
    (b = true → 0 ≤ dEvaluate_dv c u v) ∧ (b = false → dEvaluate_dv c u v ≤ 0) := by
  obtain ⟨hu0, hu1, hv0, hv1⟩ := hin
  rw [calDomainN_checkNv_eq] at h
  constructor
  · rintro rfl
    exact cornerSign_true _ _ _ _ _ _ _ h v u hv0 hv1 hu0 hu1
  · rintro rfl
    exact cornerSign_false _ _ _ _ _ _ _ h v u hv0 hv1 hu0 hu1

/-- C1. Soundness of the n-domain bound.  For every coefficient array and every rectangle
(in particular those with `beg <= end` on both axes), when `calDomainN` returns `true` the
interval it wrote to `nDomain` is either `[min, max]` with `max - min < 2*pi` and
`min <= evaluate nCoefs u v <= max` for every `(u, v)` of the rectangle, or the full turn
`[0, 2*pi]`. -/
theorem calDomainN_sound (PI : K) (nCoefs : Coefs K) (uDomain vDomain : Domain K)
    (nDomain : piDomain K)
    (hret : (calDomainN PI nCoefs uDomain vDomain nDomain).1 = true) :
    ((calDomainN PI nCoefs uDomain vDomain nDomain).2.end_
        - (calDomainN PI nCoefs uDomain vDomain nDomain).2.beg < 2 * PI ∧
      ∀ u v : K, uDomain.beg ≤ u → u ≤ uDomain.end_ → vDomain.beg ≤ v → v ≤ vDomain.end_ →
        (calDomainN PI nCoefs uDomain vDomain nDomain).2.beg ≤ evaluate nCoefs u v ∧
        evaluate nCoefs u v ≤ (calDomainN PI nCoefs uDomain vDomain nDomain).2.end_) ∨
    (calDomainN PI nCoefs uDomain vDomain nDomain).2 = ⟨0, 2 * PI⟩ := by
  unfold calDomainN at hret ⊢
  cases hU : calDomainN_checkNu nCoefs uDomain vDomain with
  | none => simp [hU] at hret
  | some bu =>
    cases hV : calDomainN_checkNv nCoefs uDomain vDomain with
    | none => simp [hU, hV] at hret
    | some bv =>
      simp only []
      by_cases hw : (calDomainN_minmax nCoefs uDomain vDomain bu bv).2
          - (calDomainN_minmax nCoefs uDomain vDomain bu bv).1 < PI20 PI
      · left
        rw [if_pos hw]
        refine ⟨by simpa [piDomain.set, PI20] using hw, fun u v h1 h2 h3 h4 => ?_⟩
        exact calDomainN_minmax_bounds nCoefs uDomain vDomain bu bv
          (fun u v hin => calDomainN_checkNu_sound nCoefs uDomain vDomain bu hU u v hin)
          (fun u v hin => calDomainN_checkNv_sound nCoefs uDomain vDomain bv hV u v hin)
          u v ⟨h1, h2, h3, h4⟩
      · right
        rw [if_neg hw]
        simp [piDomain.set, PI20]

/-- C3. Anchor round trip.  For every input of `Mapping::set` the mapping it builds sends
the surface anchor `(surface.u, surface.v)` to `(m, n)` by `calMN` and `(m, n)` back to
`(surface.u, surface.v)` by `calUV`, whatever the quadratic and linear coefficients are;
hence `calUV` after `calMN` fixes the surface anchor. -/
theorem Mapping_set_anchor_roundtrip (factorize : Vec3 K → Vec3 K → Bool → K)
    (len : Vec3 K → K) (surface : SurfaceInfo K) (G : Nat → Nat → Vec3 K) (m n : K) :
    (Mapping.set factorize len surface G m n).calMN surface.u surface.v = (m, n) ∧
    (Mapping.set factorize len surface G m n).calUV m n = (surface.u, surface.v) ∧
    (Mapping.set factorize len surface G m n).calUV
        ((Mapping.set factorize len surface G m n).calMN surface.u surface.v).1
        ((Mapping.set factorize len surface G m n).calMN surface.u surface.v).2
      = (surface.u, surface.v) := by
  have h1 : (Mapping.set factorize len surface G m n).calMN surface.u surface.v = (m, n) := by
    simp only [Mapping.calMN, Mapping.set, evaluate, Prod.mk.injEq]
    constructor <;> ring
  have h2 : (Mapping.set factorize len surface G m n).calUV m n = (surface.u, surface.v) := by
    simp only [Mapping.calUV, Mapping.set, evaluate, Prod.mk.injEq]
    constructor <;> ring
  refine ⟨h1, h2, ?_⟩
  rw [h1]
  exact h2

/-- Witness for C1: the coefficients `n(u, v) = u + v` on the unit square over the reals,
where `calDomainN` returns `true` with the interval `[0, 2]`. -/
theorem calDomainN_sound_witness :
    (calDomainN Real.pi (⟨0, 0, 0, 1, 1, 0⟩ : Coefs ℝ) ⟨0, 1⟩ ⟨0, 1⟩ ⟨0, 0⟩).1 = true ∧
    (((calDomainN Real.pi (⟨0, 0, 0, 1, 1, 0⟩ : Coefs ℝ) ⟨0, 1⟩ ⟨0, 1⟩ ⟨0, 0⟩).2.end_
        - (calDomainN Real.pi (⟨0, 0, 0, 1, 1, 0⟩ : Coefs ℝ) ⟨0, 1⟩ ⟨0, 1⟩ ⟨0, 0⟩).2.beg
          < 2 * Real.pi ∧
      ∀ u v : ℝ, (0 : ℝ) ≤ u → u ≤ 1 → (0 : ℝ) ≤ v → v ≤ 1 →
        (calDomainN Real.pi (⟨0, 0, 0, 1, 1, 0⟩ : Coefs ℝ) ⟨0, 1⟩ ⟨0, 1⟩ ⟨0, 0⟩).2.beg
          ≤ evaluate (⟨0, 0, 0, 1, 1, 0⟩ : Coefs ℝ) u v ∧
        evaluate (⟨0, 0, 0, 1, 1, 0⟩ : Coefs ℝ) u v
          ≤ (calDomainN Real.pi (⟨0, 0, 0, 1, 1, 0⟩ : Coefs ℝ) ⟨0, 1⟩ ⟨0, 1⟩ ⟨0, 0⟩).2.end_) ∨
    (calDomainN Real.pi (⟨0, 0, 0, 1, 1, 0⟩ : Coefs ℝ) ⟨0, 1⟩ ⟨0, 1⟩ ⟨0, 0⟩).2
      = ⟨0, 2 * Real.pi⟩) :=
  have h : (calDomainN Real.pi (⟨0, 0, 0, 1, 1, 0⟩ : Coefs ℝ) ⟨0, 1⟩ ⟨0, 1⟩ ⟨0, 0⟩).1 = true := by
    have h1 : calDomainN_checkNu (⟨0, 0, 0, 1, 1, 0⟩ : Coefs ℝ) ⟨0, 1⟩ ⟨0, 1⟩ = some true := by
      norm_num [calDomainN_checkNu]
    have h2 : calDomainN_checkNv (⟨0, 0, 0, 1, 1, 0⟩ : Coefs ℝ) ⟨0, 1⟩ ⟨0, 1⟩ = some true := by
      norm_num [calDomainN_checkNv]
    simp only [calDomainN, h1, h2]
    split_ifs <;> rfl
  ⟨h, calDomainN_sound Real.pi ⟨0, 0, 0, 1, 1, 0⟩ ⟨0, 1⟩ ⟨0, 1⟩ ⟨0, 0⟩ h⟩

/-- C2, the code at a failing input.  For `mCoefs = {1, -1, 1, 1, 1/2, 0}` on the unit
square, `dm/dv = -2v + u + 1/2` changes sign on the rectangle, yet `calDomainM` returns
`true` with the interval `[0, 5/2]`, which is not the full turn and does not contain
`m(1, 3/4) = 41/16`: the block `Check [ Mv ]` tests `2*mCoefs[0]*vDomain.end()` where
`calDomainN` tests `2*nCoefs[1]*vDomain.end()`, and `calDomainN` on the same coefficients
returns `false`. -/
theorem calDomainM_unsound_at :
    calDomainM Real.pi (⟨1, -1, 1, 1, 1 / 2, 0⟩ : Coefs ℝ) ⟨0, 1⟩ ⟨0, 1⟩ ⟨0, 0⟩
      = (true, ⟨0, 5 / 2⟩) ∧
    (⟨0, 5 / 2⟩ : piDomain ℝ) ≠ ⟨0, 2 * Real.pi⟩ ∧
    (5 / 2 : ℝ) < evaluate (⟨1, -1, 1, 1, 1 / 2, 0⟩ : Coefs ℝ) 1 (3 / 4) ∧
    dEvaluate_dv (⟨1, -1, 1, 1, 1 / 2, 0⟩ : Coefs ℝ) 0 1 < 0 ∧
    (calDomainN Real.pi (⟨1, -1, 1, 1, 1 / 2, 0⟩ : Coefs ℝ) ⟨0, 1⟩ ⟨0, 1⟩ ⟨0, 0⟩).1 = false := by
  have hpi := Real.pi_gt_three
  refine ⟨?_, ?_, ?_, ?_, ?_⟩
  · have h1 : calDomainM_checkMu (⟨1, -1, 1, 1, 1 / 2, 0⟩ : Coefs ℝ) ⟨0, 1⟩ ⟨0, 1⟩ = some true := by
      norm_num [calDomainM_checkMu]
    have h2 : calDomainM_checkMv (⟨1, -1, 1, 1, 1 / 2, 0⟩ : Coefs ℝ) ⟨0, 1⟩ ⟨0, 1⟩ = some true := by
      norm_num [calDomainM_checkMv]
    have h3 : calDomainM_minmax (⟨1, -1, 1, 1, 1 / 2, 0⟩ : Coefs ℝ) ⟨0, 1⟩ ⟨0, 1⟩ true true
        = (0, 5 / 2) := by
      norm_num [calDomainM_minmax, evaluate]
    simp only [calDomainM, h1, h2, h3]
    rw [if_pos (by unfold PI20; linarith)]
    rfl
  · intro h
    have := congrArg piDomain.end_ h
    simp only at this
    linarith
  · norm_num [evaluate]
  · norm_num [dEvaluate_dv]
  · have h1 : calDomainN_checkNu (⟨1, -1, 1, 1, 1 / 2, 0⟩ : Coefs ℝ) ⟨0, 1⟩ ⟨0, 1⟩ = some true := by
      norm_num [calDomainN_checkNu]
    have h2 : calDomainN_checkNv (⟨1, -1, 1, 1, 1 / 2, 0⟩ : Coefs ℝ) ⟨0, 1⟩ ⟨0, 1⟩ = none := by
      norm_num [calDomainN_checkNv]
    simp only [calDomainN, h1, h2]

/-! ### The curvature normalisation and the radii -/

theorem curvatureEps_pos : (0 : K) < curvatureEps := by
  unfold curvatureEps; norm_num

/-- The clamp step leaves a curvature of magnitude at least `curvatureEps`. -/
theorem clamp_abs_ge (k : K) :
    curvatureEps ≤
      |if |k| < curvatureEps then (if k < 0 then -curvatureEps else curvatureEps) else k| := by
  have e := curvatureEps_pos (K := K)
  split_ifs with h1 h2
  · rw [abs_neg, abs_of_pos e]
  · rw [abs_of_pos e]
  · exact not_lt.1 h1

/-- What the swap and flip steps do to two curvatures of magnitude at least `e > 0`:
the first becomes negative and the smaller in magnitude, and the anchor is `n = PI`
exactly in the hyperbolic case, in which the second ends positive. -/
theorem swap_flip_spec (PI e a b : K) (he : 0 < e) (ha : e ≤ |a|) (hb : e ≤ |b|) :
    let mn : K × K := if a * b < 0 then (0, PI) else (0, 0)
    let k12 : K × K := if |a| > |b| then (b, a) else (a, b)
    let k12f : K × K := if k12.1 > 0 then (k12.1 * -1, k12.2 * -1) else k12
    k12f.1 < 0 ∧ e ≤ |k12f.1| ∧ |k12f.1| ≤ |k12f.2| ∧ mn.1 = 0 ∧
      ((mn.2 = 0 ∧ k12f.2 < 0) ∨ (mn.2 = PI ∧ 0 < k12f.2)) := by
  intro mn k12 k12f
  have ha0 : a ≠ 0 := fun h => by rw [h, abs_zero] at ha; linarith
  have hb0 : b ≠ 0 := fun h => by rw [h, abs_zero] at hb; linarith
  have key : ∀ p q : K, e ≤ |p| → e ≤ |q| → |p| ≤ |q| → p ≠ 0 → q ≠ 0 →
      ((if p * q < 0 then ((0 : K), PI) else (0, 0)) = mn) →
      (if p > 0 then (p * -1, q * -1) else (p, q)).1 < 0 ∧
      e ≤ |(if p > 0 then (p * -1, q * -1) else (p, q)).1| ∧
      |(if p > 0 then (p * -1, q * -1) else (p, q)).1|
        ≤ |(if p > 0 then (p * -1, q * -1) else (p, q)).2| ∧ mn.1 = 0 ∧
      ((mn.2 = 0 ∧ (if p > 0 then (p * -1, q * -1) else (p, q)).2 < 0) ∨
        (mn.2 = PI ∧ 0 < (if p > 0 then (p * -1, q * -1) else (p, q)).2)) := by
    intro p q hp hq hpq hp0 hq0 hmn
    have hm1 : mn.1 = 0 := by rw [← hmn]; split_ifs <;> rfl
    by_cases h : p > 0
    · rw [if_pos h]
      simp only [mul_neg, mul_one, abs_neg, neg_neg_iff_pos, Left.neg_neg_iff, neg_pos]
      refine ⟨h, hp, hpq, hm1, ?_⟩
      rcases lt_or_gt_of_ne hq0 with hq1 | hq1
      · right
        refine ⟨?_, hq1⟩
        rw [← hmn, if_pos (mul_neg_of_pos_of_neg h hq1)]
      · left
        refine ⟨?_, hq1⟩
        rw [← hmn, if_neg (not_lt.2 (mul_pos h hq1).le)]
    · rw [if_neg h]
      have hneg : p < 0 := lt_of_le_of_ne (not_lt.1 h) hp0
      refine ⟨hneg, hp, hpq, hm1, ?_⟩
      rcases lt_or_gt_of_ne hq0 with hq1 | hq1
      · left
        refine ⟨?_, hq1⟩
        rw [← hmn, if_neg (not_lt.2 (mul_pos_of_neg_of_neg hneg hq1).le)]
      · right
        refine ⟨?_, hq1⟩
        rw [← hmn, if_pos (mul_neg_of_neg_of_pos hneg hq1)]
  by_cases hs : |a| > |b|
  · have := key b a hb ha hs.le hb0 ha0 (by rw [mul_comm])
    simpa only [k12f, k12, if_pos hs] using this
  · have := key a b ha hb (not_lt.1 hs) ha0 hb0 rfl
    simpa only [k12f, k12, if_neg hs] using this

/-- The state after the clamp, anchor, swap and flip steps: `k1 < 0`,
`curvatureEps <= |k1| <= |k2|`, `m = 0`, and `n = 0` with `k2 < 0` (elliptic) or `n = PI`
with `k2 > 0` (hyperbolic). -/
theorem create_curvature_spec (PI k1 k2 : K) :
    (create_curvature PI k1 k2).k1 < 0 ∧
    curvatureEps ≤ |(create_curvature PI k1 k2).k1| ∧
    |(create_curvature PI k1 k2).k1| ≤ |(create_curvature PI k1 k2).k2| ∧
    (create_curvature PI k1 k2).m = 0 ∧
    (((create_curvature PI k1 k2).n = 0 ∧ (create_curvature PI k1 k2).k2 < 0) ∨
      ((create_curvature PI k1 k2).n = PI ∧ 0 < (create_curvature PI k1 k2).k2)) :=
  swap_flip_spec PI curvatureEps _ _ curvatureEps_pos (clamp_abs_ge k1) (clamp_abs_ge k2)

/-- The radii formed from a normalised pair of curvatures. -/
theorem radii_spec (e k1 k2 : K) (he : 0 < e) (h1 : k1 < 0) (h1e : e ≤ |k1|)
    (h12 : |k1| ≤ |k2|) :
    0 < 1 / |k2| ∧ 1 / |k2| ≤ 1 / e ∧ -1 / k1 = 1 / |k1| ∧ 0 < 1 / |k1| ∧
      1 / |k2| ≤ 1 / |k1| ∧
      (k2 < 0 → -1 / k1 + 1 / k2 + 1 / |k2| = -1 / k1) ∧
      (0 < k2 → -1 / k1 + 1 / k2 - 1 / |k2| = -1 / k1) := by
  have hk1 : 0 < |k1| := lt_of_lt_of_le he h1e
  have hk2 : 0 < |k2| := lt_of_lt_of_le hk1 h12
  refine ⟨one_div_pos.2 hk2, one_div_le_one_div_of_le he (le_trans h1e h12), ?_,
    one_div_pos.2 hk1, one_div_le_one_div_of_le hk1 h12, ?_, ?_⟩
  · rw [abs_of_neg h1, neg_div, one_div, one_div, inv_neg]
  · intro h2
    rw [abs_of_neg h2, one_div (-k2), inv_neg, one_div]
    ring
  · intro h2
    rw [abs_of_pos h2]
    ring

theorem one_div_curvatureEps : (1 : K) / curvatureEps = 10000000 := by
  unfold curvatureEps; norm_num

/-! ### Projections of `create` -/

theorem create_majorRadius (cos sin : K → K) (PI : K) (factorize : Vec3 K → Vec3 K → Bool → K)
    (len : Vec3 K → K) (dflt : piDomain K) (surface : SurfaceInfo K)
    (G : Nat → Nat → Vec3 K) (k1 k2 : K) :
    (create cos sin PI factorize len dflt surface G k1 k2).patch.majorRadius
      = -1 / (create_curvature PI k1 k2).k1 + 1 / (create_curvature PI k1 k2).k2 := rfl

theorem create_minorRadius (cos sin : K → K) (PI : K) (factorize : Vec3 K → Vec3 K → Bool → K)
    (len : Vec3 K → K) (dflt : piDomain K) (surface : SurfaceInfo K)
    (G : Nat → Nat → Vec3 K) (k1 k2 : K) :
    (create cos sin PI factorize len dflt surface G k1 k2).patch.minorRadius
      = 1 / |(create_curvature PI k1 k2).k2| := rfl

theorem create_mapping_n0 (cos sin : K → K) (PI : K) (factorize : Vec3 K → Vec3 K → Bool → K)
    (len : Vec3 K → K) (dflt : piDomain K) (surface : SurfaceInfo K)
    (G : Nat → Nat → Vec3 K) (k1 k2 : K) :
    (create cos sin PI factorize len dflt surface G k1 k2).mapping.n0
      = (create_curvature PI k1 k2).n := rfl

theorem create_positionError_eq (cos sin : K → K) (PI : K)
    (factorize : Vec3 K → Vec3 K → Bool → K)
    (len : Vec3 K → K) (dflt : piDomain K) (surface : SurfaceInfo K)
    (G : Nat → Nat → Vec3 K) (k1 k2 : K) :
    (create cos sin PI factorize len dflt surface G k1 k2).positionError
      = create_positionError cos sin PI
          (create cos sin PI factorize len dflt surface G k1 k2).mapping
          (create cos sin PI factorize len dflt surface G k1 k2).patch surface := rfl

theorem create_patchDomain_eq (cos sin : K → K) (PI : K)
    (factorize : Vec3 K → Vec3 K → Bool → K)
    (len : Vec3 K → K) (dflt : piDomain K) (surface : SurfaceInfo K)
    (G : Nat → Nat → Vec3 K) (k1 k2 : K) :
    ((create cos sin PI factorize len dflt surface G k1 k2).patch.uDomain,
      (create cos sin PI factorize len dflt surface G k1 k2).patch.vDomain,
      (create cos sin PI factorize len dflt surface G k1 k2).validPatchDomain)
      = create_patchDomain PI (create cos sin PI factorize len dflt surface G k1 k2).mapping
          surface dflt := rfl

/-! ### The error bound -/

/-- The update `if (t > M) M = t;` keeps a non-negative maximum non-negative. -/
theorem ite_gt_nonneg (t M : K) (ht : 0 ≤ t) (hM : 0 ≤ M) : 0 ≤ (if t > M then t else M) := by
  split_ifs
  · exact ht
  · exact hM

/-- The corner maxima and the second-derivative magnitudes are non-negative. -/
theorem calPositionErrorUpperBound_locals_M_nonneg (cos sin : K → K) (PI : K) (mp : Mapping K)
    (patch : TorusPatch K) (uDomain vDomain : Domain K) :
    0 ≤ (mp.calPositionErrorUpperBound_locals cos sin PI patch uDomain vDomain).Mu ∧
    0 ≤ (mp.calPositionErrorUpperBound_locals cos sin PI patch uDomain vDomain).Mv ∧
    0 ≤ (mp.calPositionErrorUpperBound_locals cos sin PI patch uDomain vDomain).Nu ∧
    0 ≤ (mp.calPositionErrorUpperBound_locals cos sin PI patch uDomain vDomain).Nv ∧
    0 ≤ (mp.calPositionErrorUpperBound_locals cos sin PI patch uDomain vDomain).Muu ∧
    0 ≤ (mp.calPositionErrorUpperBound_locals cos sin PI patch uDomain vDomain).Muv ∧
    0 ≤ (mp.calPositionErrorUpperBound_locals cos sin PI patch uDomain vDomain).Mvv ∧
    0 ≤ (mp.calPositionErrorUpperBound_locals cos sin PI patch uDomain vDomain).Nuu ∧
    0 ≤ (mp.calPositionErrorUpperBound_locals cos sin PI patch uDomain vDomain).Nuv ∧
    0 ≤ (mp.calPositionErrorUpperBound_locals cos sin PI patch uDomain vDomain).Nvv := by
  refine ⟨?_, ?_, ?_, ?_, abs_nonneg _, abs_nonneg _, abs_nonneg _, abs_nonneg _,
    abs_nonneg _, abs_nonneg _⟩ <;>
  exact ite_gt_nonneg _ _ (abs_nonneg _)
    (ite_gt_nonneg _ _ (abs_nonneg _) (ite_gt_nonneg _ _ (abs_nonneg _) (abs_nonneg _)))

/-- The torus derivative constants chosen by `calPositionErrorUpperBound`. -/
theorem calPositionErrorUpperBound_locals_G (cos sin : K → K) (PI : K) (mp : Mapping K)
    (patch : TorusPatch K) (uDomain vDomain : Domain K) :
    (mp.calPositionErrorUpperBound_locals cos sin PI patch uDomain vDomain).Gmmm
      = (if mp.n0 = 0 then patch.majorRadius + patch.minorRadius
         else patch.majorRadius + patch.minorRadius * cos patch.vDomain.beg) ∧
    (mp.calPositionErrorUpperBound_locals cos sin PI patch uDomain vDomain).Gmmn
      = (if patch.vDomain.width > PI then patch.minorRadius
         else patch.minorRadius * |sin patch.vDomain.end_|) ∧
    (mp.calPositionErrorUpperBound_locals cos sin PI patch uDomain vDomain).Gmnn
      = patch.minorRadius ∧
    (mp.calPositionErrorUpperBound_locals cos sin PI patch uDomain vDomain).Gnnn
      = patch.minorRadius := by
  simp only [Mapping.calPositionErrorUpperBound_locals]
  refine ⟨?_, ?_, ?_, ?_⟩ <;> split_ifs <;> rfl

/-- The remainder terms are sums of products of the constants and the maxima. -/
theorem N_terms_nonneg (g1 g2 g3 g4 Mu Mv Nu Nv Muu Muv Mvv Nuu Nuv Nvv : K)
    (h1 : 0 ≤ g1) (h2 : 0 ≤ g2) (h3 : 0 ≤ g3) (h4 : 0 ≤ g4)
    (hMu : 0 ≤ Mu) (hMv : 0 ≤ Mv) (hNu : 0 ≤ Nu) (hNv : 0 ≤ Nv)
    (hMuu : 0 ≤ Muu) (hMuv : 0 ≤ Muv) (hMvv : 0 ≤ Mvv)
    (hNuu : 0 ≤ Nuu) (hNuv : 0 ≤ Nuv) (hNvv : 0 ≤ Nvv) :
    0 ≤ (g1 * Mu * Mu * Mu) + 3 * (g2 * Mu * Mu * Nu) + 3 * (g3 * Mu * Nu * Nu)
        + (g4 * Nu * Nu * Nu)
        + 3 * (g1 * Mu * Muu) + 3 * (g4 * Nu * Nuu) + 3 * (g2 * (Muu * Nu + Mu * Nuu)) ∧
    0 ≤ (g1 * Mu * Mu * Mv) + (g2 * (Mu * Mu * Nv + 2 * Mu * Nu * Mv))
        + (g3 * (Mv * Nu * Nu + 2 * Mu * Nu * Nv))
        + (g4 * Nu * Nu * Nv) + (g1 * (2 * Mu * Muv + Muu * Mv))
        + (g4 * (2 * Nu * Nuv + Nuu * Nv))
        + (g2 * (2 * Muv * Nu + 2 * Nuv * Mu + Muu * Nv + Nuu * Mv)) ∧
    0 ≤ (g1 * Mv * Mv * Mu) + (g2 * (Mv * Mv * Nu + 2 * Mv * Nv * Mu))
        + (g3 * (Mu * Nv * Nv + 2 * Mv * Nv * Nu))
        + (g4 * Nv * Nv * Nu) + (g1 * (2 * Mv * Muv + Mvv * Mu))
        + (g4 * (2 * Nv * Nuv + Nvv * Nu))
        + (g2 * (2 * Muv * Nv + 2 * Nuv * Mv + Mvv * Nu + Nvv * Mu)) ∧
    0 ≤ (g1 * Mv * Mv * Mv) + 3 * (g2 * Mv * Mv * Nv) + 3 * (g3 * Mv * Nv * Nv)
        + (g4 * Nv * Nv * Nv)
        + 3 * (g1 * Mv * Mvv) + 3 * (g4 * Nv * Nvv) + 3 * (g2 * (Mvv * Nv + Mv * Nvv)) := by
  refine ⟨?_, ?_, ?_, ?_⟩ <;> positivity

/-- With a non-negative minor radius and a non-negative constant `Gmmm`, all four torus
derivative constants and all four remainder terms are non-negative. -/
theorem calPositionErrorUpperBound_locals_nonneg (cos sin : K → K) (PI : K) (mp : Mapping K)
    (patch : TorusPatch K) (uDomain vDomain : Domain K) (hmin : 0 ≤ patch.minorRadius)
    (hG : 0 ≤ (mp.calPositionErrorUpperBound_locals cos sin PI patch uDomain vDomain).Gmmm) :
    0 ≤ (mp.calPositionErrorUpperBound_locals cos sin PI patch uDomain vDomain).Gmmn ∧
    0 ≤ (mp.calPositionErrorUpperBound_locals cos sin PI patch uDomain vDomain).Gmnn ∧
    0 ≤ (mp.calPositionErrorUpperBound_locals cos sin PI patch uDomain vDomain).Gnnn ∧
    0 ≤ (mp.calPositionErrorUpperBound_locals cos sin PI patch uDomain vDomain).N1 ∧
    0 ≤ (mp.calPositionErrorUpperBound_locals cos sin PI patch uDomain vDomain).N2 ∧
    0 ≤ (mp.calPositionErrorUpperBound_locals cos sin PI patch uDomain vDomain).N3 ∧
    0 ≤ (mp.calPositionErrorUpperBound_locals cos sin PI patch uDomain vDomain).N4 := by
  obtain ⟨-, e2, e3, e4⟩ := calPositionErrorUpperBound_locals_G cos sin PI mp patch uDomain vDomain
  have g2 : 0 ≤ (mp.calPositionErrorUpperBound_locals cos sin PI patch uDomain vDomain).Gmmn := by
    rw [e2]
    split_ifs
    · exact hmin
    · exact mul_nonneg hmin (abs_nonneg _)
  have g3 : 0 ≤ (mp.calPositionErrorUpperBound_locals cos sin PI patch uDomain vDomain).Gmnn := by
    rw [e3]; exact hmin
  have g4 : 0 ≤ (mp.calPositionErrorUpperBound_locals cos sin PI patch uDomain vDomain).Gnnn := by
    rw [e4]; exact hmin
  obtain ⟨m1, m2, m3, m4, m5, m6, m7, m8, m9, m10⟩ :=
    calPositionErrorUpperBound_locals_M_nonneg cos sin PI mp patch uDomain vDomain
  exact ⟨g2, g3, g4, N_terms_nonneg _ _ _ _ _ _ _ _ _ _ _ _ _ _ hG g2 g3 g4 m1 m2 m3 m4 m5 m6 m7
    m8 m9 m10⟩

/-- The error bound assembled by `Set Error Bound` is non-negative when the remainder
terms, the caller constants and the widths of the rectangle are. -/
theorem positionError_nonneg_of_terms (cos sin : K → K) (PI : K) (mp : Mapping K)
    (patch : TorusPatch K) (surface : SurfaceInfo K)
    (hN1 : 0 ≤ (mp.calPositionErrorUpperBound_locals cos sin PI patch surface.uDomain
      surface.vDomain).N1)
    (hN2 : 0 ≤ (mp.calPositionErrorUpperBound_locals cos sin PI patch surface.uDomain
      surface.vDomain).N2)
    (hN3 : 0 ≤ (mp.calPositionErrorUpperBound_locals cos sin PI patch surface.uDomain
      surface.vDomain).N3)
    (hN4 : 0 ≤ (mp.calPositionErrorUpperBound_locals cos sin PI patch surface.uDomain
      surface.vDomain).N4)
    (hM1 : 0 ≤ surface.M1) (hM2 : 0 ≤ surface.M2) (hM3 : 0 ≤ surface.M3) (hM4 : 0 ≤ surface.M4)
    (hu : surface.uDomain.beg ≤ surface.uDomain.end_)
    (hv : surface.vDomain.beg ≤ surface.vDomain.end_) :
    0 ≤ create_positionError cos sin PI mp patch surface := by
  have hL1 : 0 ≤ surface.uDomain.width := sub_nonneg.2 hu
  have hL2 : 0 ≤ surface.vDomain.width := sub_nonneg.2 hv
  simp only [create_positionError, Mapping.calPositionErrorUpperBound]
  positivity

/-- The constant `Gmmm` of the fitted patch is non-negative for any cosine bounded below
by `-1` and any non-zero half-turn constant. -/
theorem create_locals_Gmmm_nonneg (cos sin : K → K) (PI : K) (hcos : ∀ x, -1 ≤ cos x)
    (hPI : PI ≠ 0) (factorize : Vec3 K → Vec3 K → Bool → K) (len : Vec3 K → K)
    (dflt : piDomain K) (surface : SurfaceInfo K) (G : Nat → Nat → Vec3 K) (k1 k2 : K) :
    0 ≤ (create_locals cos sin PI factorize len dflt surface G k1 k2).Gmmm := by
  obtain ⟨c1, c2, c3, -, c5⟩ := create_curvature_spec PI k1 k2
  obtain ⟨r1, -, r3, r4, -, r6, r7⟩ := radii_spec curvatureEps _ _ curvatureEps_pos c1 c2 c3
  unfold create_locals
  rw [(calPositionErrorUpperBound_locals_G cos sin PI _ _ _ _).1, create_mapping_n0,
    create_majorRadius, create_minorRadius]
  rcases c5 with ⟨hn, hk2⟩ | ⟨hn, hk2⟩
  · rw [if_pos hn, r6 hk2, r3]
    exact r4.le
  · rw [if_neg (by rw [hn]; exact hPI)]
    have h7 := r7 hk2
    rw [r3] at h7
    have := mul_nonneg r1.le (by linarith [hcos (create cos sin PI factorize len dflt surface G k1
      k2).patch.vDomain.beg] : 0 ≤ 1 + cos (create cos sin PI factorize len dflt surface G k1
      k2).patch.vDomain.beg)
    nlinarith

/-- The three outputs of the block `Set Torus Patch Domain`, for any mapping. -/
theorem create_patchDomain_spec (PI : K) (mp : Mapping K) (surface : SurfaceInfo K)
    (dflt : piDomain K) :
    ((create_patchDomain PI mp surface dflt).2.2 = true ↔
      ((calDomainM PI mp.mCoefs surface.uDomain surface.vDomain dflt).1 = true ∧
        (calDomainN PI mp.nCoefs surface.uDomain surface.vDomain dflt).1 = true)) ∧
    (create_patchDomain PI mp surface dflt).1 =
      (if (calDomainM PI mp.mCoefs surface.uDomain surface.vDomain dflt).1 = true ∧
          (calDomainN PI mp.nCoefs surface.uDomain surface.vDomain dflt).1 = true
        then (calDomainM PI mp.mCoefs surface.uDomain surface.vDomain dflt).2
        else ⟨0, 2 * PI⟩) ∧
    (create_patchDomain PI mp surface dflt).2.1 =
      (if (calDomainM PI mp.mCoefs surface.uDomain surface.vDomain dflt).1 = true ∧
          (calDomainN PI mp.nCoefs surface.uDomain surface.vDomain dflt).1 = true
        then (calDomainN PI mp.nCoefs surface.uDomain surface.vDomain dflt).2
        else ⟨0, 2 * PI⟩) := by
  unfold create_patchDomain
  cases h1 : (calDomainM PI mp.mCoefs surface.uDomain surface.vDomain dflt).1 <;>
  cases h2 : (calDomainN PI mp.nCoefs surface.uDomain surface.vDomain dflt).1 <;>
  simp [piDomain.set, PI20, h1, h2]

end ApproxTheorems

/-! ### Claims on `TorusApprox::create` -/

section CreateClaims

/-- The stages of `create` from the clamp on (TorusApprox.cpp:633-727) keep the error bound
non-negative.  Over the reals, for every pair of real numbers `k1`, `k2` entering the clamp
and every real torus derivatives `G`, with caller constants `M1 .. M4 >= 0` and parameter
domains with `beg <= end`, the `positionError` is `>= 0`, and so are the constants
`Gmmm, Gmmn, Gmnn, Gnnn` and the terms `N1 .. N4`, in the elliptic and the hyperbolic case.
The principal directions (lines 603-632) and the placement (lines 664-690) are not part of
this statement: it says nothing for a sample on which they are undefined. -/
theorem create_positionError_nonneg (factorize : Vec3 ℝ → Vec3 ℝ → Bool → ℝ)
    (len : Vec3 ℝ → ℝ) (dflt : piDomain ℝ) (surface : SurfaceInfo ℝ)
    (G : Nat → Nat → Vec3 ℝ) (k1 k2 : ℝ)
    (hM1 : 0 ≤ surface.M1) (hM2 : 0 ≤ surface.M2) (hM3 : 0 ≤ surface.M3) (hM4 : 0 ≤ surface.M4)
    (hu : surface.uDomain.beg ≤ surface.uDomain.end_)
    (hv : surface.vDomain.beg ≤ surface.vDomain.end_) :
    0 ≤ (create Real.cos Real.sin Real.pi factorize len dflt surface G k1 k2).positionError ∧
    0 ≤ (create_locals Real.cos Real.sin Real.pi factorize len dflt surface G k1 k2).Gmmm ∧
    0 ≤ (create_locals Real.cos Real.sin Real.pi factorize len dflt surface G k1 k2).Gmmn ∧
    0 ≤ (create_locals Real.cos Real.sin Real.pi factorize len dflt surface G k1 k2).Gmnn ∧
    0 ≤ (create_locals Real.cos Real.sin Real.pi factorize len dflt surface G k1 k2).Gnnn ∧
    0 ≤ (create_locals Real.cos Real.sin Real.pi factorize len dflt surface G k1 k2).N1 ∧
    0 ≤ (create_locals Real.cos Real.sin Real.pi factorize len dflt surface G k1 k2).N2 ∧
    0 ≤ (create_locals Real.cos Real.sin Real.pi factorize len dflt surface G k1 k2).N3 ∧
    0 ≤ (create_locals Real.cos Real.sin Real.pi factorize len dflt surface G k1 k2).N4 := by
  have hG := create_locals_Gmmm_nonneg Real.cos Real.sin Real.pi Real.neg_one_le_cos
    Real.pi_ne_zero factorize len dflt surface G k1 k2
  obtain ⟨c1, c2, c3, -, -⟩ := create_curvature_spec Real.pi k1 k2
  obtain ⟨r1, -, -, -, -, -, -⟩ := radii_spec curvatureEps _ _ curvatureEps_pos c1 c2 c3
  have hmin : 0 ≤ (create Real.cos Real.sin Real.pi factorize len dflt surface G k1
      k2).patch.minorRadius := by
    rw [create_minorRadius]; exact r1.le
  obtain ⟨g2, g3, g4, n1, n2, n3, n4⟩ :=
    calPositionErrorUpperBound_locals_nonneg Real.cos Real.sin Real.pi _ _ _ _ hmin hG
  refine ⟨?_, hG, g2, g3, g4, n1, n2, n3, n4⟩
  rw [create_positionError_eq]
  exact positionError_nonneg_of_terms _ _ _ _ _ _ n1 n2 n3 n4 hM1 hM2 hM3 hM4 hu hv

/-- C5. Domain-validity fallback.  `create` always returns; its `validPatchDomain` is `true`
exactly when both `calDomainM` and `calDomainN` (run on the mapping it built, over the
surface rectangle) return `true`; in that case the patch m- and n-domains are the intervals
written by the two calls, and otherwise both are the full turn `[0, 2*pi]`. -/
theorem create_validPatchDomain {K : Type} [LinearOrderedField K] (cos sin : K → K) (PI : K)
    (factorize : Vec3 K → Vec3 K → Bool → K) (len : Vec3 K → K) (dflt : piDomain K)
    (surface : SurfaceInfo K) (G : Nat → Nat → Vec3 K) (k1 k2 : K) :
    ((create cos sin PI factorize len dflt surface G k1 k2).validPatchDomain = true ↔
      ((calDomainM PI (create cos sin PI factorize len dflt surface G k1 k2).mapping.mCoefs
          surface.uDomain surface.vDomain dflt).1 = true ∧
        (calDomainN PI (create cos sin PI factorize len dflt surface G k1 k2).mapping.nCoefs
          surface.uDomain surface.vDomain dflt).1 = true)) ∧
    (create cos sin PI factorize len dflt surface G k1 k2).patch.uDomain =
      (if (calDomainM PI (create cos sin PI factorize len dflt surface G k1 k2).mapping.mCoefs
            surface.uDomain surface.vDomain dflt).1 = true ∧
          (calDomainN PI (create cos sin PI factorize len dflt surface G k1 k2).mapping.nCoefs
            surface.uDomain surface.vDomain dflt).1 = true
        then (calDomainM PI (create cos sin PI factorize len dflt surface G k1 k2).mapping.mCoefs
            surface.uDomain surface.vDomain dflt).2
        else ⟨0, 2 * PI⟩) ∧
    (create cos sin PI factorize len dflt surface G k1 k2).patch.vDomain =
      (if (calDomainM PI (create cos sin PI factorize len dflt surface G k1 k2).mapping.mCoefs
            surface.uDomain surface.vDomain dflt).1 = true ∧
          (calDomainN PI (create cos sin PI factorize len dflt surface G k1 k2).mapping.nCoefs
            surface.uDomain surface.vDomain dflt).1 = true
        then (calDomainN PI (create cos sin PI factorize len dflt surface G k1 k2).mapping.nCoefs
            surface.uDomain surface.vDomain dflt).2
        else ⟨0, 2 * PI⟩) := by
  have e := create_patchDomain_eq cos sin PI factorize len dflt surface G k1 k2
  have h := create_patchDomain_spec PI
    (create cos sin PI factorize len dflt surface G k1 k2).mapping surface dflt
  rw [← e] at h
  exact h

/-- C6. The fitted torus passes through the sample point at the anchor.  Over the reals,
for every pair of raw principal curvatures the radii and the anchor chosen by `create`
satisfy `majorRadius + minorRadius * cos n0 = -1/k1 = 1/|k1|`, with `k1` the normalised
first curvature. -/
theorem create_anchor_radius (factorize : Vec3 ℝ → Vec3 ℝ → Bool → ℝ)
    (len : Vec3 ℝ → ℝ) (dflt : piDomain ℝ) (surface : SurfaceInfo ℝ)
    (G : Nat → Nat → Vec3 ℝ) (k1 k2 : ℝ) :
    (create Real.cos Real.sin Real.pi factorize len dflt surface G k1 k2).patch.majorRadius
      + (create Real.cos Real.sin Real.pi factorize len dflt surface G k1 k2).patch.minorRadius
        * Real.cos (create Real.cos Real.sin Real.pi factorize len dflt surface G k1 k2).mapping.n0
      = -1 / (create_curvature Real.pi k1 k2).k1 ∧
    -1 / (create_curvature Real.pi k1 k2).k1 = 1 / |(create_curvature Real.pi k1 k2).k1| := by
  obtain ⟨c1, c2, c3, -, c5⟩ := create_curvature_spec Real.pi k1 k2
  obtain ⟨-, -, r3, -, -, r6, r7⟩ := radii_spec curvatureEps _ _ curvatureEps_pos c1 c2 c3
  refine ⟨?_, r3⟩
  rw [create_mapping_n0, create_majorRadius, create_minorRadius]
  rcases c5 with ⟨hn, hk2⟩ | ⟨hn, hk2⟩
  · rw [hn, Real.cos_zero, mul_one]
    exact r6 hk2
  · rw [hn, Real.cos_pi, mul_neg, mul_one, ← sub_eq_add_neg]
    exact r7 hk2

/-- C7. Radii invariant of the fitted torus.  For every pair of raw principal curvatures
(zero and equal values included) the patch built by `create` has
`0 < minorRadius <= 1e7` and `majorRadius >= 0`. -/
theorem create_radii_invariant {K : Type} [LinearOrderedField K] (cos sin : K → K) (PI : K)
    (factorize : Vec3 K → Vec3 K → Bool → K) (len : Vec3 K → K) (dflt : piDomain K)
    (surface : SurfaceInfo K) (G : Nat → Nat → Vec3 K) (k1 k2 : K) :
    0 < (create cos sin PI factorize len dflt surface G k1 k2).patch.minorRadius ∧
    (create cos sin PI factorize len dflt surface G k1 k2).patch.minorRadius ≤ 10000000 ∧
    0 ≤ (create cos sin PI factorize len dflt surface G k1 k2).patch.majorRadius := by
  obtain ⟨c1, c2, c3, -, c5⟩ := create_curvature_spec PI k1 k2
  obtain ⟨r1, r2, r3, r4, r5, r6, r7⟩ := radii_spec curvatureEps _ _ curvatureEps_pos c1 c2 c3
  rw [create_majorRadius, create_minorRadius]
  refine ⟨r1, by rw [← one_div_curvatureEps]; exact r2, ?_⟩
  rcases c5 with ⟨-, hk2⟩ | ⟨-, hk2⟩
  · have := r6 hk2
    rw [r3] at this
    linarith
  · have := r7 hk2
    rw [r3] at this
    linarith

end CreateClaims

/-! ### Claims on `TorusPatchGaussmap::create` -/

section GaussmapClaims

/-- The final loop of `create` changes neither the flags nor the regions. -/
theorem TorusPatchGaussmap_create_fields {K : Type} [LinearOrderedField K] [FloorRing K]
    (PI : K) (dflt : Gaussmap K) (patch : TorusPatch K) :
    (TorusPatchGaussmap.create PI dflt patch).validGaussmap0 = (TorusPatchGaussmap.create_regions PI dflt patch).validGaussmap0 ∧
    (TorusPatchGaussmap.create PI dflt patch).validGaussmap1 = (TorusPatchGaussmap.create_regions PI dflt patch).validGaussmap1 ∧
    (TorusPatchGaussmap.create PI dflt patch).validGaussmap2 = (TorusPatchGaussmap.create_regions PI dflt patch).validGaussmap2 ∧
    (TorusPatchGaussmap.create PI dflt patch).validGaussmap3 = (TorusPatchGaussmap.create_regions PI dflt patch).validGaussmap3 ∧
    (TorusPatchGaussmap.create PI dflt patch).gaussmap0 = (TorusPatchGaussmap.create_regions PI dflt patch).gaussmap0 ∧
    (TorusPatchGaussmap.create PI dflt patch).gaussmap1 = (TorusPatchGaussmap.create_regions PI dflt patch).gaussmap1 ∧
    (TorusPatchGaussmap.create PI dflt patch).gaussmap2 = (TorusPatchGaussmap.create_regions PI dflt patch).gaussmap2 ∧
    (TorusPatchGaussmap.create PI dflt patch).gaussmap3 = (TorusPatchGaussmap.create_regions PI dflt patch).gaussmap3 :=
  ⟨rfl, rfl, rfl, rfl, rfl, rfl, rfl, rfl⟩

/-- An angle already in `[0, 2*PI)` is its own canonical representative. -/
theorem regularize_of_mem {K : Type} [LinearOrderedField K] [FloorRing K] (PI x : K)
    (hPI : 0 < PI) (h0 : 0 ≤ x) (h1 : x < 2 * PI) : piDomain.regularize PI x = x := by
  have h2 : (0 : K) < 2 * PI := by linarith
  have hf : Int.floor (x / (2 * PI)) = 0 :=
    Int.floor_eq_zero_iff.2 ⟨div_nonneg h0 h2.le, (div_lt_one h2).2 h1⟩
  unfold piDomain.regularize PI20
  rw [hf]
  simp

/-- The canonical representative lies in `[0, 2*PI)` and differs from the angle by a whole
number of full turns. -/
theorem regularize_spec {K : Type} [LinearOrderedField K] [FloorRing K] (PI x : K)
    (hPI : 0 < PI) :
    0 ≤ piDomain.regularize PI x ∧ piDomain.regularize PI x < 2 * PI ∧
      ∃ k : ℤ, piDomain.regularize PI x = x + (k : K) * (2 * PI) := by
  have h2 : (0 : K) < 2 * PI := by linarith
  have f1 := Int.floor_le (x / (2 * PI))
  have f2 := Int.lt_floor_add_one (x / (2 * PI))
  rw [le_div_iff₀ h2] at f1
  rw [div_lt_iff₀ h2] at f2
  unfold piDomain.regularize PI20
  refine ⟨by linarith, by linarith, -Int.floor (x / (2 * PI)), ?_⟩
  push_cast
  ring

/-- The modelled membership test is membership of a full-turn translate in `[beg, end]`. -/
theorem piDomain_has_iff {K : Type} [LinearOrderedField K] [FloorRing K] (PI : K)
    (hPI : 0 < PI) (d : piDomain K) (x : K) :
    d.has PI x = true ↔
      ∃ k : ℤ, d.beg ≤ x + (k : K) * (2 * PI) ∧ x + (k : K) * (2 * PI) ≤ d.end_ := by
  have h2 : (0 : K) < 2 * PI := by linarith
  obtain ⟨r0, r1, k, hk⟩ := regularize_spec PI (x - d.beg) hPI
  unfold piDomain.has
  rw [decide_eq_true_iff]
  constructor
  · intro h
    exact ⟨k, by linarith, by linarith⟩
  · rintro ⟨j, hj0, hj1⟩
    -- the translate by `j` is at least the canonical one
    have hjk : k ≤ j := by
      by_contra hlt
      have hlt2 : j + 1 ≤ k := by omega
      have hc : ((j : K) + 1) ≤ (k : K) := by exact_mod_cast hlt2
      have := mul_le_mul_of_nonneg_right hc h2.le
      nlinarith
    have hc : (k : K) ≤ (j : K) := by exact_mod_cast hjk
    have := mul_le_mul_of_nonneg_right hc h2.le
    linarith

/-- The regions of the branch "the n-domain has `PI05` and not `PI15`" when the begin value
is the `h1` side and its canonical representative is below `PI15`. -/
theorem create_regions_PI05 {K : Type} [LinearOrderedField K] [FloorRing K]
    (PI : K) (dflt : Gaussmap K) (patch : TorusPatch K)
    (h05 : patch.vDomain.has PI (PI05 PI) = true)
    (h15 : patch.vDomain.has PI (PI15 PI) = false)
    (hh1 : (TorusPatchGaussmap.h1 PI).has PI patch.vDomain.beg = true)
    (hlt : piDomain.regularize PI patch.vDomain.beg < PI15 PI) :
    (TorusPatchGaussmap.create_regions PI dflt patch).validGaussmap0 = true ∧
    (TorusPatchGaussmap.create_regions PI dflt patch).validGaussmap1 = true ∧
    (TorusPatchGaussmap.create_regions PI dflt patch).validGaussmap2 = true ∧
    (TorusPatchGaussmap.create_regions PI dflt patch).validGaussmap3 = true ∧
    (TorusPatchGaussmap.create_regions PI dflt patch).gaussmap0.vDomain
      = ⟨0, PI05 PI - piDomain.regularize PI patch.vDomain.beg⟩ ∧
    (TorusPatchGaussmap.create_regions PI dflt patch).gaussmap1.vDomain
      = ⟨0, piDomain.regularize PI patch.vDomain.end_ - PI05 PI⟩ ∧
    (TorusPatchGaussmap.create_regions PI dflt patch).gaussmap2.vDomain
      = ⟨PI - (PI05 PI - piDomain.regularize PI patch.vDomain.beg), PI - 0⟩ ∧
    (TorusPatchGaussmap.create_regions PI dflt patch).gaussmap3.vDomain
      = ⟨PI - (piDomain.regularize PI patch.vDomain.end_ - PI05 PI), PI - 0⟩ := by
  unfold TorusPatchGaussmap.create_regions
  simp [h05, h15, hh1, not_le.2 hlt, piDomain.set, piDomain.create,
    TorusPatchGaussmap.invertGaussmapDomainV]

/-- C8. Gauss-map validity classification.  For every torus patch, `create` gives
`validGaussmap[0] = validGaussmap[2]` and `validGaussmap[1] = validGaussmap[3]` with at
least one pair valid; all four flags are `true` exactly when the n-domain has `PI05` or
`PI15`, and when it has both all four v-domains are `[0, PI]`; when it has neither, the
valid pair is that of the hemisphere having the begin value: flags 0 and 2 if `h1` has it,
flags 1 and 3 otherwise. -/
theorem TorusPatchGaussmap_create_valid {K : Type} [LinearOrderedField K] [FloorRing K]
    (PI : K) (dflt : Gaussmap K) (patch : TorusPatch K) :
    (TorusPatchGaussmap.create PI dflt patch).validGaussmap0 = (TorusPatchGaussmap.create PI dflt patch).validGaussmap2 ∧
    (TorusPatchGaussmap.create PI dflt patch).validGaussmap1 = (TorusPatchGaussmap.create PI dflt patch).validGaussmap3 ∧
    ((TorusPatchGaussmap.create PI dflt patch).validGaussmap0 = true ∨
      (TorusPatchGaussmap.create PI dflt patch).validGaussmap1 = true) ∧
    (((TorusPatchGaussmap.create PI dflt patch).validGaussmap0 = true ∧
        (TorusPatchGaussmap.create PI dflt patch).validGaussmap1 = true ∧
        (TorusPatchGaussmap.create PI dflt patch).validGaussmap2 = true ∧
        (TorusPatchGaussmap.create PI dflt patch).validGaussmap3 = true) ↔
      (patch.vDomain.has PI (PI05 PI) = true ∨ patch.vDomain.has PI (PI15 PI) = true)) ∧
    ((patch.vDomain.has PI (PI05 PI) = true ∧ patch.vDomain.has PI (PI15 PI) = true) →
      (TorusPatchGaussmap.create PI dflt patch).gaussmap0.vDomain = ⟨0, PI⟩ ∧
      (TorusPatchGaussmap.create PI dflt patch).gaussmap1.vDomain = ⟨0, PI⟩ ∧
      (TorusPatchGaussmap.create PI dflt patch).gaussmap2.vDomain = ⟨0, PI⟩ ∧
      (TorusPatchGaussmap.create PI dflt patch).gaussmap3.vDomain = ⟨0, PI⟩) ∧
    ((patch.vDomain.has PI (PI05 PI) = false ∧ patch.vDomain.has PI (PI15 PI) = false) →
      ((TorusPatchGaussmap.create PI dflt patch).validGaussmap0 = (TorusPatchGaussmap.h1 PI).has PI patch.vDomain.beg ∧
        (TorusPatchGaussmap.create PI dflt patch).validGaussmap2 = (TorusPatchGaussmap.h1 PI).has PI patch.vDomain.beg ∧
        (TorusPatchGaussmap.create PI dflt patch).validGaussmap1 = !(TorusPatchGaussmap.h1 PI).has PI patch.vDomain.beg ∧
        (TorusPatchGaussmap.create PI dflt patch).validGaussmap3 = !(TorusPatchGaussmap.h1 PI).has PI patch.vDomain.beg)) := by
  obtain ⟨e0, e1, e2, e3, g0, g1, g2, g3⟩ := TorusPatchGaussmap_create_fields PI dflt patch
  rw [e0, e1, e2, e3, g0, g1, g2, g3]
  unfold TorusPatchGaussmap.create_regions
  cases h05 : patch.vDomain.has PI (PI05 PI) <;>
  cases h15 : patch.vDomain.has PI (PI15 PI) <;>
  cases hh1 : (TorusPatchGaussmap.h1 PI).has PI patch.vDomain.beg <;>
  simp [piDomain.set]

/-- The regions built for the n-domain `[a, b]` with `0 <= a <= pi/2 <= b < 3*pi/2` and
`b - a < 2*pi`, over the reals: all four are valid, the outward ones are `[0, pi/2 - a]` and
`[0, b - pi/2]`, the inward ones their reflections. -/
theorem create_across_PI05 (dflt : Gaussmap ℝ) (majorRadius minorRadius : ℝ)
    (uDomain : piDomain ℝ) (a b : ℝ) (ha0 : 0 ≤ a) (ha1 : a ≤ Real.pi / 2)
    (hb0 : Real.pi / 2 ≤ b) (hb1 : b < 3 * Real.pi / 2) :
    (TorusPatchGaussmap.create Real.pi dflt ⟨majorRadius, minorRadius, uDomain, ⟨a, b⟩⟩).validGaussmap0
      = true ∧
    (TorusPatchGaussmap.create Real.pi dflt ⟨majorRadius, minorRadius, uDomain, ⟨a, b⟩⟩).validGaussmap1
      = true ∧
    (TorusPatchGaussmap.create Real.pi dflt ⟨majorRadius, minorRadius, uDomain, ⟨a, b⟩⟩).validGaussmap2
      = true ∧
    (TorusPatchGaussmap.create Real.pi dflt ⟨majorRadius, minorRadius, uDomain, ⟨a, b⟩⟩).validGaussmap3
      = true ∧
    (TorusPatchGaussmap.create Real.pi dflt
        ⟨majorRadius, minorRadius, uDomain, ⟨a, b⟩⟩).gaussmap0.vDomain
      = ⟨0, Real.pi / 2 - a⟩ ∧
    (TorusPatchGaussmap.create Real.pi dflt
        ⟨majorRadius, minorRadius, uDomain, ⟨a, b⟩⟩).gaussmap1.vDomain
      = ⟨0, b - Real.pi / 2⟩ ∧
    (TorusPatchGaussmap.create Real.pi dflt
        ⟨majorRadius, minorRadius, uDomain, ⟨a, b⟩⟩).gaussmap2.vDomain
      = ⟨Real.pi / 2 + a, Real.pi⟩ ∧
    (TorusPatchGaussmap.create Real.pi dflt
        ⟨majorRadius, minorRadius, uDomain, ⟨a, b⟩⟩).gaussmap3.vDomain
      = ⟨3 * Real.pi / 2 - b, Real.pi⟩ := by
  have hpi := Real.pi_pos
  have ra : piDomain.regularize Real.pi a = a :=
    regularize_of_mem Real.pi a hpi ha0 (by linarith)
  have rb : piDomain.regularize Real.pi b = b :=
    regularize_of_mem Real.pi b hpi (by linarith) (by linarith)
  have h05 : (⟨a, b⟩ : piDomain ℝ).has Real.pi (PI05 Real.pi) = true := by
    unfold piDomain.has PI05
    rw [decide_eq_true_iff, regularize_of_mem Real.pi _ hpi (by linarith) (by linarith)]
    linarith
  have h15 : (⟨a, b⟩ : piDomain ℝ).has Real.pi (PI15 Real.pi) = false := by
    unfold piDomain.has PI15
    rw [decide_eq_false_iff_not, regularize_of_mem Real.pi _ hpi (by linarith) (by linarith)]
    simp only [not_le]
    linarith
  have hh1 : (TorusPatchGaussmap.h1 Real.pi).has Real.pi a = true := by
    unfold piDomain.has TorusPatchGaussmap.h1 piDomain.create PI05
    rw [decide_eq_true_iff, regularize_of_mem Real.pi _ hpi (by linarith) (by linarith)]
    linarith
  obtain ⟨e0, e1, e2, e3, g0, g1, g2, g3⟩ := TorusPatchGaussmap_create_fields Real.pi dflt
    ⟨majorRadius, minorRadius, uDomain, ⟨a, b⟩⟩
  obtain ⟨c0, c1, c2, c3, d0, d1, d2, d3⟩ := create_regions_PI05 Real.pi dflt
    ⟨majorRadius, minorRadius, uDomain, ⟨a, b⟩⟩ h05 h15 hh1
    (by rw [ra]; unfold PI15; linarith)
  rw [e0, e1, e2, e3, g0, g1, g2, g3, d0, d1, d2, d3, ra, rb]
  refine ⟨c0, c1, c2, c3, rfl, rfl, ?_, ?_⟩ <;>
    simp only [PI05, piDomain.mk.injEq] <;> constructor <;> ring

/-- C9, counterexample.  Over the reals, for the patch with n-domain exactly `[0, pi]`
(radii 1, m-domain `[0, 1]`), `create` does not leave the `h2` regions invalid. -/
theorem TorusPatchGaussmap_zero_pi_counterexample :
    ¬ ((TorusPatchGaussmap.create Real.pi ⟨⟨0, 0⟩, ⟨0, 0⟩⟩
          ⟨1, 1, ⟨0, 1⟩, ⟨0, Real.pi⟩⟩).validGaussmap0 = true ∧
        (TorusPatchGaussmap.create Real.pi ⟨⟨0, 0⟩, ⟨0, 0⟩⟩
          ⟨1, 1, ⟨0, 1⟩, ⟨0, Real.pi⟩⟩).validGaussmap2 = true ∧
        (TorusPatchGaussmap.create Real.pi ⟨⟨0, 0⟩, ⟨0, 0⟩⟩
          ⟨1, 1, ⟨0, 1⟩, ⟨0, Real.pi⟩⟩).validGaussmap1 = false ∧
        (TorusPatchGaussmap.create Real.pi ⟨⟨0, 0⟩, ⟨0, 0⟩⟩
          ⟨1, 1, ⟨0, 1⟩, ⟨0, Real.pi⟩⟩).validGaussmap3 = false) := by
  have hpi := Real.pi_pos
  obtain ⟨-, c1, -⟩ := create_across_PI05 ⟨⟨0, 0⟩, ⟨0, 0⟩⟩ 1 1 ⟨0, 1⟩ 0 Real.pi (le_refl _)
    (by linarith) (by linarith) (by linarith)
  rintro ⟨-, -, h, -⟩
  rw [c1] at h
  exact Bool.noConfusion h

/-- C9, amended.  Over the reals, for every torus patch whose n-domain is exactly
`[0, pi]`, `create` marks all four regions valid: the n-domain contains the boundary
`pi/2`, so it touches both hemispheres; the outward regions get the v-domain `[0, pi/2]`
and the inward regions `[pi/2, pi]`. -/
theorem TorusPatchGaussmap_create_zero_pi (dflt : Gaussmap ℝ) (majorRadius minorRadius : ℝ)
    (uDomain : piDomain ℝ) :
    (TorusPatchGaussmap.create Real.pi dflt
        ⟨majorRadius, minorRadius, uDomain, ⟨0, Real.pi⟩⟩).validGaussmap0 = true ∧
    (TorusPatchGaussmap.create Real.pi dflt
        ⟨majorRadius, minorRadius, uDomain, ⟨0, Real.pi⟩⟩).validGaussmap2 = true ∧
    (TorusPatchGaussmap.create Real.pi dflt
        ⟨majorRadius, minorRadius, uDomain, ⟨0, Real.pi⟩⟩).validGaussmap1 = true ∧
    (TorusPatchGaussmap.create Real.pi dflt
        ⟨majorRadius, minorRadius, uDomain, ⟨0, Real.pi⟩⟩).validGaussmap3 = true ∧
    (TorusPatchGaussmap.create Real.pi dflt
        ⟨majorRadius, minorRadius, uDomain, ⟨0, Real.pi⟩⟩).gaussmap0.vDomain
      = ⟨0, Real.pi / 2⟩ ∧
    (TorusPatchGaussmap.create Real.pi dflt
        ⟨majorRadius, minorRadius, uDomain, ⟨0, Real.pi⟩⟩).gaussmap1.vDomain
      = ⟨0, Real.pi / 2⟩ ∧
    (TorusPatchGaussmap.create Real.pi dflt
        ⟨majorRadius, minorRadius, uDomain, ⟨0, Real.pi⟩⟩).gaussmap2.vDomain
      = ⟨Real.pi / 2, Real.pi⟩ ∧
    (TorusPatchGaussmap.create Real.pi dflt
        ⟨majorRadius, minorRadius, uDomain, ⟨0, Real.pi⟩⟩).gaussmap3.vDomain
      = ⟨Real.pi / 2, Real.pi⟩ := by
  have hpi := Real.pi_pos
  obtain ⟨c0, c1, c2, c3, d0, d1, d2, d3⟩ := create_across_PI05 dflt majorRadius minorRadius
    uDomain 0 Real.pi (le_refl _) (by linarith) (by linarith) (by linarith)
  refine ⟨c0, c2, c1, c3, ?_, ?_, ?_, ?_⟩
  · rw [d0, sub_zero]
  · rw [d1]; congr 1; ring
  · rw [d2, add_zero]
  · rw [d3]; congr 1; ring

/-- C10, counterexample.  Over the reals, for `eps = 1` and the patch with n-domain
`[pi/2 - 1, pi/2 + 1]` (radii 1, m-domain `[0, 1]`), the four regions are not all given the
v-domain `[0, 1]`: the inward ones are `[pi - 1, pi]`. -/
theorem TorusPatchGaussmap_eps_counterexample :
    ¬ ((TorusPatchGaussmap.create Real.pi ⟨⟨0, 0⟩, ⟨0, 0⟩⟩
          ⟨1, 1, ⟨0, 1⟩, ⟨Real.pi / 2 - 1, Real.pi / 2 + 1⟩⟩).gaussmap0.vDomain = ⟨0, 1⟩ ∧
        (TorusPatchGaussmap.create Real.pi ⟨⟨0, 0⟩, ⟨0, 0⟩⟩
          ⟨1, 1, ⟨0, 1⟩, ⟨Real.pi / 2 - 1, Real.pi / 2 + 1⟩⟩).gaussmap1.vDomain = ⟨0, 1⟩ ∧
        (TorusPatchGaussmap.create Real.pi ⟨⟨0, 0⟩, ⟨0, 0⟩⟩
          ⟨1, 1, ⟨0, 1⟩, ⟨Real.pi / 2 - 1, Real.pi / 2 + 1⟩⟩).gaussmap2.vDomain = ⟨0, 1⟩ ∧
        (TorusPatchGaussmap.create Real.pi ⟨⟨0, 0⟩, ⟨0, 0⟩⟩
          ⟨1, 1, ⟨0, 1⟩, ⟨Real.pi / 2 - 1, Real.pi / 2 + 1⟩⟩).gaussmap3.vDomain = ⟨0, 1⟩) := by
  have hpi := Real.pi_gt_three
  obtain ⟨-, -, -, -, -, -, d2, -⟩ := create_across_PI05 ⟨⟨0, 0⟩, ⟨0, 0⟩⟩ 1 1 ⟨0, 1⟩
    (Real.pi / 2 - 1) (Real.pi / 2 + 1) (by linarith) (by linarith) (by linarith) (by linarith)
  rintro ⟨-, -, h, -⟩
  rw [d2] at h
  have := congrArg piDomain.end_ h
  simp only at this
  linarith

/-- C10, amended.  Over the reals, for every `eps` with `0 < eps < pi/2` and every torus
patch whose n-domain is `[pi/2 - eps, pi/2 + eps]`, `create` marks all four regions valid,
gives the two outward regions the v-domain `[0, eps]` and the two inward regions its
reflection `[pi - eps, pi]`. -/
theorem TorusPatchGaussmap_create_eps (dflt : Gaussmap ℝ) (majorRadius minorRadius : ℝ)
    (uDomain : piDomain ℝ) (eps : ℝ) (h0 : 0 < eps) (h1 : eps < Real.pi / 2) :
    (TorusPatchGaussmap.create Real.pi dflt ⟨majorRadius, minorRadius, uDomain,
        ⟨Real.pi / 2 - eps, Real.pi / 2 + eps⟩⟩).validGaussmap0 = true ∧
    (TorusPatchGaussmap.create Real.pi dflt ⟨majorRadius, minorRadius, uDomain,
        ⟨Real.pi / 2 - eps, Real.pi / 2 + eps⟩⟩).validGaussmap1 = true ∧
    (TorusPatchGaussmap.create Real.pi dflt ⟨majorRadius, minorRadius, uDomain,
        ⟨Real.pi / 2 - eps, Real.pi / 2 + eps⟩⟩).validGaussmap2 = true ∧
    (TorusPatchGaussmap.create Real.pi dflt ⟨majorRadius, minorRadius, uDomain,
        ⟨Real.pi / 2 - eps, Real.pi / 2 + eps⟩⟩).validGaussmap3 = true ∧
    (TorusPatchGaussmap.create Real.pi dflt ⟨majorRadius, minorRadius, uDomain,
        ⟨Real.pi / 2 - eps, Real.pi / 2 + eps⟩⟩).gaussmap0.vDomain = ⟨0, eps⟩ ∧
    (TorusPatchGaussmap.create Real.pi dflt ⟨majorRadius, minorRadius, uDomain,
        ⟨Real.pi / 2 - eps, Real.pi / 2 + eps⟩⟩).gaussmap1.vDomain = ⟨0, eps⟩ ∧
    (TorusPatchGaussmap.create Real.pi dflt ⟨majorRadius, minorRadius, uDomain,
        ⟨Real.pi / 2 - eps, Real.pi / 2 + eps⟩⟩).gaussmap2.vDomain
      = ⟨Real.pi - eps, Real.pi⟩ ∧
    (TorusPatchGaussmap.create Real.pi dflt ⟨majorRadius, minorRadius, uDomain,
        ⟨Real.pi / 2 - eps, Real.pi / 2 + eps⟩⟩).gaussmap3.vDomain
      = ⟨Real.pi - eps, Real.pi⟩ := by
  have hpi := Real.pi_pos
  obtain ⟨c0, c1, c2, c3, d0, d1, d2, d3⟩ := create_across_PI05 dflt majorRadius minorRadius
    uDomain (Real.pi / 2 - eps) (Real.pi / 2 + eps) (by linarith) (by linarith) (by linarith)
    (by linarith)
  refine ⟨c0, c1, c2, c3, ?_, ?_, ?_, ?_⟩
  · rw [d0]; congr 1; ring
  · rw [d1]; congr 1; ring
  · rw [d2]; congr 1; ring
  · rw [d3]; congr 1; ring

/-- Witness for C10 (amended): `eps = 1`, radii 1 and m-domain `[0, 1]`. -/
theorem TorusPatchGaussmap_create_eps_witness :
    ((0 : ℝ) < 1 ∧ (1 : ℝ) < Real.pi / 2) ∧
    ((TorusPatchGaussmap.create Real.pi ⟨⟨0, 0⟩, ⟨0, 0⟩⟩ ⟨1, 1, ⟨0, 1⟩,
        ⟨Real.pi / 2 - 1, Real.pi / 2 + 1⟩⟩).validGaussmap0 = true ∧
    (TorusPatchGaussmap.create Real.pi ⟨⟨0, 0⟩, ⟨0, 0⟩⟩ ⟨1, 1, ⟨0, 1⟩,
        ⟨Real.pi / 2 - 1, Real.pi / 2 + 1⟩⟩).validGaussmap1 = true ∧
    (TorusPatchGaussmap.create Real.pi ⟨⟨0, 0⟩, ⟨0, 0⟩⟩ ⟨1, 1, ⟨0, 1⟩,
        ⟨Real.pi / 2 - 1, Real.pi / 2 + 1⟩⟩).validGaussmap2 = true ∧
    (TorusPatchGaussmap.create Real.pi ⟨⟨0, 0⟩, ⟨0, 0⟩⟩ ⟨1, 1, ⟨0, 1⟩,
        ⟨Real.pi / 2 - 1, Real.pi / 2 + 1⟩⟩).validGaussmap3 = true ∧
    (TorusPatchGaussmap.create Real.pi ⟨⟨0, 0⟩, ⟨0, 0⟩⟩ ⟨1, 1, ⟨0, 1⟩,
        ⟨Real.pi / 2 - 1, Real.pi / 2 + 1⟩⟩).gaussmap0.vDomain = ⟨0, 1⟩ ∧
    (TorusPatchGaussmap.create Real.pi ⟨⟨0, 0⟩, ⟨0, 0⟩⟩ ⟨1, 1, ⟨0, 1⟩,
        ⟨Real.pi / 2 - 1, Real.pi / 2 + 1⟩⟩).gaussmap1.vDomain = ⟨0, 1⟩ ∧
    (TorusPatchGaussmap.create Real.pi ⟨⟨0, 0⟩, ⟨0, 0⟩⟩ ⟨1, 1, ⟨0, 1⟩,
        ⟨Real.pi / 2 - 1, Real.pi / 2 + 1⟩⟩).gaussmap2.vDomain = ⟨Real.pi - 1, Real.pi⟩ ∧
    (TorusPatchGaussmap.create Real.pi ⟨⟨0, 0⟩, ⟨0, 0⟩⟩ ⟨1, 1, ⟨0, 1⟩,
        ⟨Real.pi / 2 - 1, Real.pi / 2 + 1⟩⟩).gaussmap3.vDomain = ⟨Real.pi - 1, Real.pi⟩) :=
  have h1 : (1 : ℝ) < Real.pi / 2 := by linarith [Real.pi_gt_three]
  ⟨⟨one_pos, h1⟩, TorusPatchGaussmap_create_eps ⟨⟨0, 0⟩, ⟨0, 0⟩⟩ 1 1 ⟨0, 1⟩ 1 one_pos h1⟩

end GaussmapClaims

/-! ### Claims on the region inversion and the curvature normalisation -/

section InversionClaims

/-- C14. Region inversion is an involution up to one full turn.  For every region with
u-domain `[a, b]` and v-domain `[c, d]`, `invertGaussmap` returns the u-domain
`[a + pi, b + pi]` and the v-domain `[pi - d, pi - c]`; `begin <= end` holds after the
inversion exactly when it held before, both widths are unchanged, and applying it twice
gives back the v-domain `[c, d]` and the u-domain `[a + 2*pi, b + 2*pi]`. -/
theorem invertGaussmap_involution {K : Type} [LinearOrderedField K] [FloorRing K] (PI : K)
    (a b c d : K) :
    TorusPatchGaussmap.invertGaussmap PI ⟨⟨a, b⟩, ⟨c, d⟩⟩
      = ⟨⟨a + PI, b + PI⟩, ⟨PI - d, PI - c⟩⟩ ∧
    ((TorusPatchGaussmap.invertGaussmap PI ⟨⟨a, b⟩, ⟨c, d⟩⟩).uDomain.beg
        ≤ (TorusPatchGaussmap.invertGaussmap PI ⟨⟨a, b⟩, ⟨c, d⟩⟩).uDomain.end_ ↔ a ≤ b) ∧
    ((TorusPatchGaussmap.invertGaussmap PI ⟨⟨a, b⟩, ⟨c, d⟩⟩).vDomain.beg
        ≤ (TorusPatchGaussmap.invertGaussmap PI ⟨⟨a, b⟩, ⟨c, d⟩⟩).vDomain.end_ ↔ c ≤ d) ∧
    (TorusPatchGaussmap.invertGaussmap PI ⟨⟨a, b⟩, ⟨c, d⟩⟩).uDomain.width = b - a ∧
    (TorusPatchGaussmap.invertGaussmap PI ⟨⟨a, b⟩, ⟨c, d⟩⟩).vDomain.width = d - c ∧
    TorusPatchGaussmap.invertGaussmap PI
        (TorusPatchGaussmap.invertGaussmap PI ⟨⟨a, b⟩, ⟨c, d⟩⟩)
      = ⟨⟨a + 2 * PI, b + 2 * PI⟩, ⟨c, d⟩⟩ := by
  simp only [TorusPatchGaussmap.invertGaussmap, TorusPatchGaussmap.invertGaussmapDomainU,
    TorusPatchGaussmap.invertGaussmapDomainV, piDomain.create, piDomain.width]
  refine ⟨trivial, ?_, ?_, ?_, ?_, ?_⟩
  · constructor <;> intro h <;> linarith
  · constructor <;> intro h <;> linarith
  · ring
  · ring
  · simp only [Gaussmap.mk.injEq, piDomain.mk.injEq]
    refine ⟨⟨?_, ?_⟩, ⟨?_, ?_⟩⟩ <;> ring

/-- The clamp step: a magnitude of at least `curvatureEps` is kept, a smaller one becomes
`curvatureEps` with the sign of the curvature (`+` for zero). -/
theorem create_clamp_spec {K : Type} [LinearOrderedField K] (k : K) :
    (curvatureEps ≤ |k| → create_clamp k = k) ∧
    (|k| < curvatureEps → k < 0 → create_clamp k = -curvatureEps) ∧
    (|k| < curvatureEps → 0 ≤ k → create_clamp k = curvatureEps) ∧
    |create_clamp k| = max |k| curvatureEps := by
  have e := curvatureEps_pos (K := K)
  unfold create_clamp
  refine ⟨fun h => if_neg (not_lt.2 h), fun h hk => ?_, fun h hk => ?_, ?_⟩
  · rw [if_pos h, if_pos hk]
  · rw [if_pos h, if_neg (not_lt.2 hk)]
  · split_ifs with h1 h2
    · rw [abs_neg, abs_of_pos e, max_eq_right h1.le]
    · rw [abs_of_pos e, max_eq_right h1.le]
    · rw [max_eq_left (not_lt.1 h1)]

/-- The swap and flip steps keep the two magnitudes: the final `|k1|` is the smaller and the
final `|k2|` the larger of the magnitudes after the clamp step. -/
theorem create_curvature_abs {K : Type} [LinearOrderedField K] (PI k1 k2 : K) :
    |(create_curvature PI k1 k2).k1| = min |create_clamp k1| |create_clamp k2| ∧
    |(create_curvature PI k1 k2).k2| = max |create_clamp k1| |create_clamp k2| := by
  have key : ∀ a b : K,
      |(if (if |a| > |b| then (b, a) else (a, b)).1 > 0
          then ((if |a| > |b| then (b, a) else (a, b)).1 * -1,
            (if |a| > |b| then (b, a) else (a, b)).2 * -1)
          else (if |a| > |b| then (b, a) else (a, b))).1| = min |a| |b| ∧
      |(if (if |a| > |b| then (b, a) else (a, b)).1 > 0
          then ((if |a| > |b| then (b, a) else (a, b)).1 * -1,
            (if |a| > |b| then (b, a) else (a, b)).2 * -1)
          else (if |a| > |b| then (b, a) else (a, b))).2| = max |a| |b| := by
    intro a b
    by_cases hs : |a| > |b|
    · simp only [if_pos hs]
      split_ifs <;>
        simp only [mul_neg, mul_one, abs_neg, min_eq_right hs.le, max_eq_left hs.le, and_self]
    · simp only [if_neg hs]
      split_ifs <;>
        simp only [mul_neg, mul_one, abs_neg, min_eq_left (not_lt.1 hs),
          max_eq_right (not_lt.1 hs), and_self]
  exact key (create_clamp k1) (create_clamp k2)

/-- C15. Curvature normalisation invariant.  Over the reals, for every pair of raw principal
curvatures the pair left by the clamp, swap and flip steps of `create` has `k1 < 0` and
`1e-7 <= |k1| <= |k2|`; its magnitudes are those after the clamp step (the smaller one in
`k1`), where a magnitude of at least `1e-7` is kept and a smaller one becomes exactly `1e-7`
with the sign preserved; the anchor is `n0 = pi` exactly when the final `k2 > 0` and
`n0 = 0` otherwise, and `m0 = 0`. -/
theorem create_curvature_invariant (k1 k2 : ℝ) :
    (create_curvature Real.pi k1 k2).k1 < 0 ∧
    (1 : ℝ) / 10000000 ≤ |(create_curvature Real.pi k1 k2).k1| ∧
    |(create_curvature Real.pi k1 k2).k1| ≤ |(create_curvature Real.pi k1 k2).k2| ∧
    |(create_curvature Real.pi k1 k2).k1| = min |create_clamp k1| |create_clamp k2| ∧
    |(create_curvature Real.pi k1 k2).k2| = max |create_clamp k1| |create_clamp k2| ∧
    (∀ k : ℝ, ((1 : ℝ) / 10000000 ≤ |k| → create_clamp k = k) ∧
      (|k| < (1 : ℝ) / 10000000 → k < 0 → create_clamp k = -(1 / 10000000)) ∧
      (|k| < (1 : ℝ) / 10000000 → 0 ≤ k → create_clamp k = 1 / 10000000)) ∧
    ((create_curvature Real.pi k1 k2).n = Real.pi ↔ 0 < (create_curvature Real.pi k1 k2).k2) ∧
    ((create_curvature Real.pi k1 k2).n = 0 ↔ ¬ 0 < (create_curvature Real.pi k1 k2).k2) ∧
    (create_curvature Real.pi k1 k2).m = 0 := by
  obtain ⟨c1, c2, c3, c4, c5⟩ := create_curvature_spec Real.pi k1 k2
  obtain ⟨a1, a2⟩ := create_curvature_abs Real.pi k1 k2
  have hpi := Real.pi_pos
  refine ⟨c1, c2, c3, a1, a2, fun k => ?_, ?_, ?_, c4⟩
  · obtain ⟨s1, s2, s3, -⟩ := create_clamp_spec k
    exact ⟨s1, s2, s3⟩
  · rcases c5 with ⟨hn, hk⟩ | ⟨hn, hk⟩
    · rw [hn]
      exact ⟨fun h => absurd h.symm hpi.ne', fun h => absurd h (not_lt.2 hk.le)⟩
    · exact ⟨fun _ => hk, fun _ => hn⟩
  · rcases c5 with ⟨hn, hk⟩ | ⟨hn, hk⟩
    · exact ⟨fun _ => not_lt.2 hk.le, fun _ => hn⟩
    · rw [hn]
      exact ⟨fun h => absurd h hpi.ne', fun h => absurd hk h⟩

end InversionClaims

/-! ### Claims on the corner maxima and on the bail-out of `calDomainN` -/

section CornerClaims
variable {K : Type} [LinearOrderedField K]

/-- The update `if (t > M) M = t;` yields a value above both the old maximum and `t`. -/
theorem ite_gt_ge (t M : K) : M ≤ (if t > M then t else M) ∧ t ≤ (if t > M then t else M) := by
  split_ifs with h
  · exact ⟨h.le, le_refl _⟩
  · exact ⟨le_refl _, not_lt.1 h⟩

/-- The maximum kept by three successive updates dominates all four values. -/
theorem ite_chain_ge (a b c d : K) :
    a ≤ (if d > (if c > (if b > a then b else a) then c else (if b > a then b else a)) then d
          else (if c > (if b > a then b else a) then c else (if b > a then b else a))) ∧
    b ≤ (if d > (if c > (if b > a then b else a) then c else (if b > a then b else a)) then d
          else (if c > (if b > a then b else a) then c else (if b > a then b else a))) ∧
    c ≤ (if d > (if c > (if b > a then b else a) then c else (if b > a then b else a)) then d
          else (if c > (if b > a then b else a) then c else (if b > a then b else a))) ∧
    d ≤ (if d > (if c > (if b > a then b else a) then c else (if b > a then b else a)) then d
          else (if c > (if b > a then b else a) then c else (if b > a then b else a))) := by
  obtain ⟨h1, h2⟩ := ite_gt_ge b a
  obtain ⟨h3, h4⟩ := ite_gt_ge c (if b > a then b else a)
  obtain ⟨h5, h6⟩ := ite_gt_ge d (if c > (if b > a then b else a) then c else (if b > a then b else a))
  exact ⟨le_trans h1 (le_trans h3 h5), le_trans h2 (le_trans h3 h5), le_trans h4 h5, h6⟩

/-- The absolute value of an affine form on a rectangle is at most any bound of its
absolute values at the four corners. -/
theorem affine_abs_le_of_corners (a b k x0 x1 y0 y1 x y M : K)
    (hx0 : x0 ≤ x) (hx1 : x ≤ x1) (hy0 : y0 ≤ y) (hy1 : y ≤ y1)
    (h00 : |a * x0 + b * y0 + k| ≤ M) (h01 : |a * x0 + b * y1 + k| ≤ M)
    (h10 : |a * x1 + b * y0 + k| ≤ M) (h11 : |a * x1 + b * y1 + k| ≤ M) :
    |a * x + b * y + k| ≤ M := by
  rw [abs_le] at h00 h01 h10 h11 ⊢
  have X0 := sub_nonneg.2 hx0
  have X1 := sub_nonneg.2 hx1
  have Y0 := sub_nonneg.2 hy0
  have Y1 := sub_nonneg.2 hy1
  rcases le_total 0 a with ha | ha <;> rcases le_total 0 b with hb | hb
  · constructor
    · linarith [mul_nonneg ha X0, mul_nonneg hb Y0]
    · linarith [mul_nonneg ha X1, mul_nonneg hb Y1]
  · constructor
    · linarith [mul_nonneg ha X0, mul_nonneg (neg_nonneg.2 hb) Y1]
    · linarith [mul_nonneg ha X1, mul_nonneg (neg_nonneg.2 hb) Y0]
  · constructor
    · linarith [mul_nonneg (neg_nonneg.2 ha) X1, mul_nonneg hb Y0]
    · linarith [mul_nonneg (neg_nonneg.2 ha) X0, mul_nonneg hb Y1]
  · constructor
    · linarith [mul_nonneg (neg_nonneg.2 ha) X1, mul_nonneg (neg_nonneg.2 hb) Y1]
    · linarith [mul_nonneg (neg_nonneg.2 ha) X0, mul_nonneg (neg_nonneg.2 hb) Y0]

/-- C19. The corner maxima bound the first derivatives on the whole rectangle.  For all
coefficient arrays and every `(u, v)` of the rectangle, the values computed by
`calPositionErrorUpperBound` satisfy `|dm/du| <= Mu`, `|dm/dv| <= Mv`, `|dn/du| <= Nu` and
`|dn/dv| <= Nv` at `(u, v)`, and `Muu, Muv, Mvv, Nuu, Nuv, Nvv` are the absolute values of
the constant second derivatives `2*c[0]`, `c[2]`, `2*c[1]`. -/
theorem calPositionErrorUpperBound_corner_maxima (cos sin : K → K) (PI : K) (mp : Mapping K)
    (patch : TorusPatch K) (uDomain vDomain : Domain K) (u v : K)
    (hu0 : uDomain.beg ≤ u) (hu1 : u ≤ uDomain.end_)
    (hv0 : vDomain.beg ≤ v) (hv1 : v ≤ vDomain.end_) :
    |dEvaluate_du mp.mCoefs u v|
      ≤ (mp.calPositionErrorUpperBound_locals cos sin PI patch uDomain vDomain).Mu ∧
    |dEvaluate_dv mp.mCoefs u v|
      ≤ (mp.calPositionErrorUpperBound_locals cos sin PI patch uDomain vDomain).Mv ∧
    |dEvaluate_du mp.nCoefs u v|
      ≤ (mp.calPositionErrorUpperBound_locals cos sin PI patch uDomain vDomain).Nu ∧
    |dEvaluate_dv mp.nCoefs u v|
      ≤ (mp.calPositionErrorUpperBound_locals cos sin PI patch uDomain vDomain).Nv ∧
    (mp.calPositionErrorUpperBound_locals cos sin PI patch uDomain vDomain).Muu
      = |2 * mp.mCoefs.c0| ∧
    (mp.calPositionErrorUpperBound_locals cos sin PI patch uDomain vDomain).Muv
      = |mp.mCoefs.c2| ∧
    (mp.calPositionErrorUpperBound_locals cos sin PI patch uDomain vDomain).Mvv
      = |2 * mp.mCoefs.c1| ∧
    (mp.calPositionErrorUpperBound_locals cos sin PI patch uDomain vDomain).Nuu
      = |2 * mp.nCoefs.c0| ∧
    (mp.calPositionErrorUpperBound_locals cos sin PI patch uDomain vDomain).Nuv
      = |mp.nCoefs.c2| ∧
    (mp.calPositionErrorUpperBound_locals cos sin PI patch uDomain vDomain).Nvv
      = |2 * mp.nCoefs.c1| := by
  refine ⟨?_, ?_, ?_, ?_, rfl, rfl, rfl, rfl, rfl, rfl⟩
  · obtain ⟨h1, h2, h3, h4⟩ := ite_chain_ge
      |2 * mp.mCoefs.c0 * uDomain.beg + mp.mCoefs.c2 * vDomain.beg + mp.mCoefs.c3|
      |2 * mp.mCoefs.c0 * uDomain.beg + mp.mCoefs.c2 * vDomain.end_ + mp.mCoefs.c3|
      |2 * mp.mCoefs.c0 * uDomain.end_ + mp.mCoefs.c2 * vDomain.beg + mp.mCoefs.c3|
      |2 * mp.mCoefs.c0 * uDomain.end_ + mp.mCoefs.c2 * vDomain.end_ + mp.mCoefs.c3|
    exact affine_abs_le_of_corners (2 * mp.mCoefs.c0) mp.mCoefs.c2 mp.mCoefs.c3 _ _ _ _ u v _
      hu0 hu1 hv0 hv1 h1 h2 h3 h4
  · obtain ⟨h1, h2, h3, h4⟩ := ite_chain_ge
      |2 * mp.mCoefs.c1 * vDomain.beg + mp.mCoefs.c2 * uDomain.beg + mp.mCoefs.c4|
      |2 * mp.mCoefs.c1 * vDomain.beg + mp.mCoefs.c2 * uDomain.end_ + mp.mCoefs.c4|
      |2 * mp.mCoefs.c1 * vDomain.end_ + mp.mCoefs.c2 * uDomain.beg + mp.mCoefs.c4|
      |2 * mp.mCoefs.c1 * vDomain.end_ + mp.mCoefs.c2 * uDomain.end_ + mp.mCoefs.c4|
    exact affine_abs_le_of_corners (2 * mp.mCoefs.c1) mp.mCoefs.c2 mp.mCoefs.c4 _ _ _ _ v u _
      hv0 hv1 hu0 hu1 h1 h2 h3 h4
  · obtain ⟨h1, h2, h3, h4⟩ := ite_chain_ge
      |2 * mp.nCoefs.c0 * uDomain.beg + mp.nCoefs.c2 * vDomain.beg + mp.nCoefs.c3|
      |2 * mp.nCoefs.c0 * uDomain.beg + mp.nCoefs.c2 * vDomain.end_ + mp.nCoefs.c3|
      |2 * mp.nCoefs.c0 * uDomain.end_ + mp.nCoefs.c2 * vDomain.beg + mp.nCoefs.c3|
      |2 * mp.nCoefs.c0 * uDomain.end_ + mp.nCoefs.c2 * vDomain.end_ + mp.nCoefs.c3|
    exact affine_abs_le_of_corners (2 * mp.nCoefs.c0) mp.nCoefs.c2 mp.nCoefs.c3 _ _ _ _ u v _
      hu0 hu1 hv0 hv1 h1 h2 h3 h4
  · obtain ⟨h1, h2, h3, h4⟩ := ite_chain_ge
      |2 * mp.nCoefs.c1 * vDomain.beg + mp.nCoefs.c2 * uDomain.beg + mp.nCoefs.c4|
      |2 * mp.nCoefs.c1 * vDomain.beg + mp.nCoefs.c2 * uDomain.end_ + mp.nCoefs.c4|
      |2 * mp.nCoefs.c1 * vDomain.end_ + mp.nCoefs.c2 * uDomain.beg + mp.nCoefs.c4|
      |2 * mp.nCoefs.c1 * vDomain.end_ + mp.nCoefs.c2 * uDomain.end_ + mp.nCoefs.c4|
    exact affine_abs_le_of_corners (2 * mp.nCoefs.c1) mp.nCoefs.c2 mp.nCoefs.c4 _ _ _ _ v u _
      hv0 hv1 hu0 hu1 h1 h2 h3 h4

/-- Witness for C19: the sample mapping `m = u`, `n = v` on the unit square at the corner
`(0, 0)`, over the reals. -/
theorem calPositionErrorUpperBound_corner_maxima_witness :
    ((0 : ℝ) ≤ 0 ∧ (0 : ℝ) ≤ 1) ∧
    |dEvaluate_du (sampleMapping : Mapping ℝ).mCoefs 0 0|
      ≤ ((sampleMapping : Mapping ℝ).calPositionErrorUpperBound_locals Real.cos Real.sin
          Real.pi samplePatch ⟨0, 1⟩ ⟨0, 1⟩).Mu :=
  ⟨⟨le_refl 0, zero_le_one⟩,
    (calPositionErrorUpperBound_corner_maxima Real.cos Real.sin Real.pi sampleMapping
      samplePatch ⟨0, 1⟩ ⟨0, 1⟩ 0 0 (le_refl 0) zero_le_one (le_refl 0) zero_le_one).1⟩

/-- The corner test answers `true` only above and `false` only below zero at `(x0, y0)`. -/
theorem cornerSign_some_sign (a b k x0 x1 y0 y1 : K) (r : Bool)
    (h : cornerSign a b k x0 x1 y0 y1 = some r) :
    (r = true → 0 < 2 * a * x0 + b * y0 + k) ∧ (r = false → 2 * a * x0 + b * y0 + k < 0) := by
  simp only [cornerSign] at h
  by_cases hp : 2 * a * x0 + b * y0 + k > 0
  · rw [if_pos hp] at h
    refine ⟨fun _ => hp, fun hr => ?_⟩
    subst hr
    split_ifs at h <;> simp at h
  · rw [if_neg hp] at h
    by_cases hn : 2 * a * x0 + b * y0 + k < 0
    · rw [if_pos hn] at h
      refine ⟨fun hr => ?_, fun _ => hn⟩
      subst hr
      split_ifs at h <;> simp at h
    · rw [if_neg hn] at h
      exact absurd h (by simp)

/-- The corner test does not bail out when the affine form is non-zero at `(x0, y0)` and
does not take the strictly opposite sign at the other three corners. -/
theorem cornerSign_ne_none (a b k x0 x1 y0 y1 : K)
    (h0 : 2 * a * x0 + b * y0 + k ≠ 0)
    (hpos : 0 < 2 * a * x0 + b * y0 + k →
      0 ≤ 2 * a * x0 + b * y1 + k ∧ 0 ≤ 2 * a * x1 + b * y0 + k ∧ 0 ≤ 2 * a * x1 + b * y1 + k)
    (hneg : 2 * a * x0 + b * y0 + k < 0 →
      2 * a * x0 + b * y1 + k ≤ 0 ∧ 2 * a * x1 + b * y0 + k ≤ 0 ∧ 2 * a * x1 + b * y1 + k ≤ 0) :
    cornerSign a b k x0 x1 y0 y1 ≠ none := by
  simp only [cornerSign]
  rcases lt_or_gt_of_ne h0 with hn | hp
  · obtain ⟨n1, n2, n3⟩ := hneg hn
    rw [if_neg (not_lt.2 hn.le), if_pos hn]
    split_ifs <;> first | (exfalso; linarith) | simp
  · obtain ⟨p1, p2, p3⟩ := hpos hp
    rw [if_pos hp]
    split_ifs <;> first | (exfalso; linarith) | simp

/-- Block `Check [ Nu ]` does not bail out exactly when `dn/du` keeps the sign it has at
`(uDomain.beg, vDomain.beg)`. -/
theorem calDomainN_checkNu_ne_none_iff (c : Coefs K) (uD vD : Domain K)
    (hu : uD.beg ≤ uD.end_) (hv : vD.beg ≤ vD.end_) :
    (calDomainN_checkNu c uD vD ≠ none ↔ keepsSign (dEvaluate_du c) uD vD) ∧
    (keepsSignAtCorners (dEvaluate_du c) uD vD → calDomainN_checkNu c uD vD ≠ none) := by
  have corner : keepsSignAtCorners (dEvaluate_du c) uD vD → calDomainN_checkNu c uD vD ≠ none := by
    rintro ⟨h0, hp, hn⟩
    rw [calDomainN_checkNu_eq]
    exact cornerSign_ne_none _ _ _ _ _ _ _ h0 hp hn
  refine ⟨⟨fun h => ?_, fun h => ?_⟩, corner⟩
  · obtain ⟨r, hr⟩ := Option.ne_none_iff_exists'.1 h
    have hs := hr
    rw [calDomainN_checkNu_eq] at hs
    obtain ⟨s1, s2⟩ := cornerSign_some_sign _ _ _ _ _ _ _ r hs
    refine ⟨?_, fun u v hin => ?_⟩
    · cases r
      · exact (s2 rfl).ne
      · exact (s1 rfl).ne'
    · obtain ⟨t1, t2⟩ := calDomainN_checkNu_sound c uD vD r hr u v hin
      cases r
      · exact ⟨fun hpos => absurd (s2 rfl) (not_lt.2 hpos.le), fun _ => t2 rfl⟩
      · exact ⟨fun _ => t1 rfl, fun hneg => absurd (s1 rfl) (not_lt.2 hneg.le)⟩
  · obtain ⟨h0, hall⟩ := h
    refine corner ⟨h0, fun hp => ⟨?_, ?_, ?_⟩, fun hn => ⟨?_, ?_, ?_⟩⟩
    · exact (hall _ _ ⟨le_refl _, hu, hv, le_refl _⟩).1 hp
    · exact (hall _ _ ⟨hu, le_refl _, le_refl _, hv⟩).1 hp
    · exact (hall _ _ ⟨hu, le_refl _, hv, le_refl _⟩).1 hp
    · exact (hall _ _ ⟨le_refl _, hu, hv, le_refl _⟩).2 hn
    · exact (hall _ _ ⟨hu, le_refl _, le_refl _, hv⟩).2 hn
    · exact (hall _ _ ⟨hu, le_refl _, hv, le_refl _⟩).2 hn

/-- Block `Check [ Nv ]` does not bail out exactly when `dn/dv` keeps the sign it has at
`(uDomain.beg, vDomain.beg)`. -/
theorem calDomainN_checkNv_ne_none_iff (c : Coefs K) (uD vD : Domain K)
    (hu : uD.beg ≤ uD.end_) (hv : vD.beg ≤ vD.end_) :
    (calDomainN_checkNv c uD vD ≠ none ↔ keepsSign (dEvaluate_dv c) uD vD) ∧
    (keepsSignAtCorners (dEvaluate_dv c) uD vD → calDomainN_checkNv c uD vD ≠ none) := by
  have corner : keepsSignAtCorners (dEvaluate_dv c) uD vD → calDomainN_checkNv c uD vD ≠ none := by
    rintro ⟨h0, hp, hn⟩
    rw [calDomainN_checkNv_eq]
    refine cornerSign_ne_none _ _ _ _ _ _ _ h0 (fun h => ?_) (fun h => ?_)
    · obtain ⟨p1, p2, p3⟩ := hp h
      exact ⟨p2, p1, p3⟩
    · obtain ⟨n1, n2, n3⟩ := hn h
      exact ⟨n2, n1, n3⟩
  refine ⟨⟨fun h => ?_, fun h => ?_⟩, corner⟩
  · obtain ⟨r, hr⟩ := Option.ne_none_iff_exists'.1 h
    have hs := hr
    rw [calDomainN_checkNv_eq] at hs
    obtain ⟨s1, s2⟩ := cornerSign_some_sign _ _ _ _ _ _ _ r hs
    refine ⟨?_, fun u v hin => ?_⟩
    · cases r
      · exact (s2 rfl).ne
      · exact (s1 rfl).ne'
    · obtain ⟨t1, t2⟩ := calDomainN_checkNv_sound c uD vD r hr u v hin
      cases r
      · exact ⟨fun hpos => absurd (s2 rfl) (not_lt.2 hpos.le), fun _ => t2 rfl⟩
      · exact ⟨fun _ => t1 rfl, fun hneg => absurd (s1 rfl) (not_lt.2 hneg.le)⟩
  · obtain ⟨h0, hall⟩ := h
    refine corner ⟨h0, fun hp => ⟨?_, ?_, ?_⟩, fun hn => ⟨?_, ?_, ?_⟩⟩
    · exact (hall _ _ ⟨le_refl _, hu, hv, le_refl _⟩).1 hp
    · exact (hall _ _ ⟨hu, le_refl _, le_refl _, hv⟩).1 hp
    · exact (hall _ _ ⟨hu, le_refl _, hv, le_refl _⟩).1 hp
    · exact (hall _ _ ⟨le_refl _, hu, hv, le_refl _⟩).2 hn
    · exact (hall _ _ ⟨hu, le_refl _, le_refl _, hv⟩).2 hn
    · exact (hall _ _ ⟨hu, le_refl _, hv, le_refl _⟩).2 hn

/-- The flag returned by `calDomainN` is `true` exactly when neither block bails out. -/
theorem calDomainN_flag_iff_blocks (PI : K) (c : Coefs K) (uD vD : Domain K) (d : piDomain K) :
    (calDomainN PI c uD vD d).1 = true ↔
      calDomainN_checkNu c uD vD ≠ none ∧ calDomainN_checkNv c uD vD ≠ none := by
  unfold calDomainN
  cases hU : calDomainN_checkNu c uD vD with
  | none => simp
  | some bu =>
    cases hV : calDomainN_checkNv c uD vD with
    | none => simp
    | some bv =>
      simp only [ne_eq, not_false_eq_true, and_self, iff_true, reduceCtorEq]
      split_ifs <;> rfl

/-- C20. Exact characterisation of the bail-out of `calDomainN`.  On a rectangle with
`beg <= end` on both axes, `calDomainN` returns `true` if and only if each of `dn/du` and
`dn/dv` is non-zero at `(uDomain.beg, vDomain.beg)` and nowhere on the rectangle takes the
strictly opposite sign; keeping the sign on the rectangle is the same as keeping it at the
four corners; a partial derivative that is zero at `(uDomain.beg, vDomain.beg)` yields
`false`, and a partial derivative of one strict sign on the rectangle never makes its
block bail out. -/
theorem calDomainN_valid_iff (PI : K) (nCoefs : Coefs K) (uDomain vDomain : Domain K)
    (nDomain : piDomain K)
    (hu : uDomain.beg ≤ uDomain.end_) (hv : vDomain.beg ≤ vDomain.end_) :
    ((calDomainN PI nCoefs uDomain vDomain nDomain).1 = true ↔
      keepsSign (dEvaluate_du nCoefs) uDomain vDomain ∧
        keepsSign (dEvaluate_dv nCoefs) uDomain vDomain) ∧
    (keepsSign (dEvaluate_du nCoefs) uDomain vDomain ↔
      keepsSignAtCorners (dEvaluate_du nCoefs) uDomain vDomain) ∧
    (keepsSign (dEvaluate_dv nCoefs) uDomain vDomain ↔
      keepsSignAtCorners (dEvaluate_dv nCoefs) uDomain vDomain) ∧
    (dEvaluate_du nCoefs uDomain.beg vDomain.beg = 0 →
      (calDomainN PI nCoefs uDomain vDomain nDomain).1 = false) ∧
    (dEvaluate_dv nCoefs uDomain.beg vDomain.beg = 0 →
      (calDomainN PI nCoefs uDomain vDomain nDomain).1 = false) ∧
    (((∀ u v : K, inRect uDomain vDomain u v → 0 < dEvaluate_du nCoefs u v) ∨
        (∀ u v : K, inRect uDomain vDomain u v → dEvaluate_du nCoefs u v < 0)) →
      calDomainN_checkNu nCoefs uDomain vDomain ≠ none) ∧
    (((∀ u v : K, inRect uDomain vDomain u v → 0 < dEvaluate_dv nCoefs u v) ∨
        (∀ u v : K, inRect uDomain vDomain u v → dEvaluate_dv nCoefs u v < 0)) →
      calDomainN_checkNv nCoefs uDomain vDomain ≠ none) := by
  obtain ⟨iu, cu⟩ := calDomainN_checkNu_ne_none_iff nCoefs uDomain vDomain hu hv
  obtain ⟨iv, cv⟩ := calDomainN_checkNv_ne_none_iff nCoefs uDomain vDomain hu hv
  have hvalid := calDomainN_flag_iff_blocks PI nCoefs uDomain vDomain nDomain
  have r00 : inRect uDomain vDomain uDomain.beg vDomain.beg := ⟨le_refl _, hu, le_refl _, hv⟩
  have toCorners : ∀ f : K → K → K, keepsSign f uDomain vDomain →
      keepsSignAtCorners f uDomain vDomain := by
    rintro f ⟨h0, hall⟩
    refine ⟨h0, fun hp => ⟨?_, ?_, ?_⟩, fun hn => ⟨?_, ?_, ?_⟩⟩
    · exact (hall _ _ ⟨le_refl _, hu, hv, le_refl _⟩).1 hp
    · exact (hall _ _ ⟨hu, le_refl _, le_refl _, hv⟩).1 hp
    · exact (hall _ _ ⟨hu, le_refl _, hv, le_refl _⟩).1 hp
    · exact (hall _ _ ⟨le_refl _, hu, hv, le_refl _⟩).2 hn
    · exact (hall _ _ ⟨hu, le_refl _, le_refl _, hv⟩).2 hn
    · exact (hall _ _ ⟨hu, le_refl _, hv, le_refl _⟩).2 hn
  refine ⟨?_, ⟨toCorners _, fun h => iu.1 (cu h)⟩, ⟨toCorners _, fun h => iv.1 (cv h)⟩,
    fun h0 => ?_, fun h0 => ?_, fun h => iu.2 ?_, fun h => iv.2 ?_⟩
  · rw [hvalid, iu, iv]
  · rw [Bool.eq_false_iff]
    intro hval
    exact (iu.1 (hvalid.1 hval).1).1 h0
  · rw [Bool.eq_false_iff]
    intro hval
    exact (iv.1 (hvalid.1 hval).2).1 h0
  · rcases h with h | h
    · exact ⟨(h _ _ r00).ne', fun u v hin => ⟨fun _ => (h u v hin).le,
        fun hn => absurd hn (not_lt.2 (h _ _ r00).le)⟩⟩
    · exact ⟨(h _ _ r00).ne, fun u v hin => ⟨fun hp => absurd hp (not_lt.2 (h _ _ r00).le),
        fun _ => (h u v hin).le⟩⟩
  · rcases h with h | h
    · exact ⟨(h _ _ r00).ne', fun u v hin => ⟨fun _ => (h u v hin).le,
        fun hn => absurd hn (not_lt.2 (h _ _ r00).le)⟩⟩
    · exact ⟨(h _ _ r00).ne, fun u v hin => ⟨fun hp => absurd hp (not_lt.2 (h _ _ r00).le),
        fun _ => (h u v hin).le⟩⟩

/-- Witness for C20: the unit square over the reals with `n(u, v) = u + v`. -/
theorem calDomainN_valid_iff_witness :
    ((0 : ℝ) ≤ 1 ∧ (0 : ℝ) ≤ 1) ∧
    ((calDomainN Real.pi (⟨0, 0, 0, 1, 1, 0⟩ : Coefs ℝ) ⟨0, 1⟩ ⟨0, 1⟩ ⟨0, 0⟩).1 = true ↔
      keepsSign (dEvaluate_du (⟨0, 0, 0, 1, 1, 0⟩ : Coefs ℝ)) ⟨0, 1⟩ ⟨0, 1⟩ ∧
        keepsSign (dEvaluate_dv (⟨0, 0, 0, 1, 1, 0⟩ : Coefs ℝ)) ⟨0, 1⟩ ⟨0, 1⟩) :=
  ⟨⟨zero_le_one, zero_le_one⟩,
    (calDomainN_valid_iff Real.pi ⟨0, 0, 0, 1, 1, 0⟩ ⟨0, 1⟩ ⟨0, 1⟩ ⟨0, 0⟩ zero_le_one
      zero_le_one).1⟩

end CornerClaims

/-! ### Claims on `Mapping::set` -/

section SetClaims
variable {K : Type} [LinearOrderedField K]

/-- The mapping built by `Mapping::set` is the one assembled from its local variables. -/
theorem Mapping_set_eq_of_locals (factorize : Vec3 K → Vec3 K → Bool → K) (len : Vec3 K → K)
    (surface : SurfaceInfo K) (G : Nat → Nat → Vec3 K) (m n : K) :
    Mapping.set factorize len surface G m n
      = Mapping.set_of_locals factorize surface G
          (Mapping.set_locals factorize len surface G) m n := rfl

/-- The composite of three quadratic polynomials is the sum of its Taylor terms. -/
theorem compose_expansion (f gx gy : Coefs K) (x0 y0 s t : K) :
    evaluate f (evaluate gx (x0 + s) (y0 + t)) (evaluate gy (x0 + s) (y0 + t))
      = composeCoef f gx gy x0 y0 0 0
      + composeCoef f gx gy x0 y0 1 0 * s
      + composeCoef f gx gy x0 y0 0 1 * t
      + composeCoef f gx gy x0 y0 2 0 * s * s
      + composeCoef f gx gy x0 y0 1 1 * s * t
      + composeCoef f gx gy x0 y0 0 2 * t * t
      + composeRemainder f gx gy x0 y0 s t := by
  simp only [composeRemainder, composeCoef, evaluate, dEvaluate_du, dEvaluate_dv]
  ring

theorem Vec3_sub_def (a b : Vec3 K) : a - b = ⟨a.x - b.x, a.y - b.y, a.z - b.z⟩ := rfl

theorem Vec3_mul_def (a : Vec3 K) (s : K) : a * s = ⟨a.x * s, a.y * s, a.z * s⟩ := rfl

/-- The first derivatives of the four polynomials built by `Mapping::set` at the anchor are
the local variables `A .. D` of its two blocks. -/
theorem Mapping_set_first_derivatives (factorize : Vec3 K → Vec3 K → Bool → K)
    (len : Vec3 K → K) (surface : SurfaceInfo K) (G : Nat → Nat → Vec3 K) (m n : K) :
    dEvaluate_du (Mapping.set factorize len surface G m n).mCoefs surface.u surface.v
      = (Mapping.set_locals factorize len surface G).A ∧
    dEvaluate_du (Mapping.set factorize len surface G m n).nCoefs surface.u surface.v
      = (Mapping.set_locals factorize len surface G).B ∧
    dEvaluate_dv (Mapping.set factorize len surface G m n).mCoefs surface.u surface.v
      = (Mapping.set_locals factorize len surface G).C ∧
    dEvaluate_dv (Mapping.set factorize len surface G m n).nCoefs surface.u surface.v
      = (Mapping.set_locals factorize len surface G).D ∧
    dEvaluate_du (Mapping.set factorize len surface G m n).uCoefs m n
      = (Mapping.set_locals factorize len surface G).uvA ∧
    dEvaluate_du (Mapping.set factorize len surface G m n).vCoefs m n
      = (Mapping.set_locals factorize len surface G).uvB ∧
    dEvaluate_dv (Mapping.set factorize len surface G m n).uCoefs m n
      = (Mapping.set_locals factorize len surface G).uvC ∧
    dEvaluate_dv (Mapping.set factorize len surface G m n).vCoefs m n
      = (Mapping.set_locals factorize len surface G).uvD := by
  rw [Mapping_set_eq_of_locals]
  simp only [Mapping.set_of_locals, dEvaluate_du, dEvaluate_dv]
  refine ⟨?_, ?_, ?_, ?_, ?_, ?_, ?_, ?_⟩ <;> ring

/-- The four polynomials built by `Mapping::set` take the anchor values at the anchor. -/
theorem Mapping_set_anchor_values (factorize : Vec3 K → Vec3 K → Bool → K)
    (len : Vec3 K → K) (surface : SurfaceInfo K) (G : Nat → Nat → Vec3 K) (m n : K) :
    evaluate (Mapping.set factorize len surface G m n).mCoefs surface.u surface.v = m ∧
    evaluate (Mapping.set factorize len surface G m n).nCoefs surface.u surface.v = n ∧
    evaluate (Mapping.set factorize len surface G m n).uCoefs m n = surface.u ∧
    evaluate (Mapping.set factorize len surface G m n).vCoefs m n = surface.v := by
  rw [Mapping_set_eq_of_locals]
  simp only [Mapping.set_of_locals, evaluate]
  refine ⟨?_, ?_, ?_, ?_⟩ <;> ring

/-- C17. The inverse mixed second-derivative residual (step C3) follows the chain rule.
With `um = A`, `vm = B`, `un = C`, `vn = D` the first derivatives that the built
polynomials `u`, `v` have at the anchor, the residual vector from which `uCoefs[2]` and
`vCoefs[2]` are projected is `Gmn - Fuu*(um*un) - Fvv*(vm*vn) - Fuv*(um*vn + un*vm)`; and
for every quadratic scalar field `phi` the mixed Taylor coefficient of
`phi(u(m, n), v(m, n))` at the anchor carries the same factors:
`phi_uu*um*un + phi_vv*vm*vn + phi_uv*(um*vn + un*vm) + phi_u*u_mn + phi_v*v_mn`. -/
theorem Mapping_set_res3_chain_rule (factorize : Vec3 K → Vec3 K → Bool → K)
    (len : Vec3 K → K) (surface : SurfaceInfo K) (G : Nat → Nat → Vec3 K) (m n : K) :
    (Mapping.set_locals factorize len surface G).res3
      = G 1 1
        - surface.Fuu * ((Mapping.set_locals factorize len surface G).uvA
            * (Mapping.set_locals factorize len surface G).uvC)
        - surface.Fvv * ((Mapping.set_locals factorize len surface G).uvB
            * (Mapping.set_locals factorize len surface G).uvD)
        - surface.Fuv * ((Mapping.set_locals factorize len surface G).uvA
              * (Mapping.set_locals factorize len surface G).uvD
            + (Mapping.set_locals factorize len surface G).uvC
              * (Mapping.set_locals factorize len surface G).uvB) ∧
    (Mapping.set factorize len surface G m n).uCoefs.c2
      = factorize (Mapping.set_locals factorize len surface G).res3 surface.Fu false ∧
    (Mapping.set factorize len surface G m n).vCoefs.c2
      = factorize (Mapping.set_locals factorize len surface G).res3 surface.Fv false ∧
    dEvaluate_du (Mapping.set factorize len surface G m n).uCoefs m n
      = (Mapping.set_locals factorize len surface G).uvA ∧
    dEvaluate_du (Mapping.set factorize len surface G m n).vCoefs m n
      = (Mapping.set_locals factorize len surface G).uvB ∧
    dEvaluate_dv (Mapping.set factorize len surface G m n).uCoefs m n
      = (Mapping.set_locals factorize len surface G).uvC ∧
    dEvaluate_dv (Mapping.set factorize len surface G m n).vCoefs m n
      = (Mapping.set_locals factorize len surface G).uvD ∧
    ∀ phi : Coefs K,
      composeCoef phi (Mapping.set factorize len surface G m n).uCoefs
          (Mapping.set factorize len surface G m n).vCoefs m n 1 1
        = 2 * phi.c0 * ((Mapping.set_locals factorize len surface G).uvA
            * (Mapping.set_locals factorize len surface G).uvC)
          + 2 * phi.c1 * ((Mapping.set_locals factorize len surface G).uvB
            * (Mapping.set_locals factorize len surface G).uvD)
          + phi.c2 * ((Mapping.set_locals factorize len surface G).uvA
              * (Mapping.set_locals factorize len surface G).uvD
            + (Mapping.set_locals factorize len surface G).uvC
              * (Mapping.set_locals factorize len surface G).uvB)
          + dEvaluate_du phi surface.u surface.v
            * (Mapping.set factorize len surface G m n).uCoefs.c2
          + dEvaluate_dv phi surface.u surface.v
            * (Mapping.set factorize len surface G m n).vCoefs.c2 := by
  obtain ⟨-, -, -, -, d1, d2, d3, d4⟩ :=
    Mapping_set_first_derivatives factorize len surface G m n
  obtain ⟨-, -, hU, hV⟩ := Mapping_set_anchor_values factorize len surface G m n
  refine ⟨?_, rfl, rfl, d1, d2, d3, d4, fun phi => ?_⟩
  · simp only [Mapping.set_locals, Vec3_sub_def, Vec3_mul_def, Vec3.mk.injEq]
    refine ⟨?_, ?_, ?_⟩ <;> ring
  · simp only [composeCoef, d1, d2, d3, d4, hU, hV]
    ring


/-- What the code computes for `helperC`: the last term is `Gnn` scaled by `C * D`. -/
theorem Mapping_set_helperC_eq (factorize : Vec3 K → Vec3 K → Bool → K)
    (len : Vec3 K → K) (surface : SurfaceInfo K) (G : Nat → Nat → Vec3 K) :
    (Mapping.set_locals factorize len surface G).helperC
      = surface.Fuv
        - G 2 0 * ((Mapping.set_locals factorize len surface G).A
            * (Mapping.set_locals factorize len surface G).C)
        - G 1 1 * ((Mapping.set_locals factorize len surface G).A
              * (Mapping.set_locals factorize len surface G).D
            + (Mapping.set_locals factorize len surface G).B
              * (Mapping.set_locals factorize len surface G).C)
        - G 0 2 * ((Mapping.set_locals factorize len surface G).C
            * (Mapping.set_locals factorize len surface G).D) := by
  simp only [Mapping.set_locals, Vec3_sub_def, Vec3_mul_def, Vec3.mk.injEq]
  refine ⟨?_, ?_, ?_⟩ <;> ring

/-- C16, the code at a failing input.  For the torus with radii 1 and 1 at `(0, 0)` and the
sample `skewSurface` (the same torus reparametrised by `m = u`, `n = u + v`), the first
derivatives of the built polynomials are `mu = A = 1`, `nu = B = 1`, `mv = C = 0`,
`nv = D = 1`; `Mapping::set` computes `helperC = (-1, 0, 0)` while the chain-rule residual
`Fuv - Gmm*(mu*mv) - Gmn*(mu*nv + nu*mv) - Gnn*(nu*nv)` is `(0, 0, 0)`: the code scales
`Gnn` by `C * D = mv*nv` where `helperA` and `helperB` use `B*B = nu^2` and `D*D = nv^2`. -/
theorem Mapping_set_helperC_at :
    (Mapping.set_locals Vec3.factorize lenAxis (skewSurface : SurfaceInfo ℝ) torusDerivs11).A
      = 1 ∧
    (Mapping.set_locals Vec3.factorize lenAxis (skewSurface : SurfaceInfo ℝ) torusDerivs11).B
      = 1 ∧
    (Mapping.set_locals Vec3.factorize lenAxis (skewSurface : SurfaceInfo ℝ) torusDerivs11).C
      = 0 ∧
    (Mapping.set_locals Vec3.factorize lenAxis (skewSurface : SurfaceInfo ℝ) torusDerivs11).D
      = 1 ∧
    (Mapping.set_locals Vec3.factorize lenAxis (skewSurface : SurfaceInfo ℝ)
      torusDerivs11).helperC = ⟨-1, 0, 0⟩ ∧
    (skewSurface : SurfaceInfo ℝ).Fuv
        - (torusDerivs11 2 0 : Vec3 ℝ) * ((1 : ℝ) * 0)
        - (torusDerivs11 1 1 : Vec3 ℝ) * ((1 : ℝ) * 1 + 1 * 0)
        - (torusDerivs11 0 2 : Vec3 ℝ) * ((1 : ℝ) * 1)
      = ⟨0, 0, 0⟩ := by
  have hA : (Mapping.set_locals Vec3.factorize lenAxis (skewSurface : SurfaceInfo ℝ)
      torusDerivs11).A = 1 := by
    norm_num [Mapping.set_locals, Vec3.factorize, Vec3.dot, lenAxis, skewSurface, torusDerivs11]
  have hB : (Mapping.set_locals Vec3.factorize lenAxis (skewSurface : SurfaceInfo ℝ)
      torusDerivs11).B = 1 := by
    norm_num [Mapping.set_locals, Vec3.factorize, Vec3.dot, lenAxis, skewSurface, torusDerivs11]
  have hC : (Mapping.set_locals Vec3.factorize lenAxis (skewSurface : SurfaceInfo ℝ)
      torusDerivs11).C = 0 := by
    norm_num [Mapping.set_locals, Vec3.factorize, Vec3.dot, lenAxis, skewSurface, torusDerivs11]
  have hD : (Mapping.set_locals Vec3.factorize lenAxis (skewSurface : SurfaceInfo ℝ)
      torusDerivs11).D = 1 := by
    norm_num [Mapping.set_locals, Vec3.factorize, Vec3.dot, lenAxis, skewSurface, torusDerivs11]
  refine ⟨hA, hB, hC, hD, ?_, ?_⟩
  · rw [Mapping_set_helperC_eq, hA, hB, hC, hD]
    norm_num [skewSurface, torusDerivs11, Vec3_sub_def, Vec3_mul_def]
  · norm_num [skewSurface, torusDerivs11, Vec3_sub_def, Vec3_mul_def]

end SetClaims

/-! ### Claims on the principal curvatures -/

section PrincipalClaims

/-- C13. Sphere scenario, branch selection.  For every sample whose second fundamental form,
as computed by `create`, is `kappa` times its first (`e = kappa*E`, `f = kappa*F`,
`g = kappa*G`) with `E*G - F^2 > 0`, `create` computes `H = kappa`, `K = kappa^2`,
`k1 = k2 = kappa`, `a12 = a21 = 0`, and takes the disambiguation branch, in which the
principal directions are `Fv` and `Fu` (then normalised). -/
theorem create_principal_umbilic (surface : SurfaceInfo ℝ) (kappa : ℝ)
    (he : (create_forms Real.sqrt surface).e = kappa * (create_forms Real.sqrt surface).E)
    (hf : (create_forms Real.sqrt surface).f = kappa * (create_forms Real.sqrt surface).F)
    (hg : (create_forms Real.sqrt surface).g = kappa * (create_forms Real.sqrt surface).G)
    (hpos : (create_forms Real.sqrt surface).E * (create_forms Real.sqrt surface).G
      - (create_forms Real.sqrt surface).F * (create_forms Real.sqrt surface).F > 0) :
    (create_principal Real.sqrt (create_forms Real.sqrt surface)).H = kappa ∧
    (create_principal Real.sqrt (create_forms Real.sqrt surface)).K = kappa * kappa ∧
    (create_principal Real.sqrt (create_forms Real.sqrt surface)).k1 = kappa ∧
    (create_principal Real.sqrt (create_forms Real.sqrt surface)).k2 = kappa ∧
    (create_principal Real.sqrt (create_forms Real.sqrt surface)).a12 = 0 ∧
    (create_principal Real.sqrt (create_forms Real.sqrt surface)).a21 = 0 ∧
    (create_directions surface.Fu surface.Fv
      (create_principal Real.sqrt (create_forms Real.sqrt surface))).1 = true ∧
    (create_directions surface.Fu surface.Fv
      (create_principal Real.sqrt (create_forms Real.sqrt surface))).2
        = (surface.Fv, surface.Fu) := by
  generalize create_forms Real.sqrt surface = ff at he hf hg hpos ⊢
  have hd : ff.E * ff.G - ff.F * ff.F ≠ 0 := ne_of_gt hpos
  have hH : (create_principal Real.sqrt ff).H = kappa := by
    simp only [create_principal, he, hf, hg]
    field_simp
    ring
  have hK : (create_principal Real.sqrt ff).K = kappa * kappa := by
    simp only [create_principal, he, hf, hg]
    field_simp
    ring
  have htmp : (create_principal Real.sqrt ff).tmp = 0 := by
    have h0 : (create_principal Real.sqrt ff).tmp
        = Real.sqrt ((create_principal Real.sqrt ff).H * (create_principal Real.sqrt ff).H
          - (create_principal Real.sqrt ff).K) := rfl
    rw [h0, hH, hK, sub_self, Real.sqrt_zero]
  have hk1 : (create_principal Real.sqrt ff).k1 = kappa := by
    have h0 : (create_principal Real.sqrt ff).k1
        = (create_principal Real.sqrt ff).H + (create_principal Real.sqrt ff).tmp := rfl
    rw [h0, hH, htmp, add_zero]
  have hk2 : (create_principal Real.sqrt ff).k2 = kappa := by
    have h0 : (create_principal Real.sqrt ff).k2
        = (create_principal Real.sqrt ff).H - (create_principal Real.sqrt ff).tmp := rfl
    rw [h0, hH, htmp, sub_zero]
  have ha12 : (create_principal Real.sqrt ff).a12 = 0 := by
    simp only [create_principal, he, hf, hg]
    rw [div_eq_zero_iff]
    left
    ring
  have ha21 : (create_principal Real.sqrt ff).a21 = 0 := by
    simp only [create_principal, he, hf, hg]
    rw [div_eq_zero_iff]
    left
    ring
  have hbranch : |(create_principal Real.sqrt ff).a12| < (1 : ℝ) / 100000 ∧
      |(create_principal Real.sqrt ff).a21| < (1 : ℝ) / 100000 := by
    rw [ha12, ha21]
    norm_num
  refine ⟨hH, hK, hk1, hk2, ha12, ha21, ?_, ?_⟩
  · simp only [create_directions, if_pos hbranch]
    split_ifs <;> rfl
  · simp only [create_directions, if_pos hbranch, hk1, hk2, lt_irrefl, if_false]

/-- Witness for C13: the unit-sphere sample `sphereSurface`, where `E = G = 1`, `F = 0` and
`e = g = -1`, `f = 0`, so `kappa = -1`. -/
theorem create_principal_umbilic_witness :
    (create_principal Real.sqrt (create_forms Real.sqrt (sphereSurface : SurfaceInfo ℝ))).k1
      = -1 ∧
    (create_principal Real.sqrt (create_forms Real.sqrt (sphereSurface : SurfaceInfo ℝ))).k2
      = -1 ∧
    (create_directions (sphereSurface : SurfaceInfo ℝ).Fu (sphereSurface : SurfaceInfo ℝ).Fv
      (create_principal Real.sqrt (create_forms Real.sqrt (sphereSurface : SurfaceInfo ℝ)))).1
      = true := by
  have h := create_principal_umbilic (sphereSurface : SurfaceInfo ℝ) (-1)
    (by norm_num [create_forms, sphereSurface, Vec3.Tcross, Vec3.cross, Vec3.dot])
    (by norm_num [create_forms, sphereSurface, Vec3.Tcross, Vec3.cross, Vec3.dot])
    (by norm_num [create_forms, sphereSurface, Vec3.Tcross, Vec3.cross, Vec3.dot])
    (by norm_num [create_forms, sphereSurface, Vec3.Tcross, Vec3.cross, Vec3.dot])
  exact ⟨h.2.2.1, h.2.2.2.1, h.2.2.2.2.2.2.1⟩

end PrincipalClaims

/-! ### Claims on the torus derivative constants -/

section TorusConstantClaims

/-- On an interval symmetric about `0` of half-width at most `pi`, the cosine is smallest at
the ends. -/
theorem cos_ge_of_abs_le (x t : ℝ) (hx : |x| ≤ t) (ht : t ≤ Real.pi) :
    Real.cos t ≤ Real.cos x := by
  rw [← Real.cos_abs x]
  exact Real.cos_le_cos_of_nonneg_of_le_pi (abs_nonneg x) ht hx

/-- On an interval symmetric about `0` of half-width at most `pi/2`, the absolute value of
the sine is largest at the ends. -/
theorem abs_sin_le_of_abs_le (x t : ℝ) (hx : |x| ≤ t) (ht : t ≤ Real.pi / 2) :
    |Real.sin x| ≤ Real.sin t := by
  have hpi := Real.pi_pos
  obtain ⟨h1, h2⟩ := abs_le.1 hx
  rw [abs_le]
  constructor
  · rw [← Real.sin_neg t]
    exact Real.sin_le_sin_of_le_of_le_pi_div_two (by linarith) (by linarith) h1
  · exact Real.sin_le_sin_of_le_of_le_pi_div_two (by linarith) ht h2

/-- The magnitude `|R + r cos n|` is `R + r cos n` when `R >= r > 0`. -/
theorem abs_major_minor_cos (R r n : ℝ) (hR : r ≤ R) (hr : 0 < r) :
    |R + r * Real.cos n| = R + r * Real.cos n := by
  have h1 := Real.neg_one_le_cos n
  exact abs_of_nonneg (by nlinarith)

/-- C18 as amended.  For every patch with `majorRadius >= minorRadius > 0` and every `n`:
`Gmnn >= minorRadius*|cos n|` and `Gnnn >= minorRadius`; `Gmmm >= |majorRadius +
minorRadius*cos n|` when `n0 = 0`; `Gmmn >= minorRadius*|sin n|` when the width of the
n-domain exceeds `pi`; and when the n-domain is symmetric about the anchor,
`[n0 - t, n0 + t]` with `n0 = 0` or `n0 = pi` and `0 <= t <= pi`, both `Gmmm` and `Gmmn` are
bounds for every `n` of the n-domain, whatever `n0` and the width are. -/
theorem calPositionErrorUpperBound_G_bounds (mp : Mapping ℝ) (patch : TorusPatch ℝ)
    (uDomain vDomain : Domain ℝ) (n : ℝ)
    (hmaj : patch.minorRadius ≤ patch.majorRadius) (hmin : 0 < patch.minorRadius) :
    (mp.calPositionErrorUpperBound_locals Real.cos Real.sin Real.pi patch uDomain vDomain).Gmnn
      ≥ patch.minorRadius * |Real.cos n| ∧
    (mp.calPositionErrorUpperBound_locals Real.cos Real.sin Real.pi patch uDomain vDomain).Gnnn
      ≥ patch.minorRadius ∧
    (mp.n0 = 0 →
      (mp.calPositionErrorUpperBound_locals Real.cos Real.sin Real.pi patch uDomain
        vDomain).Gmmm ≥ |patch.majorRadius + patch.minorRadius * Real.cos n|) ∧
    (patch.vDomain.width > Real.pi →
      (mp.calPositionErrorUpperBound_locals Real.cos Real.sin Real.pi patch uDomain
        vDomain).Gmmn ≥ patch.minorRadius * |Real.sin n|) ∧
    (∀ t : ℝ, 0 ≤ t → t ≤ Real.pi → (mp.n0 = 0 ∨ mp.n0 = Real.pi) →
      patch.vDomain = ⟨mp.n0 - t, mp.n0 + t⟩ → mp.n0 - t ≤ n → n ≤ mp.n0 + t →
      (mp.calPositionErrorUpperBound_locals Real.cos Real.sin Real.pi patch uDomain
          vDomain).Gmmm ≥ |patch.majorRadius + patch.minorRadius * Real.cos n| ∧
      (mp.calPositionErrorUpperBound_locals Real.cos Real.sin Real.pi patch uDomain
          vDomain).Gmmn ≥ patch.minorRadius * |Real.sin n|) := by
  obtain ⟨g1, g2, g3, g4⟩ :=
    calPositionErrorUpperBound_locals_G Real.cos Real.sin Real.pi mp patch uDomain vDomain
  have hpi := Real.pi_pos
  have hsin1 : patch.minorRadius * |Real.sin n| ≤ patch.minorRadius := by
    have := Real.abs_sin_le_one n
    nlinarith
  have hcos1 : patch.minorRadius * |Real.cos n| ≤ patch.minorRadius := by
    have := Real.abs_cos_le_one n
    nlinarith
  have hG0 : |patch.majorRadius + patch.minorRadius * Real.cos n|
      ≤ patch.majorRadius + patch.minorRadius := by
    rw [abs_major_minor_cos _ _ _ hmaj hmin]
    have := Real.cos_le_one n
    nlinarith
  refine ⟨?_, ?_, ?_, ?_, ?_⟩
  · rw [g3]
    exact hcos1
  · rw [g4]
  · intro h0
    rw [g1, if_pos h0]
    exact hG0
  · intro hw
    rw [g2, if_pos hw]
    exact hsin1
  · intro t ht0 ht1 hn0 hdom hn1 hn2
    have hx : |n - mp.n0| ≤ t := abs_le.2 ⟨by linarith, by linarith⟩
    constructor
    · rw [g1]
      rcases hn0 with h0 | h0
      · rw [if_pos h0]
        exact hG0
      · have hne : ¬ mp.n0 = 0 := by
          rw [h0]
          exact ne_of_gt hpi
        rw [if_neg hne, abs_major_minor_cos _ _ _ hmaj hmin, hdom, h0]
        have hc := cos_ge_of_abs_le (n - mp.n0) t hx ht1
        rw [h0] at hc
        have e1 : Real.cos (Real.pi - t) = - Real.cos t := Real.cos_pi_sub t
        have e2 : Real.cos (n - Real.pi) = - Real.cos n := Real.cos_sub_pi n
        show patch.majorRadius + patch.minorRadius * Real.cos (Real.pi - t)
          ≥ patch.majorRadius + patch.minorRadius * Real.cos n
        rw [e1]
        rw [e2] at hc
        nlinarith
    · rw [g2]
      by_cases hw : patch.vDomain.width > Real.pi
      · rw [if_pos hw]
        exact hsin1
      · rw [if_neg hw]
        have hw2 : t ≤ Real.pi / 2 := by
          rw [hdom] at hw
          simp only [piDomain.width] at hw
          linarith
        have hs := abs_sin_le_of_abs_le (n - mp.n0) t hx hw2
        have hst : 0 ≤ Real.sin t := Real.sin_nonneg_of_nonneg_of_le_pi ht0 ht1
        have key : |Real.sin n| ≤ |Real.sin patch.vDomain.end_| := by
          rw [hdom]
          show |Real.sin n| ≤ |Real.sin (mp.n0 + t)|
          rcases hn0 with h0 | h0
          · rw [h0] at hs ⊢
            rw [sub_zero] at hs
            rw [zero_add, abs_of_nonneg hst]
            exact hs
          · rw [h0] at hs ⊢
            rw [Real.sin_sub_pi, abs_neg] at hs
            rw [add_comm, Real.sin_add_pi, abs_neg, abs_of_nonneg hst]
            exact hs
        exact mul_le_mul_of_nonneg_left key (le_of_lt hmin)

/-- Witness for C18 as amended: the patch `symmetricPatch` with radii `2` and `1` and the
n-domain `[-1, 1]`, symmetric about the anchor `n0 = 0`, at `n = 1/2`. -/
theorem calPositionErrorUpperBound_G_bounds_witness :
    ((sampleMapping : Mapping ℝ).calPositionErrorUpperBound_locals Real.cos Real.sin Real.pi
        symmetricPatch ⟨0, 1⟩ ⟨0, 1⟩).Gmmm ≥ |(2 : ℝ) + 1 * Real.cos (1 / 2)| ∧
    ((sampleMapping : Mapping ℝ).calPositionErrorUpperBound_locals Real.cos Real.sin Real.pi
        symmetricPatch ⟨0, 1⟩ ⟨0, 1⟩).Gmmn ≥ (1 : ℝ) * |Real.sin (1 / 2)| :=
  (calPositionErrorUpperBound_G_bounds (sampleMapping : Mapping ℝ) symmetricPatch
    ⟨0, 1⟩ ⟨0, 1⟩ (1 / 2) (by norm_num [symmetricPatch]) (by norm_num [symmetricPatch])).2.2.2.2
    1 (by norm_num) (by linarith [Real.pi_gt_three]) (Or.inl rfl)
    (by simp [sampleMapping, symmetricPatch]) (by norm_num [sampleMapping])
    (by norm_num [sampleMapping])

/-- Counterexample to C18 as stated.  For the patch `halfTurnPatch` with radii `2` and `1`,
n-domain `[0, pi]` (width `pi`, not more) and anchor `n0 = 0`, the constant is
`Gmmn = minorRadius*|sin(pi)| = 0`, which is below `minorRadius*|sin n| = 1` at `n = pi/2`
inside the n-domain. -/
theorem calPositionErrorUpperBound_Gmmn_counterexample :
    (halfTurnPatch Real.pi).minorRadius ≤ (halfTurnPatch Real.pi).majorRadius ∧
    0 < (halfTurnPatch Real.pi).minorRadius ∧
    (halfTurnPatch Real.pi).vDomain.beg ≤ Real.pi / 2 ∧
    Real.pi / 2 ≤ (halfTurnPatch Real.pi).vDomain.end_ ∧
    ¬ (((sampleMapping : Mapping ℝ).calPositionErrorUpperBound_locals Real.cos Real.sin
          Real.pi (halfTurnPatch Real.pi) ⟨0, 1⟩ ⟨0, 1⟩).Gmmn
        ≥ (halfTurnPatch Real.pi).minorRadius * |Real.sin (Real.pi / 2)|) := by
  have hpi := Real.pi_pos
  refine ⟨by norm_num [halfTurnPatch], by norm_num [halfTurnPatch],
    by simp only [halfTurnPatch]; linarith, by simp only [halfTurnPatch]; linarith, ?_⟩
  rw [(calPositionErrorUpperBound_locals_G Real.cos Real.sin Real.pi sampleMapping _ _ _).2.1]
  simp [piDomain.width, halfTurnPatch]

end TorusConstantClaims

/-! ### Claims on the sphere scenario -/

section SphereClaims
variable {K : Type} [LinearOrderedField K]

/-- The curvature normalisation on an umbilic pair `k1 = k2 = kappa` that the clamp leaves
unchanged: both final curvatures are `-|kappa|` and the anchor is `(0, 0)`. -/
theorem create_curvature_umbilic {K : Type} [LinearOrderedField K] (PI kappa : K)
    (hk : curvatureEps ≤ |kappa|) :
    (create_curvature PI kappa kappa).k1 = -|kappa| ∧
    (create_curvature PI kappa kappa).k2 = -|kappa| ∧
    (create_curvature PI kappa kappa).m = 0 ∧
    (create_curvature PI kappa kappa).n = 0 := by
  have hc : ¬ |kappa| < curvatureEps := not_lt.2 hk
  have hsq : ¬ kappa * kappa < 0 := not_lt.2 (mul_self_nonneg kappa)
  have hgt : ¬ |kappa| > |kappa| := lt_irrefl _
  simp only [create_curvature, if_neg hc, if_neg hsq, if_neg hgt]
  by_cases hp : kappa > 0
  · simp only [if_pos hp, abs_of_pos hp]
    refine ⟨by ring, by ring, trivial, trivial⟩
  · simp only [if_neg hp, abs_of_nonpos (not_lt.1 hp)]
    refine ⟨by ring, by ring, trivial, trivial⟩

/-- The first remainder term is at least its leading summand. -/
theorem N1_ge_leading (g1 g2 g3 g4 Mu Nu Muu Nuu : K)
    (h1 : 0 ≤ g1) (h2 : 0 ≤ g2) (h3 : 0 ≤ g3) (h4 : 0 ≤ g4)
    (hMu : 0 ≤ Mu) (hNu : 0 ≤ Nu) (hMuu : 0 ≤ Muu) (hNuu : 0 ≤ Nuu) :
    g1 * (Mu * Mu * Mu) ≤
      (g1 * Mu * Mu * Mu) + 3 * (g2 * Mu * Mu * Nu) + 3 * (g3 * Mu * Nu * Nu)
        + (g4 * Nu * Nu * Nu)
        + 3 * (g1 * Mu * Muu) + 3 * (g4 * Nu * Nuu) + 3 * (g2 * (Muu * Nu + Mu * Nuu)) := by
  have e : (g1 * Mu * Mu * Mu) + 3 * (g2 * Mu * Mu * Nu) + 3 * (g3 * Mu * Nu * Nu)
        + (g4 * Nu * Nu * Nu)
        + 3 * (g1 * Mu * Muu) + 3 * (g4 * Nu * Nuu) + 3 * (g2 * (Muu * Nu + Mu * Nuu))
      = g1 * (Mu * Mu * Mu) + (3 * (g2 * Mu * Mu * Nu) + 3 * (g3 * Mu * Nu * Nu)
        + (g4 * Nu * Nu * Nu)
        + 3 * (g1 * Mu * Muu) + 3 * (g4 * Nu * Nuu) + 3 * (g2 * (Muu * Nu + Mu * Nuu))) := by
    ring
  rw [e]
  exact le_add_of_nonneg_right (by positivity)

/-- The error bound assembled by `Set Error Bound` is at least its first remainder
summand. -/
theorem positionError_ge_first_term (cos sin : K → K) (PI : K) (mp : Mapping K)
    (patch : TorusPatch K) (surface : SurfaceInfo K)
    (hN2 : 0 ≤ (mp.calPositionErrorUpperBound_locals cos sin PI patch surface.uDomain
      surface.vDomain).N2)
    (hN3 : 0 ≤ (mp.calPositionErrorUpperBound_locals cos sin PI patch surface.uDomain
      surface.vDomain).N3)
    (hN4 : 0 ≤ (mp.calPositionErrorUpperBound_locals cos sin PI patch surface.uDomain
      surface.vDomain).N4)
    (hM1 : 0 ≤ surface.M1) (hM2 : 0 ≤ surface.M2) (hM3 : 0 ≤ surface.M3) (hM4 : 0 ≤ surface.M4)
    (hu : surface.uDomain.beg ≤ surface.uDomain.end_)
    (hv : surface.vDomain.beg ≤ surface.vDomain.end_) :
    (2 / 3) * ((surface.uDomain.width * 0.5) * (surface.uDomain.width * 0.5)
        * (surface.uDomain.width * 0.5)
      * (mp.calPositionErrorUpperBound_locals cos sin PI patch surface.uDomain
          surface.vDomain).N1)
      ≤ create_positionError cos sin PI mp patch surface := by
  have hL1 : 0 ≤ surface.uDomain.width := sub_nonneg.2 hu
  have hL2 : 0 ≤ surface.vDomain.width := sub_nonneg.2 hv
  simp only [create_positionError, Mapping.calPositionErrorUpperBound]
  rw [← sub_nonneg]
  have e : ∀ L1 L2 M1 M2 M3 M4 N1 N2 N3 N4 : K,
      (2 / 3) * ((L1 * L1 * L1) * (M1 + N1) + 3 * (L1 * L1 * L2) * (M2 + N2)
        + 3 * (L1 * L2 * L2) * (M3 + N3) + (L2 * L2 * L2) * (M4 + N4))
        - (2 / 3) * (L1 * L1 * L1 * N1)
      = (2 / 3) * ((L1 * L1 * L1) * M1 + 3 * (L1 * L1 * L2) * (M2 + N2)
        + 3 * (L1 * L2 * L2) * (M3 + N3) + (L2 * L2 * L2) * (M4 + N4)) := by
    intros
    ring
  rw [e]
  positivity

/-- C12 as amended.  For a sample at a point of a sphere of radius `R = 1/|kappa|`
(`k1 = k2 = kappa` with `|kappa| >= 1e-7`), caller constants `M1 .. M4 >= 0` and a
rectangle with `beg <= end` on both axes, `create` fits `majorRadius = 0` and
`minorRadius = R`, uses the constants `Gmmm = Gmnn = Gnnn = R`, and its `positionError` is
non-negative and at least `(2/3) * L1^3 * R * Mu^3`, where `L1` is the half-width of the
u-domain and `Mu` the corner maximum of `|dm/du|`; it evaluates to `0` when the rectangle
is a single point. -/
theorem create_sphere_positionError (factorize : Vec3 ℝ → Vec3 ℝ → Bool → ℝ)
    (len : Vec3 ℝ → ℝ) (dflt : piDomain ℝ) (surface : SurfaceInfo ℝ)
    (G : Nat → Nat → Vec3 ℝ) (kappa : ℝ) (hk : curvatureEps ≤ |kappa|)
    (hM1 : 0 ≤ surface.M1) (hM2 : 0 ≤ surface.M2) (hM3 : 0 ≤ surface.M3) (hM4 : 0 ≤ surface.M4)
    (hu : surface.uDomain.beg ≤ surface.uDomain.end_)
    (hv : surface.vDomain.beg ≤ surface.vDomain.end_) :
    (create Real.cos Real.sin Real.pi factorize len dflt surface G kappa
      kappa).patch.majorRadius = 0 ∧
    (create Real.cos Real.sin Real.pi factorize len dflt surface G kappa
      kappa).patch.minorRadius = 1 / |kappa| ∧
    (create_locals Real.cos Real.sin Real.pi factorize len dflt surface G kappa kappa).Gmmm
      = 1 / |kappa| ∧
    (create_locals Real.cos Real.sin Real.pi factorize len dflt surface G kappa kappa).Gmnn
      = 1 / |kappa| ∧
    (create_locals Real.cos Real.sin Real.pi factorize len dflt surface G kappa kappa).Gnnn
      = 1 / |kappa| ∧
    0 ≤ (create Real.cos Real.sin Real.pi factorize len dflt surface G kappa
      kappa).positionError ∧
    (2 / 3) * ((surface.uDomain.width * 0.5) * (surface.uDomain.width * 0.5)
        * (surface.uDomain.width * 0.5)
      * (1 / |kappa|
        * ((create_locals Real.cos Real.sin Real.pi factorize len dflt surface G kappa
              kappa).Mu
          * (create_locals Real.cos Real.sin Real.pi factorize len dflt surface G kappa
              kappa).Mu
          * (create_locals Real.cos Real.sin Real.pi factorize len dflt surface G kappa
              kappa).Mu)))
      ≤ (create Real.cos Real.sin Real.pi factorize len dflt surface G kappa
          kappa).positionError ∧
    (surface.uDomain.width = 0 → surface.vDomain.width = 0 →
      (create Real.cos Real.sin Real.pi factorize len dflt surface G kappa
        kappa).positionError = 0) := by
  obtain ⟨u1, u2, -, u4⟩ := create_curvature_umbilic Real.pi kappa hk
  have hpos : 0 < |kappa| := lt_of_lt_of_le curvatureEps_pos hk
  have hmaj : (create Real.cos Real.sin Real.pi factorize len dflt surface G kappa
      kappa).patch.majorRadius = 0 := by
    rw [create_majorRadius, u1, u2]
    field_simp
  have hminr : (create Real.cos Real.sin Real.pi factorize len dflt surface G kappa
      kappa).patch.minorRadius = 1 / |kappa| := by
    rw [create_minorRadius, u2, abs_neg, abs_abs]
  have hR : (0 : ℝ) ≤ 1 / |kappa| := (one_div_pos.2 hpos).le
  have hG1 : (create_locals Real.cos Real.sin Real.pi factorize len dflt surface G kappa
      kappa).Gmmm = 1 / |kappa| := by
    unfold create_locals
    rw [(calPositionErrorUpperBound_locals_G Real.cos Real.sin Real.pi _ _ _ _).1,
      create_mapping_n0, u4, if_pos rfl, hmaj, hminr, zero_add]
  have hG3 : (create_locals Real.cos Real.sin Real.pi factorize len dflt surface G kappa
      kappa).Gmnn = 1 / |kappa| := by
    unfold create_locals
    rw [(calPositionErrorUpperBound_locals_G Real.cos Real.sin Real.pi _ _ _ _).2.2.1, hminr]
  have hG4 : (create_locals Real.cos Real.sin Real.pi factorize len dflt surface G kappa
      kappa).Gnnn = 1 / |kappa| := by
    unfold create_locals
    rw [(calPositionErrorUpperBound_locals_G Real.cos Real.sin Real.pi _ _ _ _).2.2.2, hminr]
  have hG : 0 ≤ (create_locals Real.cos Real.sin Real.pi factorize len dflt surface G kappa
      kappa).Gmmm := by
    rw [hG1]
    exact hR
  have hmin : 0 ≤ (create Real.cos Real.sin Real.pi factorize len dflt surface G kappa
      kappa).patch.minorRadius := by
    rw [hminr]
    exact hR
  obtain ⟨g2, g3, g4, n1, n2, n3, n4⟩ :=
    calPositionErrorUpperBound_locals_nonneg Real.cos Real.sin Real.pi _ _ _ _ hmin hG
  obtain ⟨m1, -, m3, -, m5, -, -, m8, -, -⟩ :=
    calPositionErrorUpperBound_locals_M_nonneg Real.cos Real.sin Real.pi
      (create Real.cos Real.sin Real.pi factorize len dflt surface G kappa kappa).mapping
      (create Real.cos Real.sin Real.pi factorize len dflt surface G kappa kappa).patch
      surface.uDomain surface.vDomain
  have hN1 : (create_locals Real.cos Real.sin Real.pi factorize len dflt surface G kappa
        kappa).Gmmm
      * ((create_locals Real.cos Real.sin Real.pi factorize len dflt surface G kappa kappa).Mu
        * (create_locals Real.cos Real.sin Real.pi factorize len dflt surface G kappa kappa).Mu
        * (create_locals Real.cos Real.sin Real.pi factorize len dflt surface G kappa
            kappa).Mu)
      ≤ (create_locals Real.cos Real.sin Real.pi factorize len dflt surface G kappa
          kappa).N1 :=
    N1_ge_leading _ _ _ _ _ _ _ _ hG g2 g3 g4 m1 m3 m5 m8
  have hL1 : 0 ≤ surface.uDomain.width := sub_nonneg.2 hu
  refine ⟨hmaj, hminr, hG1, hG3, hG4, ?_, ?_, ?_⟩
  · rw [create_positionError_eq]
    exact positionError_nonneg_of_terms _ _ _ _ _ _ n1 n2 n3 n4 hM1 hM2 hM3 hM4 hu hv
  · rw [create_positionError_eq]
    refine le_trans ?_ (positionError_ge_first_term _ _ _ _ _ _ n2 n3 n4 hM1 hM2 hM3 hM4 hu hv)
    rw [hG1] at hN1
    have hL : 0 ≤ (surface.uDomain.width * 0.5) * (surface.uDomain.width * 0.5)
        * (surface.uDomain.width * 0.5) := by positivity
    exact mul_le_mul_of_nonneg_left (mul_le_mul_of_nonneg_left hN1 hL) (by norm_num)
  · intro h1 h2
    rw [create_positionError_eq]
    simp only [create_positionError, h1, h2]
    ring

/-- Witness for C12 as amended: the unit-sphere sample `sphereSurface` with `kappa = -1`. -/
theorem create_sphere_positionError_witness :
    (create Real.cos Real.sin Real.pi Vec3.factorize lenAxis ⟨0, 0⟩
      (sphereSurface : SurfaceInfo ℝ) sphereDerivs (-1) (-1)).patch.majorRadius = 0 ∧
    (create Real.cos Real.sin Real.pi Vec3.factorize lenAxis ⟨0, 0⟩
      (sphereSurface : SurfaceInfo ℝ) sphereDerivs (-1) (-1)).patch.minorRadius = 1 / |(-1 : ℝ)| ∧
    0 ≤ (create Real.cos Real.sin Real.pi Vec3.factorize lenAxis ⟨0, 0⟩
      (sphereSurface : SurfaceInfo ℝ) sphereDerivs (-1) (-1)).positionError :=
  have h := create_sphere_positionError Vec3.factorize lenAxis ⟨0, 0⟩
    (sphereSurface : SurfaceInfo ℝ) sphereDerivs (-1) (by norm_num [curvatureEps])
    (by norm_num [sphereSurface]) (by norm_num [sphereSurface]) (by norm_num [sphereSurface])
    (by norm_num [sphereSurface]) (by norm_num [sphereSurface]) (by norm_num [sphereSurface])
  ⟨h.1, h.2.1, h.2.2.2.2.2.1⟩

/-- The mapping that `Mapping::set` builds for the unit-sphere sample: `m = u`, `n = v`. -/
theorem sphere_mapping_coefs :
    (Mapping.set Vec3.factorize lenAxis (sphereSurface : SurfaceInfo ℝ) sphereDerivs 0 0).mCoefs
      = ⟨0, 0, 0, 1, 0, 0⟩ ∧
    (Mapping.set Vec3.factorize lenAxis (sphereSurface : SurfaceInfo ℝ) sphereDerivs 0 0).nCoefs
      = ⟨0, 0, 0, 0, 1, 0⟩ ∧
    (Mapping.set Vec3.factorize lenAxis (sphereSurface : SurfaceInfo ℝ) sphereDerivs 0 0).n0
      = 0 := by
  refine ⟨?_, ?_, rfl⟩ <;>
  norm_num [Mapping.set, Vec3.factorize, Vec3.dot, lenAxis, sphereSurface, sphereDerivs,
    Vec3_sub_def, Vec3_mul_def]

/-- The principal curvatures that `create` computes for the unit-sphere sample. -/
theorem sphere_principal :
    (create_principal Real.sqrt (create_forms Real.sqrt (sphereSurface : SurfaceInfo ℝ))).k1
      = -1 ∧
    (create_principal Real.sqrt (create_forms Real.sqrt (sphereSurface : SurfaceInfo ℝ))).k2
      = -1 := by
  constructor <;>
  norm_num [create_principal, create_forms, sphereSurface, Vec3.Tcross, Vec3.cross, Vec3.dot]

/-- The remainder terms for the mapping `m = u`, `n = v` on the unit square and a patch
with radii `0` and `1` whose n-domain is wider than `pi`: all four are `1`. -/
theorem sphere_remainder_terms (mp : Mapping ℝ) (patch : TorusPatch ℝ)
    (hm : mp.mCoefs = ⟨0, 0, 0, 1, 0, 0⟩) (hn : mp.nCoefs = ⟨0, 0, 0, 0, 1, 0⟩)
    (hn0 : mp.n0 = 0) (hmaj : patch.majorRadius = 0) (hmin : patch.minorRadius = 1)
    (hw : patch.vDomain.width > Real.pi) :
    (mp.calPositionErrorUpperBound_locals Real.cos Real.sin Real.pi patch ⟨0, 1⟩ ⟨0, 1⟩).N1 = 1 ∧
    (mp.calPositionErrorUpperBound_locals Real.cos Real.sin Real.pi patch ⟨0, 1⟩ ⟨0, 1⟩).N2 = 1 ∧
    (mp.calPositionErrorUpperBound_locals Real.cos Real.sin Real.pi patch ⟨0, 1⟩ ⟨0, 1⟩).N3 = 1 ∧
    (mp.calPositionErrorUpperBound_locals Real.cos Real.sin Real.pi patch ⟨0, 1⟩ ⟨0, 1⟩).N4
      = 1 := by
  simp only [Mapping.calPositionErrorUpperBound_locals, hm, hn, hn0, hmaj, hmin, if_pos hw]
  norm_num

/-- The mapping built by `create` is the one `Mapping::set` builds at the chosen anchor. -/
theorem create_mapping_eq {K : Type} [LinearOrderedField K] (cos sin : K → K) (PI : K)
    (factorize : Vec3 K → Vec3 K → Bool → K)
    (len : Vec3 K → K) (dflt : piDomain K) (surface : SurfaceInfo K)
    (G : Nat → Nat → Vec3 K) (k1 k2 : K) :
    (create cos sin PI factorize len dflt surface G k1 k2).mapping
      = Mapping.set factorize len surface G (create_curvature PI k1 k2).m
          (create_curvature PI k1 k2).n := rfl

/-- Counterexample to C12 as stated.  For the unit-sphere sample `sphereSurface` on the
parameter square `[0, 1] x [0, 1]` with `M1 .. M4 = 1`, `create` computes `k1 = k2 = -1`,
fits `majorRadius = 0` and `minorRadius = 1`, and its `positionError` is `4/3`, not `0`. -/
theorem create_sphere_positionError_counterexample :
    (create_principal Real.sqrt (create_forms Real.sqrt (sphereSurface : SurfaceInfo ℝ))).k1
      = -1 ∧
    (create_principal Real.sqrt (create_forms Real.sqrt (sphereSurface : SurfaceInfo ℝ))).k2
      = -1 ∧
    (create Real.cos Real.sin Real.pi Vec3.factorize lenAxis ⟨0, 0⟩
      (sphereSurface : SurfaceInfo ℝ) sphereDerivs (-1) (-1)).patch.majorRadius = 0 ∧
    (create Real.cos Real.sin Real.pi Vec3.factorize lenAxis ⟨0, 0⟩
      (sphereSurface : SurfaceInfo ℝ) sphereDerivs (-1) (-1)).patch.minorRadius = 1 ∧
    (create Real.cos Real.sin Real.pi Vec3.factorize lenAxis ⟨0, 0⟩
      (sphereSurface : SurfaceInfo ℝ) sphereDerivs (-1) (-1)).positionError = 4 / 3 ∧
    (create Real.cos Real.sin Real.pi Vec3.factorize lenAxis ⟨0, 0⟩
      (sphereSurface : SurfaceInfo ℝ) sphereDerivs (-1) (-1)).positionError ≠ 0 := by
  obtain ⟨p1, p2⟩ := sphere_principal
  obtain ⟨u1, u2, u3, u4⟩ := create_curvature_umbilic Real.pi (-1 : ℝ)
    (by norm_num [curvatureEps])
  obtain ⟨hm, hn, hn0⟩ := sphere_mapping_coefs
  have hmap : (create Real.cos Real.sin Real.pi Vec3.factorize lenAxis ⟨0, 0⟩
      (sphereSurface : SurfaceInfo ℝ) sphereDerivs (-1) (-1)).mapping
      = Mapping.set Vec3.factorize lenAxis (sphereSurface : SurfaceInfo ℝ) sphereDerivs 0 0 := by
    rw [create_mapping_eq, u3, u4]
  have hmaj : (create Real.cos Real.sin Real.pi Vec3.factorize lenAxis ⟨0, 0⟩
      (sphereSurface : SurfaceInfo ℝ) sphereDerivs (-1) (-1)).patch.majorRadius = 0 := by
    rw [create_majorRadius, u1, u2]
    norm_num
  have hmin : (create Real.cos Real.sin Real.pi Vec3.factorize lenAxis ⟨0, 0⟩
      (sphereSurface : SurfaceInfo ℝ) sphereDerivs (-1) (-1)).patch.minorRadius = 1 := by
    rw [create_minorRadius, u2]
    norm_num
  have hM : (calDomainM Real.pi (⟨0, 0, 0, 1, 0, 0⟩ : Coefs ℝ) ⟨0, 1⟩ ⟨0, 1⟩ ⟨0, 0⟩).1
      = false := by
    have hv : calDomainM_checkMv (⟨0, 0, 0, 1, 0, 0⟩ : Coefs ℝ) ⟨0, 1⟩ ⟨0, 1⟩ = none := by
      norm_num [calDomainM_checkMv]
    simp only [calDomainM, hv]
    split <;> rfl
  have hdom : (create Real.cos Real.sin Real.pi Vec3.factorize lenAxis ⟨0, 0⟩
      (sphereSurface : SurfaceInfo ℝ) sphereDerivs (-1) (-1)).patch.vDomain
      = ⟨0, 2 * Real.pi⟩ := by
    have h := create_patchDomain_eq Real.cos Real.sin Real.pi Vec3.factorize lenAxis ⟨0, 0⟩
      (sphereSurface : SurfaceInfo ℝ) sphereDerivs (-1) (-1)
    rw [hmap] at h
    simp only [create_patchDomain, hm] at h
    have hs : (sphereSurface : SurfaceInfo ℝ).uDomain = ⟨0, 1⟩ ∧
        (sphereSurface : SurfaceInfo ℝ).vDomain = ⟨0, 1⟩ := ⟨rfl, rfl⟩
    rw [hs.1, hs.2, hM] at h
    simp only [Bool.false_and, Bool.false_eq_true, if_false, Prod.mk.injEq] at h
    rw [h.2.1]
    rfl
  have hw : (create Real.cos Real.sin Real.pi Vec3.factorize lenAxis ⟨0, 0⟩
      (sphereSurface : SurfaceInfo ℝ) sphereDerivs (-1) (-1)).patch.vDomain.width
      > Real.pi := by
    rw [hdom]
    simp only [piDomain.width]
    linarith [Real.pi_pos]
  have hval : (create Real.cos Real.sin Real.pi Vec3.factorize lenAxis ⟨0, 0⟩
      (sphereSurface : SurfaceInfo ℝ) sphereDerivs (-1) (-1)).positionError = 4 / 3 := by
    obtain ⟨n1, n2, n3, n4⟩ := sphere_remainder_terms
      (create Real.cos Real.sin Real.pi Vec3.factorize lenAxis ⟨0, 0⟩
        (sphereSurface : SurfaceInfo ℝ) sphereDerivs (-1) (-1)).mapping
      (create Real.cos Real.sin Real.pi Vec3.factorize lenAxis ⟨0, 0⟩
        (sphereSurface : SurfaceInfo ℝ) sphereDerivs (-1) (-1)).patch
      (by rw [hmap]; exact hm) (by rw [hmap]; exact hn) (by rw [hmap]; exact hn0) hmaj hmin hw
    rw [create_positionError_eq]
    have hs : (sphereSurface : SurfaceInfo ℝ).uDomain = ⟨0, 1⟩ ∧
        (sphereSurface : SurfaceInfo ℝ).vDomain = ⟨0, 1⟩ ∧
        (sphereSurface : SurfaceInfo ℝ).M1 = 1 ∧ (sphereSurface : SurfaceInfo ℝ).M2 = 1 ∧
        (sphereSurface : SurfaceInfo ℝ).M3 = 1 ∧ (sphereSurface : SurfaceInfo ℝ).M4 = 1 :=
      ⟨rfl, rfl, rfl, rfl, rfl, rfl⟩
    simp only [create_positionError, Mapping.calPositionErrorUpperBound, hs.1, hs.2.1,
      hs.2.2.1, hs.2.2.2.1, hs.2.2.2.2.1, hs.2.2.2.2.2, n1, n2, n3, n4, Domain.width]
    norm_num
  refine ⟨p1, p2, hmaj, hmin, hval, ?_⟩
  rw [hval]
  norm_num

end SphereClaims

/-! ### Second-order consistency of the two mappings -/

section SecondOrderClaims
variable {K : Type} [LinearOrderedField K]

theorem Vec3_add_def (a b : Vec3 K) : a + b = ⟨a.x + b.x, a.y + b.y, a.z + b.z⟩ := rfl

theorem Vec3_dot_comm (a b : Vec3 K) : a.dot b = b.dot a := by
  simp only [Vec3.dot]
  ring

/-- The dot product with a combination of two vectors. -/
theorem Vec3_dot_comb (c a b : Vec3 K) (s t : K) :
    c.dot (a * s + b * t) = c.dot a * s + c.dot b * t := by
  simp only [Vec3.dot, Vec3_add_def, Vec3_mul_def]
  ring

/-- The three residual vectors of the block `M, N Coefs` of `Mapping::set`, dotted with any
vector. -/
theorem Mapping_set_helper_dot (factorize : Vec3 K → Vec3 K → Bool → K) (len : Vec3 K → K)
    (surface : SurfaceInfo K) (G : Nat → Nat → Vec3 K) (X : Vec3 K) :
    (Mapping.set_locals factorize len surface G).helperA.dot X
      = surface.Fuu.dot X
        - (G 2 0).dot X * (Mapping.set_locals factorize len surface G).A
          * (Mapping.set_locals factorize len surface G).A
        - 2 * (G 1 1).dot X * (Mapping.set_locals factorize len surface G).A
          * (Mapping.set_locals factorize len surface G).B
        - (G 0 2).dot X * (Mapping.set_locals factorize len surface G).B
          * (Mapping.set_locals factorize len surface G).B ∧
    (Mapping.set_locals factorize len surface G).helperB.dot X
      = surface.Fvv.dot X
        - (G 2 0).dot X * (Mapping.set_locals factorize len surface G).C
          * (Mapping.set_locals factorize len surface G).C
        - 2 * (G 1 1).dot X * (Mapping.set_locals factorize len surface G).C
          * (Mapping.set_locals factorize len surface G).D
        - (G 0 2).dot X * (Mapping.set_locals factorize len surface G).D
          * (Mapping.set_locals factorize len surface G).D ∧
    (Mapping.set_locals factorize len surface G).helperC.dot X
      = surface.Fuv.dot X
        - (G 2 0).dot X * (Mapping.set_locals factorize len surface G).A
          * (Mapping.set_locals factorize len surface G).C
        - (G 1 1).dot X * ((Mapping.set_locals factorize len surface G).A
            * (Mapping.set_locals factorize len surface G).D
          + (Mapping.set_locals factorize len surface G).B
            * (Mapping.set_locals factorize len surface G).C)
        - (G 0 2).dot X * (Mapping.set_locals factorize len surface G).C
          * (Mapping.set_locals factorize len surface G).D := by
  simp only [Mapping.set_locals, Vec3.dot, Vec3_sub_def, Vec3_mul_def]
  refine ⟨?_, ?_, ?_⟩ <;> ring

/-- The three residual vectors of the block `U, V Coefs` of `Mapping::set`, dotted with any
vector. -/
theorem Mapping_set_res_dot (factorize : Vec3 K → Vec3 K → Bool → K) (len : Vec3 K → K)
    (surface : SurfaceInfo K) (G : Nat → Nat → Vec3 K) (X : Vec3 K) :
    (Mapping.set_locals factorize len surface G).res1.dot X
      = (G 2 0).dot X
        - surface.Fuu.dot X * (Mapping.set_locals factorize len surface G).uvA
          * (Mapping.set_locals factorize len surface G).uvA
        - surface.Fvv.dot X * (Mapping.set_locals factorize len surface G).uvB
          * (Mapping.set_locals factorize len surface G).uvB
        - 2 * surface.Fuv.dot X * (Mapping.set_locals factorize len surface G).uvA
          * (Mapping.set_locals factorize len surface G).uvB ∧
    (Mapping.set_locals factorize len surface G).res2.dot X
      = (G 0 2).dot X
        - surface.Fuu.dot X * (Mapping.set_locals factorize len surface G).uvC
          * (Mapping.set_locals factorize len surface G).uvC
        - surface.Fvv.dot X * (Mapping.set_locals factorize len surface G).uvD
          * (Mapping.set_locals factorize len surface G).uvD
        - 2 * surface.Fuv.dot X * (Mapping.set_locals factorize len surface G).uvC
          * (Mapping.set_locals factorize len surface G).uvD ∧
    (Mapping.set_locals factorize len surface G).res3.dot X
      = (G 1 1).dot X
        - surface.Fuu.dot X * (Mapping.set_locals factorize len surface G).uvA
          * (Mapping.set_locals factorize len surface G).uvC
        - surface.Fvv.dot X * (Mapping.set_locals factorize len surface G).uvB
          * (Mapping.set_locals factorize len surface G).uvD
        - surface.Fuv.dot X * ((Mapping.set_locals factorize len surface G).uvA
            * (Mapping.set_locals factorize len surface G).uvD
          + (Mapping.set_locals factorize len surface G).uvB
            * (Mapping.set_locals factorize len surface G).uvC) := by
  simp only [Mapping.set_locals, Vec3.dot, Vec3_sub_def, Vec3_mul_def]
  refine ⟨?_, ?_, ?_⟩ <;> ring

/-- Second-order chain rule, pure direction: with the second-derivative data of the inverse
polynomial (`r0, r1, r2`), of the forward polynomials (`p, q`) and the first derivatives
related as in `Mapping::set`, the pure second Taylor coefficient of the round trip is zero. -/
theorem pure_second_coefficient_zero
    {tt g h r0 r1 r2 p q fa fc a b t1 t2 GmmT GmnT GnnT FuuT FvvT FuvT FxxT hGm hGn
      ua ub uc ud : K}
    (ht : tt ≠ 0)
    (hr0 : 2 * r0 * tt = GmmT - FuuT * ua * ua - FvvT * ub * ub - 2 * FuvT * ua * ub)
    (hr1 : 2 * r1 * tt = GnnT - FuuT * uc * uc - FvvT * ud * ud - 2 * FuvT * uc * ud)
    (hr2 : r2 * tt = GmnT - FuuT * ua * uc - FvvT * ub * ud - FuvT * (ua * ud + ub * uc))
    (hp : 2 * p * g = hGm) (hq : 2 * q * h = hGn)
    (hfa : fa * tt = t1 * g) (hfc : fc * tt = t2 * h)
    (hhelper : t1 * hGm + t2 * hGn = FxxT - GmmT * a * a - 2 * GmnT * a * b - GnnT * b * b)
    (hsel : FxxT = FuuT * (ua * a + uc * b) * (ua * a + uc * b)
      + FvvT * (ub * a + ud * b) * (ub * a + ud * b)
      + 2 * FuvT * (ua * a + uc * b) * (ub * a + ud * b)) :
    a * b * r2 + a * a * r0 + b * b * r1 + fa * p + fc * q = 0 := by
  have key : 2 * tt * (a * b * r2 + a * a * r0 + b * b * r1 + fa * p + fc * q) = 0 := by
    linear_combination 2 * a * b * hr2 + a * a * hr0 + b * b * hr1 + 2 * p * hfa + 2 * q * hfc
      + t1 * hp + t2 * hq + hhelper + hsel
  rcases mul_eq_zero.1 key with h1 | h1
  · exact absurd h1 (mul_ne_zero two_ne_zero ht)
  · exact h1

/-- Second-order chain rule, mixed direction. -/
theorem mixed_second_coefficient_zero
    {tt g h r0 r1 r2 p q fa fc a b c d t1 t2 GmmT GmnT FuuT FvvT FuvT FxyT hGm hGn Z
      ua ub uc ud : K}
    (ht : tt ≠ 0)
    (hr0 : 2 * r0 * tt = GmmT - FuuT * ua * ua - FvvT * ub * ub - 2 * FuvT * ua * ub)
    (hr1 : 2 * r1 * tt = 0 - FuuT * uc * uc - FvvT * ud * ud - 2 * FuvT * uc * ud)
    (hr2 : r2 * tt = GmnT - FuuT * ua * uc - FvvT * ub * ud - FuvT * (ua * ud + ub * uc))
    (hp : p * g = hGm) (hq : q * h = hGn)
    (hfa : fa * tt = t1 * g) (hfc : fc * tt = t2 * h)
    (hhelper : t1 * hGm + t2 * hGn = FxyT - GmmT * a * c - GmnT * (a * d + b * c) - 0 * Z)
    (hsel : FxyT = FuuT * (ua * a + uc * b) * (ua * c + uc * d)
      + FvvT * (ub * a + ud * b) * (ub * c + ud * d)
      + FuvT * ((ua * a + uc * b) * (ub * c + ud * d) + (ub * a + ud * b) * (ua * c + uc * d))) :
    2 * a * c * r0 + a * d * r2 + b * c * r2 + 2 * b * d * r1 + fa * p + fc * q = 0 := by
  have key : tt * (2 * a * c * r0 + a * d * r2 + b * c * r2 + 2 * b * d * r1 + fa * p + fc * q)
      = 0 := by
    linear_combination (a * d + b * c) * hr2 + a * c * hr0 + b * d * hr1 + p * hfa + q * hfc
      + t1 * hp + t2 * hq + hhelper + hsel
  rcases mul_eq_zero.1 key with h1 | h1
  · exact absurd h1 ht
  · exact h1
/-- Second-order consistency along one tangent direction `T = Gm*t1 + Gn*t2` of the
surface: with the Jacobian of the round trip equal to the identity, the three second Taylor
coefficients of the component of the round trip that `Mapping::set` projects on `T`
vanish. -/
theorem Mapping_set_second_order_along (len : Vec3 K → K) (surface : SurfaceInfo K)
    (G : Nat → Nat → Vec3 K) (m n : K) (T : Vec3 K) (t1 t2 : K)
    (hlm : len (G 1 0) * len (G 1 0) = (G 1 0).dot (G 1 0))
    (hln : len (G 0 1) * len (G 0 1) = (G 0 1).dot (G 0 1))
    (hGm : (G 1 0).dot (G 1 0) ≠ 0) (hGn : (G 0 1).dot (G 0 1) ≠ 0)
    (hGo : (G 1 0).dot (G 0 1) = 0)
    (hGnn1 : (G 0 2).dot (G 1 0) = 0) (hGnn2 : (G 0 2).dot (G 0 1) = 0)
    (hT : T = G 1 0 * t1 + G 0 1 * t2) (hTT : T.dot T ≠ 0)
    (J11 : (Mapping.set_locals Vec3.factorize len surface G).uvA
        * (Mapping.set_locals Vec3.factorize len surface G).A
      + (Mapping.set_locals Vec3.factorize len surface G).uvC
        * (Mapping.set_locals Vec3.factorize len surface G).B = 1)
    (J12 : (Mapping.set_locals Vec3.factorize len surface G).uvA
        * (Mapping.set_locals Vec3.factorize len surface G).C
      + (Mapping.set_locals Vec3.factorize len surface G).uvC
        * (Mapping.set_locals Vec3.factorize len surface G).D = 0)
    (J21 : (Mapping.set_locals Vec3.factorize len surface G).uvB
        * (Mapping.set_locals Vec3.factorize len surface G).A
      + (Mapping.set_locals Vec3.factorize len surface G).uvD
        * (Mapping.set_locals Vec3.factorize len surface G).B = 0)
    (J22 : (Mapping.set_locals Vec3.factorize len surface G).uvB
        * (Mapping.set_locals Vec3.factorize len surface G).C
      + (Mapping.set_locals Vec3.factorize len surface G).uvD
        * (Mapping.set_locals Vec3.factorize len surface G).D = 1) :
    (Mapping.set_locals Vec3.factorize len surface G).A
        * (Mapping.set_locals Vec3.factorize len surface G).B
        * Vec3.factorize (Mapping.set_locals Vec3.factorize len surface G).res3 T false
      + (Mapping.set_locals Vec3.factorize len surface G).A
        * (Mapping.set_locals Vec3.factorize len surface G).A
        * (Vec3.factorize (Mapping.set_locals Vec3.factorize len surface G).res1 T false * 0.5)
      + (Mapping.set_locals Vec3.factorize len surface G).B
        * (Mapping.set_locals Vec3.factorize len surface G).B
        * (Vec3.factorize (Mapping.set_locals Vec3.factorize len surface G).res2 T false * 0.5)
      + Vec3.factorize (G 1 0) T false
        * (Mapping.set Vec3.factorize len surface G m n).mCoefs.c0
      + Vec3.factorize (G 0 1) T false
        * (Mapping.set Vec3.factorize len surface G m n).nCoefs.c0 = 0 ∧
    2 * (Mapping.set_locals Vec3.factorize len surface G).A
        * (Mapping.set_locals Vec3.factorize len surface G).C
        * (Vec3.factorize (Mapping.set_locals Vec3.factorize len surface G).res1 T false * 0.5)
      + (Mapping.set_locals Vec3.factorize len surface G).A
        * (Mapping.set_locals Vec3.factorize len surface G).D
        * Vec3.factorize (Mapping.set_locals Vec3.factorize len surface G).res3 T false
      + (Mapping.set_locals Vec3.factorize len surface G).B
        * (Mapping.set_locals Vec3.factorize len surface G).C
        * Vec3.factorize (Mapping.set_locals Vec3.factorize len surface G).res3 T false
      + 2 * (Mapping.set_locals Vec3.factorize len surface G).B
        * (Mapping.set_locals Vec3.factorize len surface G).D
        * (Vec3.factorize (Mapping.set_locals Vec3.factorize len surface G).res2 T false * 0.5)
      + Vec3.factorize (G 1 0) T false
        * (Mapping.set Vec3.factorize len surface G m n).mCoefs.c2
      + Vec3.factorize (G 0 1) T false
        * (Mapping.set Vec3.factorize len surface G m n).nCoefs.c2 = 0 ∧
    (Mapping.set_locals Vec3.factorize len surface G).C
        * (Mapping.set_locals Vec3.factorize len surface G).D
        * Vec3.factorize (Mapping.set_locals Vec3.factorize len surface G).res3 T false
      + (Mapping.set_locals Vec3.factorize len surface G).C
        * (Mapping.set_locals Vec3.factorize len surface G).C
        * (Vec3.factorize (Mapping.set_locals Vec3.factorize len surface G).res1 T false * 0.5)
      + (Mapping.set_locals Vec3.factorize len surface G).D
        * (Mapping.set_locals Vec3.factorize len surface G).D
        * (Vec3.factorize (Mapping.set_locals Vec3.factorize len surface G).res2 T false * 0.5)
      + Vec3.factorize (G 1 0) T false
        * (Mapping.set Vec3.factorize len surface G m n).mCoefs.c1
      + Vec3.factorize (G 0 1) T false
        * (Mapping.set Vec3.factorize len surface G m n).nCoefs.c1 = 0 := by
  have hH := Mapping_set_helper_dot Vec3.factorize len surface G
  obtain ⟨h1, h2, h3⟩ := Mapping_set_res_dot Vec3.factorize len surface G T
  -- the dot products with `T` split along `Gm` and `Gn`
  have split : ∀ X : Vec3 K, X.dot T = t1 * X.dot (G 1 0) + t2 * X.dot (G 0 1) := by
    intro X
    rw [hT, Vec3_dot_comb]
    ring
  have hGnnT : (G 0 2).dot T = 0 := by
    rw [split, hGnn1, hGnn2]
    ring
  have hGmT : (G 1 0).dot T = t1 * (G 1 0).dot (G 1 0) := by
    rw [split, hGo]
    ring
  have hGnT : (G 0 1).dot T = t2 * (G 0 1).dot (G 0 1) := by
    rw [split, Vec3_dot_comm (G 0 1) (G 1 0), hGo]
    ring
  -- the data of the inverse polynomial
  have hr0 : 2 * (Vec3.factorize (Mapping.set_locals Vec3.factorize len surface G).res1 T false
        * 0.5) * T.dot T
      = (G 2 0).dot T
        - surface.Fuu.dot T * (Mapping.set_locals Vec3.factorize len surface G).uvA
          * (Mapping.set_locals Vec3.factorize len surface G).uvA
        - surface.Fvv.dot T * (Mapping.set_locals Vec3.factorize len surface G).uvB
          * (Mapping.set_locals Vec3.factorize len surface G).uvB
        - 2 * surface.Fuv.dot T * (Mapping.set_locals Vec3.factorize len surface G).uvA
          * (Mapping.set_locals Vec3.factorize len surface G).uvB := by
    rw [← h1]
    simp only [Vec3.factorize, Bool.false_eq_true, if_false]
    field_simp
    ring
  have hr1 : 2 * (Vec3.factorize (Mapping.set_locals Vec3.factorize len surface G).res2 T false
        * 0.5) * T.dot T
      = (G 0 2).dot T
        - surface.Fuu.dot T * (Mapping.set_locals Vec3.factorize len surface G).uvC
          * (Mapping.set_locals Vec3.factorize len surface G).uvC
        - surface.Fvv.dot T * (Mapping.set_locals Vec3.factorize len surface G).uvD
          * (Mapping.set_locals Vec3.factorize len surface G).uvD
        - 2 * surface.Fuv.dot T * (Mapping.set_locals Vec3.factorize len surface G).uvC
          * (Mapping.set_locals Vec3.factorize len surface G).uvD := by
    rw [← h2]
    simp only [Vec3.factorize, Bool.false_eq_true, if_false]
    field_simp
    ring
  have hr2 : Vec3.factorize (Mapping.set_locals Vec3.factorize len surface G).res3 T false
        * T.dot T
      = (G 1 1).dot T
        - surface.Fuu.dot T * (Mapping.set_locals Vec3.factorize len surface G).uvA
          * (Mapping.set_locals Vec3.factorize len surface G).uvC
        - surface.Fvv.dot T * (Mapping.set_locals Vec3.factorize len surface G).uvB
          * (Mapping.set_locals Vec3.factorize len surface G).uvD
        - surface.Fuv.dot T * ((Mapping.set_locals Vec3.factorize len surface G).uvA
            * (Mapping.set_locals Vec3.factorize len surface G).uvD
          + (Mapping.set_locals Vec3.factorize len surface G).uvB
            * (Mapping.set_locals Vec3.factorize len surface G).uvC) := by
    rw [← h3]
    simp only [Vec3.factorize, Bool.false_eq_true, if_false]
    field_simp
  have hfa : Vec3.factorize (G 1 0) T false * T.dot T = t1 * (G 1 0).dot (G 1 0) := by
    rw [← hGmT]
    simp only [Vec3.factorize, Bool.false_eq_true, if_false]
    field_simp
  have hfc : Vec3.factorize (G 0 1) T false * T.dot T = t2 * (G 0 1).dot (G 0 1) := by
    rw [← hGnT]
    simp only [Vec3.factorize, Bool.false_eq_true, if_false]
    field_simp
  -- the data of the forward polynomials
  have hlen : (Mapping.set_locals Vec3.factorize len surface G).Gm_len2 = (G 1 0).dot (G 1 0) ∧
      (Mapping.set_locals Vec3.factorize len surface G).Gn_len2 = (G 0 1).dot (G 0 1) :=
    ⟨hlm, hln⟩
  have hp0 : 2 * (Mapping.set Vec3.factorize len surface G m n).mCoefs.c0 * (G 1 0).dot (G 1 0)
      = (Mapping.set_locals Vec3.factorize len surface G).helperA.dot (G 1 0) := by
    show 2 * (Vec3.factorize (Mapping.set_locals Vec3.factorize len surface G).helperA (G 1 0)
      true * 0.5 / (Mapping.set_locals Vec3.factorize len surface G).Gm_len2)
      * (G 1 0).dot (G 1 0) = _
    rw [hlen.1]
    simp only [Vec3.factorize, if_true]
    field_simp
    ring
  have hq0 : 2 * (Mapping.set Vec3.factorize len surface G m n).nCoefs.c0 * (G 0 1).dot (G 0 1)
      = (Mapping.set_locals Vec3.factorize len surface G).helperA.dot (G 0 1) := by
    show 2 * (Vec3.factorize (Mapping.set_locals Vec3.factorize len surface G).helperA (G 0 1)
      true * 0.5 / (Mapping.set_locals Vec3.factorize len surface G).Gn_len2)
      * (G 0 1).dot (G 0 1) = _
    rw [hlen.2]
    simp only [Vec3.factorize, if_true]
    field_simp
    ring
  have hp1 : 2 * (Mapping.set Vec3.factorize len surface G m n).mCoefs.c1 * (G 1 0).dot (G 1 0)
      = (Mapping.set_locals Vec3.factorize len surface G).helperB.dot (G 1 0) := by
    show 2 * (Vec3.factorize (Mapping.set_locals Vec3.factorize len surface G).helperB (G 1 0)
      true * 0.5 / (Mapping.set_locals Vec3.factorize len surface G).Gm_len2)
      * (G 1 0).dot (G 1 0) = _
    rw [hlen.1]
    simp only [Vec3.factorize, if_true]
    field_simp
    ring
  have hq1 : 2 * (Mapping.set Vec3.factorize len surface G m n).nCoefs.c1 * (G 0 1).dot (G 0 1)
      = (Mapping.set_locals Vec3.factorize len surface G).helperB.dot (G 0 1) := by
    show 2 * (Vec3.factorize (Mapping.set_locals Vec3.factorize len surface G).helperB (G 0 1)
      true * 0.5 / (Mapping.set_locals Vec3.factorize len surface G).Gn_len2)
      * (G 0 1).dot (G 0 1) = _
    rw [hlen.2]
    simp only [Vec3.factorize, if_true]
    field_simp
    ring
  have hp2 : (Mapping.set Vec3.factorize len surface G m n).mCoefs.c2 * (G 1 0).dot (G 1 0)
      = (Mapping.set_locals Vec3.factorize len surface G).helperC.dot (G 1 0) := by
    show (Vec3.factorize (Mapping.set_locals Vec3.factorize len surface G).helperC (G 1 0)
      true / (Mapping.set_locals Vec3.factorize len surface G).Gm_len2)
      * (G 1 0).dot (G 1 0) = _
    rw [hlen.1]
    simp only [Vec3.factorize, if_true]
    field_simp
  have hq2 : (Mapping.set Vec3.factorize len surface G m n).nCoefs.c2 * (G 0 1).dot (G 0 1)
      = (Mapping.set_locals Vec3.factorize len surface G).helperC.dot (G 0 1) := by
    show (Vec3.factorize (Mapping.set_locals Vec3.factorize len surface G).helperC (G 0 1)
      true / (Mapping.set_locals Vec3.factorize len surface G).Gn_len2)
      * (G 0 1).dot (G 0 1) = _
    rw [hlen.2]
    simp only [Vec3.factorize, if_true]
    field_simp
  have hhA : t1 * (Mapping.set_locals Vec3.factorize len surface G).helperA.dot (G 1 0)
      + t2 * (Mapping.set_locals Vec3.factorize len surface G).helperA.dot (G 0 1)
      = surface.Fuu.dot T
        - (G 2 0).dot T * (Mapping.set_locals Vec3.factorize len surface G).A
          * (Mapping.set_locals Vec3.factorize len surface G).A
        - 2 * (G 1 1).dot T * (Mapping.set_locals Vec3.factorize len surface G).A
          * (Mapping.set_locals Vec3.factorize len surface G).B
        - (G 0 2).dot T * (Mapping.set_locals Vec3.factorize len surface G).B
          * (Mapping.set_locals Vec3.factorize len surface G).B := by
    rw [← split, (hH T).1]
  have hhB : t1 * (Mapping.set_locals Vec3.factorize len surface G).helperB.dot (G 1 0)
      + t2 * (Mapping.set_locals Vec3.factorize len surface G).helperB.dot (G 0 1)
      = surface.Fvv.dot T
        - (G 2 0).dot T * (Mapping.set_locals Vec3.factorize len surface G).C
          * (Mapping.set_locals Vec3.factorize len surface G).C
        - 2 * (G 1 1).dot T * (Mapping.set_locals Vec3.factorize len surface G).C
          * (Mapping.set_locals Vec3.factorize len surface G).D
        - (G 0 2).dot T * (Mapping.set_locals Vec3.factorize len surface G).D
          * (Mapping.set_locals Vec3.factorize len surface G).D := by
    rw [← split, (hH T).2.1]
  have hhC : t1 * (Mapping.set_locals Vec3.factorize len surface G).helperC.dot (G 1 0)
      + t2 * (Mapping.set_locals Vec3.factorize len surface G).helperC.dot (G 0 1)
      = surface.Fuv.dot T
        - (G 2 0).dot T * (Mapping.set_locals Vec3.factorize len surface G).A
          * (Mapping.set_locals Vec3.factorize len surface G).C
        - (G 1 1).dot T * ((Mapping.set_locals Vec3.factorize len surface G).A
            * (Mapping.set_locals Vec3.factorize len surface G).D
          + (Mapping.set_locals Vec3.factorize len surface G).B
            * (Mapping.set_locals Vec3.factorize len surface G).C)
        - 0 * ((Mapping.set_locals Vec3.factorize len surface G).C
          * (Mapping.set_locals Vec3.factorize len surface G).D) := by
    rw [← split, (hH T).2.2, hGnnT]
    ring
  have hr1z := hr1
  rw [hGnnT] at hr1z
  refine ⟨?_, ?_, ?_⟩
  · refine pure_second_coefficient_zero hTT hr0 hr1 hr2 hp0 hq0 hfa hfc hhA ?_
    rw [J11, J21]
    ring
  · refine mixed_second_coefficient_zero hTT hr0 hr1z hr2 hp2 hq2 hfa hfc hhC ?_
    rw [J11, J21, J12, J22]
    ring
  · refine pure_second_coefficient_zero hTT hr0 hr1 hr2 hp1 hq1 hfa hfc hhB ?_
    rw [J12, J22]
    ring

/-- The first-order data of `Mapping::set` for a sample whose tangent vectors are
`Fu = Gm*al + Gn*be`, `Fv = Gm*ga + Gn*de` with `Gm`, `Gn` orthogonal and `Fu`, `Fv`
orthogonal: `A .. D` are the four components and the Jacobian of the round trip is the
identity. -/
theorem Mapping_set_tangent_data (len : Vec3 K → K) (surface : SurfaceInfo K)
    (G : Nat → Nat → Vec3 K) (al be ga de : K)
    (hlm : len (G 1 0) * len (G 1 0) = (G 1 0).dot (G 1 0))
    (hln : len (G 0 1) * len (G 0 1) = (G 0 1).dot (G 0 1))
    (hGm : (G 1 0).dot (G 1 0) ≠ 0) (hGn : (G 0 1).dot (G 0 1) ≠ 0)
    (hGo : (G 1 0).dot (G 0 1) = 0)
    (hFu : surface.Fu = G 1 0 * al + G 0 1 * be)
    (hFv : surface.Fv = G 1 0 * ga + G 0 1 * de)
    (hFo : surface.Fu.dot surface.Fv = 0)
    (hFu0 : surface.Fu.dot surface.Fu ≠ 0) (hFv0 : surface.Fv.dot surface.Fv ≠ 0) :
    (Mapping.set_locals Vec3.factorize len surface G).A = al ∧
    (Mapping.set_locals Vec3.factorize len surface G).B = be ∧
    (Mapping.set_locals Vec3.factorize len surface G).C = ga ∧
    (Mapping.set_locals Vec3.factorize len surface G).D = de ∧
    (Mapping.set_locals Vec3.factorize len surface G).uvA
        * (Mapping.set_locals Vec3.factorize len surface G).A
      + (Mapping.set_locals Vec3.factorize len surface G).uvC
        * (Mapping.set_locals Vec3.factorize len surface G).B = 1 ∧
    (Mapping.set_locals Vec3.factorize len surface G).uvA
        * (Mapping.set_locals Vec3.factorize len surface G).C
      + (Mapping.set_locals Vec3.factorize len surface G).uvC
        * (Mapping.set_locals Vec3.factorize len surface G).D = 0 ∧
    (Mapping.set_locals Vec3.factorize len surface G).uvB
        * (Mapping.set_locals Vec3.factorize len surface G).A
      + (Mapping.set_locals Vec3.factorize len surface G).uvD
        * (Mapping.set_locals Vec3.factorize len surface G).B = 0 ∧
    (Mapping.set_locals Vec3.factorize len surface G).uvB
        * (Mapping.set_locals Vec3.factorize len surface G).C
      + (Mapping.set_locals Vec3.factorize len surface G).uvD
        * (Mapping.set_locals Vec3.factorize len surface G).D = 1 := by
  have comb : ∀ (X : Vec3 K) (s t : K), X.dot (G 1 0 * s + G 0 1 * t)
      = s * X.dot (G 1 0) + t * X.dot (G 0 1) := by
    intro X s t
    rw [Vec3_dot_comb]
    ring
  have hGo2 : (G 0 1).dot (G 1 0) = 0 := by rw [Vec3_dot_comm, hGo]
  have FuGm : surface.Fu.dot (G 1 0) = al * (G 1 0).dot (G 1 0) := by
    rw [Vec3_dot_comm, hFu, comb, hGo]
    ring
  have FuGn : surface.Fu.dot (G 0 1) = be * (G 0 1).dot (G 0 1) := by
    rw [Vec3_dot_comm, hFu, comb, hGo2]
    ring
  have FvGm : surface.Fv.dot (G 1 0) = ga * (G 1 0).dot (G 1 0) := by
    rw [Vec3_dot_comm, hFv, comb, hGo]
    ring
  have FvGn : surface.Fv.dot (G 0 1) = de * (G 0 1).dot (G 0 1) := by
    rw [Vec3_dot_comm, hFv, comb, hGo2]
    ring
  have he : surface.Fu.dot surface.Fu
      = al * (al * (G 1 0).dot (G 1 0)) + be * (be * (G 0 1).dot (G 0 1)) := by
    have h0 : surface.Fu.dot surface.Fu = surface.Fu.dot (G 1 0 * al + G 0 1 * be) := by
      rw [← hFu]
    rw [h0, comb, FuGm, FuGn]
  have hf : surface.Fv.dot surface.Fv
      = ga * (ga * (G 1 0).dot (G 1 0)) + de * (de * (G 0 1).dot (G 0 1)) := by
    have h0 : surface.Fv.dot surface.Fv = surface.Fv.dot (G 1 0 * ga + G 0 1 * de) := by
      rw [← hFv]
    rw [h0, comb, FvGm, FvGn]
  have ho : ga * (al * (G 1 0).dot (G 1 0)) + de * (be * (G 0 1).dot (G 0 1)) = 0 := by
    have h0 : surface.Fu.dot surface.Fv = surface.Fu.dot (G 1 0 * ga + G 0 1 * de) := by
      rw [← hFv]
    rw [← hFo, h0, comb, FuGm, FuGn]
  have hA : (Mapping.set_locals Vec3.factorize len surface G).A = al := by
    show Vec3.factorize surface.Fu (G 1 0) true / (len (G 1 0) * len (G 1 0)) = al
    rw [hlm]
    simp only [Vec3.factorize, if_true]
    rw [FuGm]
    field_simp
  have hB : (Mapping.set_locals Vec3.factorize len surface G).B = be := by
    show Vec3.factorize surface.Fu (G 0 1) true / (len (G 0 1) * len (G 0 1)) = be
    rw [hln]
    simp only [Vec3.factorize, if_true]
    rw [FuGn]
    field_simp
  have hC : (Mapping.set_locals Vec3.factorize len surface G).C = ga := by
    show Vec3.factorize surface.Fv (G 1 0) true / (len (G 1 0) * len (G 1 0)) = ga
    rw [hlm]
    simp only [Vec3.factorize, if_true]
    rw [FvGm]
    field_simp
  have hD : (Mapping.set_locals Vec3.factorize len surface G).D = de := by
    show Vec3.factorize surface.Fv (G 0 1) true / (len (G 0 1) * len (G 0 1)) = de
    rw [hln]
    simp only [Vec3.factorize, if_true]
    rw [FvGn]
    field_simp
  have huvA : (Mapping.set_locals Vec3.factorize len surface G).uvA
      = al * (G 1 0).dot (G 1 0) / surface.Fu.dot surface.Fu := by
    show Vec3.factorize (G 1 0) surface.Fu false = _
    simp only [Vec3.factorize, Bool.false_eq_true, if_false]
    rw [Vec3_dot_comm, FuGm]
  have huvB : (Mapping.set_locals Vec3.factorize len surface G).uvB
      = ga * (G 1 0).dot (G 1 0) / surface.Fv.dot surface.Fv := by
    show Vec3.factorize (G 1 0) surface.Fv false = _
    simp only [Vec3.factorize, Bool.false_eq_true, if_false]
    rw [Vec3_dot_comm, FvGm]
  have huvC : (Mapping.set_locals Vec3.factorize len surface G).uvC
      = be * (G 0 1).dot (G 0 1) / surface.Fu.dot surface.Fu := by
    show Vec3.factorize (G 0 1) surface.Fu false = _
    simp only [Vec3.factorize, Bool.false_eq_true, if_false]
    rw [Vec3_dot_comm, FuGn]
  have huvD : (Mapping.set_locals Vec3.factorize len surface G).uvD
      = de * (G 0 1).dot (G 0 1) / surface.Fv.dot surface.Fv := by
    show Vec3.factorize (G 0 1) surface.Fv false = _
    simp only [Vec3.factorize, Bool.false_eq_true, if_false]
    rw [Vec3_dot_comm, FvGn]
  refine ⟨hA, hB, hC, hD, ?_, ?_, ?_, ?_⟩
  · rw [huvA, huvC, hA, hB]
    field_simp
    rw [he]
    ring
  · rw [huvA, huvC, hC, hD]
    field_simp
    linear_combination ho
  · rw [huvB, huvD, hA, hB]
    field_simp
    linear_combination ho
  · rw [huvB, huvD, hC, hD]
    field_simp
    rw [hf]
    ring

/-- A monomial of degree three or four in two numbers of absolute value at most `1` is at
most the cube of the sum of the absolute values. -/
theorem monomial_le_cube (a b : K) (ha : 0 ≤ a) (hb : 0 ≤ b) (ha1 : a ≤ 1) (hb1 : b ≤ 1) :
    a * a * a ≤ (a + b) ^ 3 ∧ a * a * b ≤ (a + b) ^ 3 ∧ a * b * b ≤ (a + b) ^ 3 ∧
    b * b * b ≤ (a + b) ^ 3 ∧ a * a * a * a ≤ (a + b) ^ 3 ∧ a * a * a * b ≤ (a + b) ^ 3 ∧
    a * a * b * b ≤ (a + b) ^ 3 ∧ a * b * b * b ≤ (a + b) ^ 3 ∧
    b * b * b * b ≤ (a + b) ^ 3 := by
  have e : (a + b) ^ 3 = a * a * a + 3 * (a * a * b) + 3 * (a * b * b) + b * b * b := by ring
  have p1 : 0 ≤ a * a * a := by positivity
  have p2 : 0 ≤ a * a * b := by positivity
  have p3 : 0 ≤ a * b * b := by positivity
  have p4 : 0 ≤ b * b * b := by positivity
  have q1 : a * a * a * a ≤ a * a * a := by
    have := mul_le_mul_of_nonneg_left ha1 p1
    linarith
  have q2 : a * a * a * b ≤ a * a * b := by
    have := mul_le_mul_of_nonneg_left ha1 p2
    linarith
  have q3 : a * a * b * b ≤ a * a * b := by
    have := mul_le_mul_of_nonneg_left hb1 p2
    linarith
  have q4 : a * b * b * b ≤ a * b * b := by
    have := mul_le_mul_of_nonneg_left hb1 p3
    linarith
  have q5 : b * b * b * b ≤ b * b * b := by
    have := mul_le_mul_of_nonneg_left hb1 p4
    linarith
  rw [e]
  refine ⟨?_, ?_, ?_, ?_, ?_, ?_, ?_, ?_, ?_⟩ <;> linarith

/-- The remainder of the composition is of third order: for `|s| <= 1` and `|t| <= 1` it
is at most `composeRemainderBound * (|s| + |t|)^3` in absolute value. -/
theorem composeRemainder_abs_le (f gx gy : Coefs K) (x0 y0 s t : K)
    (hs : |s| ≤ 1) (ht : |t| ≤ 1) :
    |composeRemainder f gx gy x0 y0 s t|
      ≤ composeRemainderBound f gx gy x0 y0 * (|s| + |t|) ^ 3 := by
  obtain ⟨m1, m2, m3, m4, m5, m6, m7, m8, m9⟩ :=
    monomial_le_cube |s| |t| (abs_nonneg s) (abs_nonneg t) hs ht
  have term : ∀ c x P : K, |x| ≤ P → |c * x| ≤ |c| * P := by
    intro c x P hx
    rw [abs_mul]
    exact mul_le_mul_of_nonneg_left hx (abs_nonneg c)
  have t1 := term (composeCoef f gx gy x0 y0 3 0) (s * s * s) _ (by simpa [abs_mul] using m1)
  have t2 := term (composeCoef f gx gy x0 y0 2 1) (s * s * t) _ (by simpa [abs_mul] using m2)
  have t3 := term (composeCoef f gx gy x0 y0 1 2) (s * t * t) _ (by simpa [abs_mul] using m3)
  have t4 := term (composeCoef f gx gy x0 y0 0 3) (t * t * t) _ (by simpa [abs_mul] using m4)
  have t5 := term (composeCoef f gx gy x0 y0 4 0) (s * s * s * s) _
    (by simpa [abs_mul] using m5)
  have t6 := term (composeCoef f gx gy x0 y0 3 1) (s * s * s * t) _
    (by simpa [abs_mul] using m6)
  have t7 := term (composeCoef f gx gy x0 y0 2 2) (s * s * t * t) _
    (by simpa [abs_mul] using m7)
  have t8 := term (composeCoef f gx gy x0 y0 1 3) (s * t * t * t) _
    (by simpa [abs_mul] using m8)
  have t9 := term (composeCoef f gx gy x0 y0 0 4) (t * t * t * t) _
    (by simpa [abs_mul] using m9)
  rw [abs_le] at t1 t2 t3 t4 t5 t6 t7 t8 t9
  have e : composeRemainderBound f gx gy x0 y0 * (|s| + |t|) ^ 3
      = |composeCoef f gx gy x0 y0 3 0| * (|s| + |t|) ^ 3
        + |composeCoef f gx gy x0 y0 2 1| * (|s| + |t|) ^ 3
        + |composeCoef f gx gy x0 y0 1 2| * (|s| + |t|) ^ 3
        + |composeCoef f gx gy x0 y0 0 3| * (|s| + |t|) ^ 3
        + |composeCoef f gx gy x0 y0 4 0| * (|s| + |t|) ^ 3
        + |composeCoef f gx gy x0 y0 3 1| * (|s| + |t|) ^ 3
        + |composeCoef f gx gy x0 y0 2 2| * (|s| + |t|) ^ 3
        + |composeCoef f gx gy x0 y0 1 3| * (|s| + |t|) ^ 3
        + |composeCoef f gx gy x0 y0 0 4| * (|s| + |t|) ^ 3 := by
    simp only [composeRemainderBound]
    ring
  have r : composeRemainder f gx gy x0 y0 s t
      = composeCoef f gx gy x0 y0 3 0 * (s * s * s)
        + composeCoef f gx gy x0 y0 2 1 * (s * s * t)
        + composeCoef f gx gy x0 y0 1 2 * (s * t * t)
        + composeCoef f gx gy x0 y0 0 3 * (t * t * t)
        + composeCoef f gx gy x0 y0 4 0 * (s * s * s * s)
        + composeCoef f gx gy x0 y0 3 1 * (s * s * s * t)
        + composeCoef f gx gy x0 y0 2 2 * (s * s * t * t)
        + composeCoef f gx gy x0 y0 1 3 * (s * t * t * t)
        + composeCoef f gx gy x0 y0 0 4 * (t * t * t * t) := by
    simp only [composeRemainder]
    ring
  rw [e, r, abs_le]
  constructor <;> linarith [t1.1, t1.2, t2.1, t2.2, t3.1, t3.2, t4.1, t4.2, t5.1, t5.2,
    t6.1, t6.2, t7.1, t7.2, t8.1, t8.2, t9.1, t9.2]

/-- C11 as amended.  Second-order consistency of the two mappings for orthogonal tangent
vectors.  Let `Gm`, `Gn` be orthogonal and non-zero with `len^2` their squared length and
`Gnn` orthogonal to both (as on a torus), and let the sample have `Fu = Gm*al + Gn*be`,
`Fv = Gm*ga + Gn*de` non-zero and orthogonal to each other.  Then the composition
`calUV` after `calMN` built by `Mapping::set` agrees with the identity to second order at
the anchor `(u0, v0)`: its value there is `(u0, v0)`, its Jacobian is the identity matrix
and its second Taylor coefficients vanish; the round-trip error at `(u0 + s, v0 + t)` is
the remainder of order three and four, at most `composeRemainderBound * (|s| + |t|)^3` in
absolute value for `|s|, |t| <= 1`. -/
theorem Mapping_set_second_order (len : Vec3 K → K) (surface : SurfaceInfo K)
    (G : Nat → Nat → Vec3 K) (m n al be ga de : K)
    (hlm : len (G 1 0) * len (G 1 0) = (G 1 0).dot (G 1 0))
    (hln : len (G 0 1) * len (G 0 1) = (G 0 1).dot (G 0 1))
    (hGm : (G 1 0).dot (G 1 0) ≠ 0) (hGn : (G 0 1).dot (G 0 1) ≠ 0)
    (hGo : (G 1 0).dot (G 0 1) = 0)
    (hGnn1 : (G 0 2).dot (G 1 0) = 0) (hGnn2 : (G 0 2).dot (G 0 1) = 0)
    (hFu : surface.Fu = G 1 0 * al + G 0 1 * be)
    (hFv : surface.Fv = G 1 0 * ga + G 0 1 * de)
    (hFo : surface.Fu.dot surface.Fv = 0)
    (hFu0 : surface.Fu.dot surface.Fu ≠ 0) (hFv0 : surface.Fv.dot surface.Fv ≠ 0) :
    (composeCoef (Mapping.set Vec3.factorize len surface G m n).uCoefs
        (Mapping.set Vec3.factorize len surface G m n).mCoefs
        (Mapping.set Vec3.factorize len surface G m n).nCoefs surface.u surface.v 0 0
        = surface.u ∧
      composeCoef (Mapping.set Vec3.factorize len surface G m n).vCoefs
        (Mapping.set Vec3.factorize len surface G m n).mCoefs
        (Mapping.set Vec3.factorize len surface G m n).nCoefs surface.u surface.v 0 0
        = surface.v) ∧
    (composeCoef (Mapping.set Vec3.factorize len surface G m n).uCoefs
        (Mapping.set Vec3.factorize len surface G m n).mCoefs
        (Mapping.set Vec3.factorize len surface G m n).nCoefs surface.u surface.v 1 0 = 1 ∧
      composeCoef (Mapping.set Vec3.factorize len surface G m n).uCoefs
        (Mapping.set Vec3.factorize len surface G m n).mCoefs
        (Mapping.set Vec3.factorize len surface G m n).nCoefs surface.u surface.v 0 1 = 0 ∧
      composeCoef (Mapping.set Vec3.factorize len surface G m n).vCoefs
        (Mapping.set Vec3.factorize len surface G m n).mCoefs
        (Mapping.set Vec3.factorize len surface G m n).nCoefs surface.u surface.v 1 0 = 0 ∧
      composeCoef (Mapping.set Vec3.factorize len surface G m n).vCoefs
        (Mapping.set Vec3.factorize len surface G m n).mCoefs
        (Mapping.set Vec3.factorize len surface G m n).nCoefs surface.u surface.v 0 1 = 1) ∧
    (composeCoef (Mapping.set Vec3.factorize len surface G m n).uCoefs
        (Mapping.set Vec3.factorize len surface G m n).mCoefs
        (Mapping.set Vec3.factorize len surface G m n).nCoefs surface.u surface.v 2 0 = 0 ∧
      composeCoef (Mapping.set Vec3.factorize len surface G m n).uCoefs
        (Mapping.set Vec3.factorize len surface G m n).mCoefs
        (Mapping.set Vec3.factorize len surface G m n).nCoefs surface.u surface.v 1 1 = 0 ∧
      composeCoef (Mapping.set Vec3.factorize len surface G m n).uCoefs
        (Mapping.set Vec3.factorize len surface G m n).mCoefs
        (Mapping.set Vec3.factorize len surface G m n).nCoefs surface.u surface.v 0 2 = 0 ∧
      composeCoef (Mapping.set Vec3.factorize len surface G m n).vCoefs
        (Mapping.set Vec3.factorize len surface G m n).mCoefs
        (Mapping.set Vec3.factorize len surface G m n).nCoefs surface.u surface.v 2 0 = 0 ∧
      composeCoef (Mapping.set Vec3.factorize len surface G m n).vCoefs
        (Mapping.set Vec3.factorize len surface G m n).mCoefs
        (Mapping.set Vec3.factorize len surface G m n).nCoefs surface.u surface.v 1 1 = 0 ∧
      composeCoef (Mapping.set Vec3.factorize len surface G m n).vCoefs
        (Mapping.set Vec3.factorize len surface G m n).mCoefs
        (Mapping.set Vec3.factorize len surface G m n).nCoefs surface.u surface.v 0 2 = 0) ∧
    (∀ s t : K,
      ((Mapping.set Vec3.factorize len surface G m n).calUV
          ((Mapping.set Vec3.factorize len surface G m n).calMN (surface.u + s)
            (surface.v + t)).1
          ((Mapping.set Vec3.factorize len surface G m n).calMN (surface.u + s)
            (surface.v + t)).2).1 - (surface.u + s)
        = composeRemainder (Mapping.set Vec3.factorize len surface G m n).uCoefs
            (Mapping.set Vec3.factorize len surface G m n).mCoefs
            (Mapping.set Vec3.factorize len surface G m n).nCoefs surface.u surface.v s t ∧
      ((Mapping.set Vec3.factorize len surface G m n).calUV
          ((Mapping.set Vec3.factorize len surface G m n).calMN (surface.u + s)
            (surface.v + t)).1
          ((Mapping.set Vec3.factorize len surface G m n).calMN (surface.u + s)
            (surface.v + t)).2).2 - (surface.v + t)
        = composeRemainder (Mapping.set Vec3.factorize len surface G m n).vCoefs
            (Mapping.set Vec3.factorize len surface G m n).mCoefs
            (Mapping.set Vec3.factorize len surface G m n).nCoefs surface.u surface.v s t) ∧
    (∀ s t : K, |s| ≤ 1 → |t| ≤ 1 →
      |((Mapping.set Vec3.factorize len surface G m n).calUV
          ((Mapping.set Vec3.factorize len surface G m n).calMN (surface.u + s)
            (surface.v + t)).1
          ((Mapping.set Vec3.factorize len surface G m n).calMN (surface.u + s)
            (surface.v + t)).2).1 - (surface.u + s)|
        ≤ composeRemainderBound (Mapping.set Vec3.factorize len surface G m n).uCoefs
            (Mapping.set Vec3.factorize len surface G m n).mCoefs
            (Mapping.set Vec3.factorize len surface G m n).nCoefs surface.u surface.v
          * (|s| + |t|) ^ 3 ∧
      |((Mapping.set Vec3.factorize len surface G m n).calUV
          ((Mapping.set Vec3.factorize len surface G m n).calMN (surface.u + s)
            (surface.v + t)).1
          ((Mapping.set Vec3.factorize len surface G m n).calMN (surface.u + s)
            (surface.v + t)).2).2 - (surface.v + t)|
        ≤ composeRemainderBound (Mapping.set Vec3.factorize len surface G m n).vCoefs
            (Mapping.set Vec3.factorize len surface G m n).mCoefs
            (Mapping.set Vec3.factorize len surface G m n).nCoefs surface.u surface.v
          * (|s| + |t|) ^ 3) := by
  obtain ⟨-, -, -, -, J11, J12, J21, J22⟩ := Mapping_set_tangent_data len surface G al be ga de
    hlm hln hGm hGn hGo hFu hFv hFo hFu0 hFv0
  obtain ⟨d1, d2, d3, d4, d5, d6, d7, d8⟩ :=
    Mapping_set_first_derivatives Vec3.factorize len surface G m n
  obtain ⟨a1, a2, a3, a4⟩ := Mapping_set_anchor_values Vec3.factorize len surface G m n
  obtain ⟨su1, su2, su3⟩ := Mapping_set_second_order_along len surface G m n surface.Fu al be
    hlm hln hGm hGn hGo hGnn1 hGnn2 hFu hFu0 J11 J12 J21 J22
  obtain ⟨sv1, sv2, sv3⟩ := Mapping_set_second_order_along len surface G m n surface.Fv ga de
    hlm hln hGm hGn hGo hGnn1 hGnn2 hFv hFv0 J11 J12 J21 J22
  have v00u : composeCoef (Mapping.set Vec3.factorize len surface G m n).uCoefs
      (Mapping.set Vec3.factorize len surface G m n).mCoefs
      (Mapping.set Vec3.factorize len surface G m n).nCoefs surface.u surface.v 0 0
      = surface.u := by
    simp only [composeCoef, a1, a2, a3]
  have v00v : composeCoef (Mapping.set Vec3.factorize len surface G m n).vCoefs
      (Mapping.set Vec3.factorize len surface G m n).mCoefs
      (Mapping.set Vec3.factorize len surface G m n).nCoefs surface.u surface.v 0 0
      = surface.v := by
    simp only [composeCoef, a1, a2, a4]
  have j10u : composeCoef (Mapping.set Vec3.factorize len surface G m n).uCoefs
      (Mapping.set Vec3.factorize len surface G m n).mCoefs
      (Mapping.set Vec3.factorize len surface G m n).nCoefs surface.u surface.v 1 0 = 1 := by
    simp only [composeCoef, a1, a2, d1, d2, d5, d7]
    linear_combination J11
  have j01u : composeCoef (Mapping.set Vec3.factorize len surface G m n).uCoefs
      (Mapping.set Vec3.factorize len surface G m n).mCoefs
      (Mapping.set Vec3.factorize len surface G m n).nCoefs surface.u surface.v 0 1 = 0 := by
    simp only [composeCoef, a1, a2, d3, d4, d5, d7]
    linear_combination J12
  have j10v : composeCoef (Mapping.set Vec3.factorize len surface G m n).vCoefs
      (Mapping.set Vec3.factorize len surface G m n).mCoefs
      (Mapping.set Vec3.factorize len surface G m n).nCoefs surface.u surface.v 1 0 = 0 := by
    simp only [composeCoef, a1, a2, d1, d2, d6, d8]
    linear_combination J21
  have j01v : composeCoef (Mapping.set Vec3.factorize len surface G m n).vCoefs
      (Mapping.set Vec3.factorize len surface G m n).mCoefs
      (Mapping.set Vec3.factorize len surface G m n).nCoefs surface.u surface.v 0 1 = 1 := by
    simp only [composeCoef, a1, a2, d3, d4, d6, d8]
    linear_combination J22
  have h20u : composeCoef (Mapping.set Vec3.factorize len surface G m n).uCoefs
      (Mapping.set Vec3.factorize len surface G m n).mCoefs
      (Mapping.set Vec3.factorize len surface G m n).nCoefs surface.u surface.v 2 0 = 0 := by
    simp only [composeCoef, a1, a2, d1, d2, d5, d7]
    exact su1
  have h11u : composeCoef (Mapping.set Vec3.factorize len surface G m n).uCoefs
      (Mapping.set Vec3.factorize len surface G m n).mCoefs
      (Mapping.set Vec3.factorize len surface G m n).nCoefs surface.u surface.v 1 1 = 0 := by
    simp only [composeCoef, a1, a2, d1, d2, d3, d4, d5, d7]
    exact su2
  have h02u : composeCoef (Mapping.set Vec3.factorize len surface G m n).uCoefs
      (Mapping.set Vec3.factorize len surface G m n).mCoefs
      (Mapping.set Vec3.factorize len surface G m n).nCoefs surface.u surface.v 0 2 = 0 := by
    simp only [composeCoef, a1, a2, d3, d4, d5, d7]
    exact su3
  have h20v : composeCoef (Mapping.set Vec3.factorize len surface G m n).vCoefs
      (Mapping.set Vec3.factorize len surface G m n).mCoefs
      (Mapping.set Vec3.factorize len surface G m n).nCoefs surface.u surface.v 2 0 = 0 := by
    simp only [composeCoef, a1, a2, d1, d2, d6, d8]
    exact sv1
  have h11v : composeCoef (Mapping.set Vec3.factorize len surface G m n).vCoefs
      (Mapping.set Vec3.factorize len surface G m n).mCoefs
      (Mapping.set Vec3.factorize len surface G m n).nCoefs surface.u surface.v 1 1 = 0 := by
    simp only [composeCoef, a1, a2, d1, d2, d3, d4, d6, d8]
    exact sv2
  have h02v : composeCoef (Mapping.set Vec3.factorize len surface G m n).vCoefs
      (Mapping.set Vec3.factorize len surface G m n).mCoefs
      (Mapping.set Vec3.factorize len surface G m n).nCoefs surface.u surface.v 0 2 = 0 := by
    simp only [composeCoef, a1, a2, d3, d4, d6, d8]
    exact sv3
  have err : ∀ s t : K,
      ((Mapping.set Vec3.factorize len surface G m n).calUV
          ((Mapping.set Vec3.factorize len surface G m n).calMN (surface.u + s)
            (surface.v + t)).1
          ((Mapping.set Vec3.factorize len surface G m n).calMN (surface.u + s)
            (surface.v + t)).2).1 - (surface.u + s)
        = composeRemainder (Mapping.set Vec3.factorize len surface G m n).uCoefs
            (Mapping.set Vec3.factorize len surface G m n).mCoefs
            (Mapping.set Vec3.factorize len surface G m n).nCoefs surface.u surface.v s t ∧
      ((Mapping.set Vec3.factorize len surface G m n).calUV
          ((Mapping.set Vec3.factorize len surface G m n).calMN (surface.u + s)
            (surface.v + t)).1
          ((Mapping.set Vec3.factorize len surface G m n).calMN (surface.u + s)
            (surface.v + t)).2).2 - (surface.v + t)
        = composeRemainder (Mapping.set Vec3.factorize len surface G m n).vCoefs
            (Mapping.set Vec3.factorize len surface G m n).mCoefs
            (Mapping.set Vec3.factorize len surface G m n).nCoefs surface.u surface.v s t := by
    intro s t
    simp only [Mapping.calUV, Mapping.calMN]
    rw [compose_expansion, compose_expansion, v00u, v00v, j10u, j01u, j10v, j01v, h20u, h11u,
      h02u, h20v, h11v, h02v]
    constructor <;> ring
  refine ⟨⟨v00u, v00v⟩, ⟨j10u, j01u, j10v, j01v⟩, ⟨h20u, h11u, h02u, h20v, h11v, h02v⟩, err,
    fun s t hs ht => ?_⟩
  rw [(err s t).1, (err s t).2]
  exact ⟨composeRemainder_abs_le _ _ _ _ _ s t hs ht, composeRemainder_abs_le _ _ _ _ _ s t hs ht⟩

/-- Witness for C11 as amended: the unit-sphere sample `sphereSurface` against
`sphereDerivs`, where `Fu = Gm` and `Fv = Gn`. -/
theorem Mapping_set_second_order_witness :
    composeCoef
        (Mapping.set Vec3.factorize lenAxis (sphereSurface : SurfaceInfo ℝ) sphereDerivs 0
          0).uCoefs
        (Mapping.set Vec3.factorize lenAxis (sphereSurface : SurfaceInfo ℝ) sphereDerivs 0
          0).mCoefs
        (Mapping.set Vec3.factorize lenAxis (sphereSurface : SurfaceInfo ℝ) sphereDerivs 0
          0).nCoefs (sphereSurface : SurfaceInfo ℝ).u (sphereSurface : SurfaceInfo ℝ).v 1 0
      = 1 ∧
    composeCoef
        (Mapping.set Vec3.factorize lenAxis (sphereSurface : SurfaceInfo ℝ) sphereDerivs 0
          0).uCoefs
        (Mapping.set Vec3.factorize lenAxis (sphereSurface : SurfaceInfo ℝ) sphereDerivs 0
          0).mCoefs
        (Mapping.set Vec3.factorize lenAxis (sphereSurface : SurfaceInfo ℝ) sphereDerivs 0
          0).nCoefs (sphereSurface : SurfaceInfo ℝ).u (sphereSurface : SurfaceInfo ℝ).v 0 1
      = 0 :=
  have h := Mapping_set_second_order lenAxis (sphereSurface : SurfaceInfo ℝ) sphereDerivs 0 0
    1 0 0 1
    (by norm_num [lenAxis, sphereDerivs, Vec3.dot])
    (by norm_num [lenAxis, sphereDerivs, Vec3.dot])
    (by norm_num [sphereDerivs, Vec3.dot])
    (by norm_num [sphereDerivs, Vec3.dot])
    (by norm_num [sphereDerivs, Vec3.dot])
    (by norm_num [sphereDerivs, Vec3.dot])
    (by norm_num [sphereDerivs, Vec3.dot])
    (by norm_num [sphereSurface, sphereDerivs, Vec3_add_def, Vec3_mul_def])
    (by norm_num [sphereSurface, sphereDerivs, Vec3_add_def, Vec3_mul_def])
    (by norm_num [sphereSurface, Vec3.dot])
    (by norm_num [sphereSurface, Vec3.dot])
    (by norm_num [sphereSurface, Vec3.dot])
  ⟨h.2.1.1, h.2.1.2.1⟩

/-- Counterexample to C11 as stated.  The sample `skewSurface` has tangent vectors
`Fu = Gm + Gn`, `Fv = Gn` that span the tangent plane of the torus `torusDerivs11`, yet the
Jacobian of `calUV` after `calMN` at the anchor is not the identity: its entry `du/dv` is
`1/5`, not `0`. -/
theorem Mapping_set_second_order_counterexample :
    (skewSurface : SurfaceInfo ℝ).Fu
      = (torusDerivs11 1 0 : Vec3 ℝ) * (1 : ℝ) + (torusDerivs11 0 1 : Vec3 ℝ) * (1 : ℝ) ∧
    (skewSurface : SurfaceInfo ℝ).Fv
      = (torusDerivs11 1 0 : Vec3 ℝ) * (0 : ℝ) + (torusDerivs11 0 1 : Vec3 ℝ) * (1 : ℝ) ∧
    (1 : ℝ) * 1 - 1 * 0 ≠ 0 ∧
    composeCoef
        (Mapping.set Vec3.factorize lenAxis (skewSurface : SurfaceInfo ℝ) torusDerivs11 0
          0).uCoefs
        (Mapping.set Vec3.factorize lenAxis (skewSurface : SurfaceInfo ℝ) torusDerivs11 0
          0).mCoefs
        (Mapping.set Vec3.factorize lenAxis (skewSurface : SurfaceInfo ℝ) torusDerivs11 0
          0).nCoefs (skewSurface : SurfaceInfo ℝ).u (skewSurface : SurfaceInfo ℝ).v 0 1
      = 1 / 5 ∧
    composeCoef
        (Mapping.set Vec3.factorize lenAxis (skewSurface : SurfaceInfo ℝ) torusDerivs11 0
          0).uCoefs
        (Mapping.set Vec3.factorize lenAxis (skewSurface : SurfaceInfo ℝ) torusDerivs11 0
          0).mCoefs
        (Mapping.set Vec3.factorize lenAxis (skewSurface : SurfaceInfo ℝ) torusDerivs11 0
          0).nCoefs (skewSurface : SurfaceInfo ℝ).u (skewSurface : SurfaceInfo ℝ).v 0 1
      ≠ 0 := by
  obtain ⟨-, -, d3, d4, d5, -, d7, -⟩ :=
    Mapping_set_first_derivatives Vec3.factorize lenAxis (skewSurface : SurfaceInfo ℝ)
      torusDerivs11 0 0
  obtain ⟨a1, a2, -, -⟩ :=
    Mapping_set_anchor_values Vec3.factorize lenAxis (skewSurface : SurfaceInfo ℝ)
      torusDerivs11 0 0
  have hC : (Mapping.set_locals Vec3.factorize lenAxis (skewSurface : SurfaceInfo ℝ)
      torusDerivs11).C = 0 := by
    norm_num [Mapping.set_locals, Vec3.factorize, Vec3.dot, lenAxis, skewSurface, torusDerivs11]
  have hD : (Mapping.set_locals Vec3.factorize lenAxis (skewSurface : SurfaceInfo ℝ)
      torusDerivs11).D = 1 := by
    norm_num [Mapping.set_locals, Vec3.factorize, Vec3.dot, lenAxis, skewSurface, torusDerivs11]
  have hA : (Mapping.set_locals Vec3.factorize lenAxis (skewSurface : SurfaceInfo ℝ)
      torusDerivs11).uvA = 4 / 5 := by
    norm_num [Mapping.set_locals, Vec3.factorize, Vec3.dot, lenAxis, skewSurface, torusDerivs11]
  have hc : (Mapping.set_locals Vec3.factorize lenAxis (skewSurface : SurfaceInfo ℝ)
      torusDerivs11).uvC = 1 / 5 := by
    norm_num [Mapping.set_locals, Vec3.factorize, Vec3.dot, lenAxis, skewSurface, torusDerivs11]
  have hval : composeCoef
        (Mapping.set Vec3.factorize lenAxis (skewSurface : SurfaceInfo ℝ) torusDerivs11 0
          0).uCoefs
        (Mapping.set Vec3.factorize lenAxis (skewSurface : SurfaceInfo ℝ) torusDerivs11 0
          0).mCoefs
        (Mapping.set Vec3.factorize lenAxis (skewSurface : SurfaceInfo ℝ) torusDerivs11 0
          0).nCoefs (skewSurface : SurfaceInfo ℝ).u (skewSurface : SurfaceInfo ℝ).v 0 1
      = 1 / 5 := by
    simp only [composeCoef, a1, a2, d3, d4, d5, d7, hC, hD, hA, hc]
    norm_num
  refine ⟨?_, ?_, by norm_num, hval, ?_⟩
  · norm_num [skewSurface, torusDerivs11, Vec3_add_def, Vec3_mul_def]
  · norm_num [skewSurface, torusDerivs11, Vec3_add_def, Vec3_mul_def]
  · rw [hval]
    norm_num

end SecondOrderClaims

/-! ### Claims on the agreement of `calDomainM` and `calDomainN` -/

section AgreementClaims

/-- C21, the code at two failing inputs.  The blocks `Check [ Mu ]` and `Get min, max value`
of `calDomainM` are the same functions of the coefficients as those of `calDomainN`, but
`Check [ Mv ]` tests `2*mCoefs[0]*vDomain.end()` (TorusApprox.cpp:203, 209) where
`Check [ Nv ]` tests `2*nCoefs[1]*vDomain.end()`.  For `c = {-1, 0, 1, 3, 1, 0}` on the unit
square `calDomainM` returns `false` and `calDomainN` returns `true` with `[0, 4]`; for
`c = {1, -1, 1, 1, 1/2, 0}` `calDomainM` returns `true` with `[0, 5/2]` and `calDomainN`
returns `false`. -/
theorem calDomainM_calDomainN_disagree_at :
    (∀ (c : Coefs ℝ) (uD vD : Domain ℝ),
      calDomainM_checkMu c uD vD = calDomainN_checkNu c uD vD) ∧
    (∀ (c : Coefs ℝ) (uD vD : Domain ℝ) (pu pv : Bool),
      calDomainM_minmax c uD vD pu pv = calDomainN_minmax c uD vD pu pv) ∧
    calDomainM Real.pi (⟨-1, 0, 1, 3, 1, 0⟩ : Coefs ℝ) ⟨0, 1⟩ ⟨0, 1⟩ ⟨0, 0⟩
      = (false, ⟨0, 0⟩) ∧
    calDomainN Real.pi (⟨-1, 0, 1, 3, 1, 0⟩ : Coefs ℝ) ⟨0, 1⟩ ⟨0, 1⟩ ⟨0, 0⟩
      = (true, ⟨0, 4⟩) ∧
    (calDomainM Real.pi (⟨1, -1, 1, 1, 1 / 2, 0⟩ : Coefs ℝ) ⟨0, 1⟩ ⟨0, 1⟩ ⟨0, 0⟩).1 = true ∧
    (calDomainN Real.pi (⟨1, -1, 1, 1, 1 / 2, 0⟩ : Coefs ℝ) ⟨0, 1⟩ ⟨0, 1⟩ ⟨0, 0⟩).1
      = false := by
  have hpi := Real.pi_gt_three
  refine ⟨fun _ _ _ => rfl, fun _ _ _ _ _ => rfl, ?_, ?_, ?_, ?_⟩
  · have h1 : calDomainM_checkMu (⟨-1, 0, 1, 3, 1, 0⟩ : Coefs ℝ) ⟨0, 1⟩ ⟨0, 1⟩ = some true := by
      norm_num [calDomainM_checkMu]
    have h2 : calDomainM_checkMv (⟨-1, 0, 1, 3, 1, 0⟩ : Coefs ℝ) ⟨0, 1⟩ ⟨0, 1⟩ = none := by
      norm_num [calDomainM_checkMv]
    simp only [calDomainM, h1, h2]
  · have h1 : calDomainN_checkNu (⟨-1, 0, 1, 3, 1, 0⟩ : Coefs ℝ) ⟨0, 1⟩ ⟨0, 1⟩ = some true := by
      norm_num [calDomainN_checkNu]
    have h2 : calDomainN_checkNv (⟨-1, 0, 1, 3, 1, 0⟩ : Coefs ℝ) ⟨0, 1⟩ ⟨0, 1⟩ = some true := by
      norm_num [calDomainN_checkNv]
    have h3 : calDomainN_minmax (⟨-1, 0, 1, 3, 1, 0⟩ : Coefs ℝ) ⟨0, 1⟩ ⟨0, 1⟩ true true
        = (0, 4) := by
      norm_num [calDomainN_minmax, evaluate]
    simp only [calDomainN, h1, h2, h3]
    rw [if_pos (by unfold PI20; linarith)]
    rfl
  · have h1 : calDomainM_checkMu (⟨1, -1, 1, 1, 1 / 2, 0⟩ : Coefs ℝ) ⟨0, 1⟩ ⟨0, 1⟩
        = some true := by
      norm_num [calDomainM_checkMu]
    have h2 : calDomainM_checkMv (⟨1, -1, 1, 1, 1 / 2, 0⟩ : Coefs ℝ) ⟨0, 1⟩ ⟨0, 1⟩
        = some true := by
      norm_num [calDomainM_checkMv]
    simp only [calDomainM, h1, h2]
    split_ifs <;> rfl
  · have h1 : calDomainN_checkNu (⟨1, -1, 1, 1, 1 / 2, 0⟩ : Coefs ℝ) ⟨0, 1⟩ ⟨0, 1⟩
        = some true := by
      norm_num [calDomainN_checkNu]
    have h2 : calDomainN_checkNv (⟨1, -1, 1, 1, 1 / 2, 0⟩ : Coefs ℝ) ⟨0, 1⟩ ⟨0, 1⟩ = none := by
      norm_num [calDomainN_checkNv]
    simp only [calDomainN, h1, h2]

end AgreementClaims

/-! ### Claims on the principal curvatures and the eigen-relation branch -/

section CurvatureClaims

/-- The discriminant `H^2 - K` of the curvature characteristic polynomial, in the
coefficients of the two fundamental forms. -/
theorem create_principal_discriminant (sqrt : ℝ → ℝ) (ff : FundamentalForms ℝ)
    (hpos : ff.E * ff.G - ff.F * ff.F > 0) :
    (create_principal sqrt ff).H * (create_principal sqrt ff).H - (create_principal sqrt ff).K
      = ((ff.e * ff.G - 2 * ff.f * ff.F + ff.g * ff.E) ^ 2
          - 4 * (ff.e * ff.g - ff.f * ff.f) * (ff.E * ff.G - ff.F * ff.F))
        / (4 * (ff.E * ff.G - ff.F * ff.F) ^ 2) := by
  have hd : ff.E * ff.G - ff.F * ff.F ≠ 0 := ne_of_gt hpos
  simp only [create_principal]
  field_simp
  ring

/-- The numerator of the discriminant is non-negative for a definite first form. -/
theorem discriminant_numerator_nonneg (E F G e f g : ℝ) (hpos : E * G - F * F > 0) :
    0 ≤ (e * G - 2 * f * F + g * E) ^ 2 - 4 * (e * g - f * f) * (E * G - F * F) := by
  have hE : E ≠ 0 := by
    rintro rfl
    nlinarith [mul_self_nonneg F]
  have hE2 : 0 < E * E := mul_self_pos.2 hE
  have key : E * E * ((e * G - 2 * f * F + g * E) ^ 2
        - 4 * (e * g - f * f) * (E * G - F * F))
      = ((e * G - g * E) * E + 2 * F * (f * E - e * F)) ^ 2
        + 4 * (E * G - F * F) * (f * E - e * F) ^ 2 := by
    ring
  have hr : 0 ≤ ((e * G - g * E) * E + 2 * F * (f * E - e * F)) ^ 2
      + 4 * (E * G - F * F) * (f * E - e * F) ^ 2 := by positivity
  rw [← key] at hr
  exact nonneg_of_mul_nonneg_right hr hE2

/-- C24. Principal curvatures are real and are the two roots of the curvature
characteristic polynomial.  For every first-form coefficients with `E*G - F^2 > 0` and
every real `e, f, g`, the `K` and `H` computed by `create` satisfy `H^2 - K >= 0`, and
`k1 = H + sqrt(H^2 - K)`, `k2 = H - sqrt(H^2 - K)` satisfy `k1 + k2 = 2*H`, `k1*k2 = K`
and `k1 >= k2`. -/
theorem create_principal_real_roots (ff : FundamentalForms ℝ)
    (hpos : ff.E * ff.G - ff.F * ff.F > 0) :
    0 ≤ (create_principal Real.sqrt ff).H * (create_principal Real.sqrt ff).H
      - (create_principal Real.sqrt ff).K ∧
    (create_principal Real.sqrt ff).k1
      = (create_principal Real.sqrt ff).H
        + Real.sqrt ((create_principal Real.sqrt ff).H * (create_principal Real.sqrt ff).H
          - (create_principal Real.sqrt ff).K) ∧
    (create_principal Real.sqrt ff).k2
      = (create_principal Real.sqrt ff).H
        - Real.sqrt ((create_principal Real.sqrt ff).H * (create_principal Real.sqrt ff).H
          - (create_principal Real.sqrt ff).K) ∧
    (create_principal Real.sqrt ff).k1 + (create_principal Real.sqrt ff).k2
      = 2 * (create_principal Real.sqrt ff).H ∧
    (create_principal Real.sqrt ff).k1 * (create_principal Real.sqrt ff).k2
      = (create_principal Real.sqrt ff).K ∧
    (create_principal Real.sqrt ff).k2 ≤ (create_principal Real.sqrt ff).k1 := by
  have hdisc : 0 ≤ (create_principal Real.sqrt ff).H * (create_principal Real.sqrt ff).H
      - (create_principal Real.sqrt ff).K := by
    rw [create_principal_discriminant Real.sqrt ff hpos]
    exact div_nonneg (discriminant_numerator_nonneg _ _ _ _ _ _ hpos) (by positivity)
  have hk1 : (create_principal Real.sqrt ff).k1
      = (create_principal Real.sqrt ff).H
        + Real.sqrt ((create_principal Real.sqrt ff).H * (create_principal Real.sqrt ff).H
          - (create_principal Real.sqrt ff).K) := rfl
  have hk2 : (create_principal Real.sqrt ff).k2
      = (create_principal Real.sqrt ff).H
        - Real.sqrt ((create_principal Real.sqrt ff).H * (create_principal Real.sqrt ff).H
          - (create_principal Real.sqrt ff).K) := rfl
  have hs := Real.mul_self_sqrt hdisc
  have hs0 := Real.sqrt_nonneg ((create_principal Real.sqrt ff).H
    * (create_principal Real.sqrt ff).H - (create_principal Real.sqrt ff).K)
  refine ⟨hdisc, hk1, hk2, ?_, ?_, ?_⟩
  · rw [hk1, hk2]
    ring
  · rw [hk1, hk2]
    linear_combination -hs
  · rw [hk1, hk2]
    linarith

/-- Witness for C24: the forms of the sample `shearSurface`, `E = 1`, `F = 1`, `G = 2`,
`e = 2`, `f = 1`, `g = 2`, where `K = 3`, `H = 2` and the curvatures are `3` and `1`. -/
theorem create_principal_real_roots_witness :
    (create_principal Real.sqrt (⟨1, 1, 2, 2, 1, 2⟩ : FundamentalForms ℝ)).k1
        + (create_principal Real.sqrt (⟨1, 1, 2, 2, 1, 2⟩ : FundamentalForms ℝ)).k2
      = 2 * (create_principal Real.sqrt (⟨1, 1, 2, 2, 1, 2⟩ : FundamentalForms ℝ)).H ∧
    (create_principal Real.sqrt (⟨1, 1, 2, 2, 1, 2⟩ : FundamentalForms ℝ)).k1
        * (create_principal Real.sqrt (⟨1, 1, 2, 2, 1, 2⟩ : FundamentalForms ℝ)).k2
      = (create_principal Real.sqrt (⟨1, 1, 2, 2, 1, 2⟩ : FundamentalForms ℝ)).K :=
  have h := create_principal_real_roots (⟨1, 1, 2, 2, 1, 2⟩ : FundamentalForms ℝ)
    (by norm_num)
  ⟨h.2.2.2.1, h.2.2.2.2.1⟩

/-- C25, the code at a failing input.  For the sample `shearSurface` the first form has
`E*G - F^2 = 1 > 0`, `create` computes `a12 = 0` and `a21 = 1`, so the test
`fabs(a12) < eps && fabs(a21) < eps` fails and the general branch is taken, whose two
quotients `(-k1 - a11)/a12` and `(-k2 - a11)/a12` have the divisor `a12 = 0` (and the
numerators `0` and `2`). -/
theorem create_directions_zero_divisor_at :
    (create_forms Real.sqrt (shearSurface : SurfaceInfo ℝ)).E
        * (create_forms Real.sqrt (shearSurface : SurfaceInfo ℝ)).G
      - (create_forms Real.sqrt (shearSurface : SurfaceInfo ℝ)).F
        * (create_forms Real.sqrt (shearSurface : SurfaceInfo ℝ)).F = 1 ∧
    (create_principal Real.sqrt (create_forms Real.sqrt (shearSurface : SurfaceInfo ℝ))).a12
      = 0 ∧
    (create_principal Real.sqrt (create_forms Real.sqrt (shearSurface : SurfaceInfo ℝ))).a21
      = 1 ∧
    (create_directions (shearSurface : SurfaceInfo ℝ).Fu (shearSurface : SurfaceInfo ℝ).Fv
      (create_principal Real.sqrt (create_forms Real.sqrt (shearSurface : SurfaceInfo ℝ)))).1
      = false ∧
    -(create_principal Real.sqrt (create_forms Real.sqrt (shearSurface : SurfaceInfo ℝ))).k1
      - (create_principal Real.sqrt (create_forms Real.sqrt (shearSurface : SurfaceInfo ℝ))).a11
      = 0 ∧
    -(create_principal Real.sqrt (create_forms Real.sqrt (shearSurface : SurfaceInfo ℝ))).k2
      - (create_principal Real.sqrt (create_forms Real.sqrt (shearSurface : SurfaceInfo ℝ))).a11
      = 2 := by
  have hff : create_forms Real.sqrt (shearSurface : SurfaceInfo ℝ) = ⟨1, 1, 2, 2, 1, 2⟩ := by
    norm_num [create_forms, shearSurface, Vec3.Tcross, Vec3.cross, Vec3.dot]
  have hp : create_principal Real.sqrt (⟨1, 1, 2, 2, 1, 2⟩ : FundamentalForms ℝ)
      = ⟨3, 2, 1, 3, 1, -3, 0, 1, -1⟩ := by
    norm_num [create_principal]
  rw [hff, hp]
  refine ⟨by norm_num, rfl, rfl, ?_, by norm_num, by norm_num⟩
  norm_num [create_directions]

/-- C4, the code at a failing input.  The sample `shearSurface` meets the conditions of
the claim: `E*G - F^2 = 1 > 0`, `M1 .. M4 = 0 >= 0`, both parameter domains `[0, 1]`.
`create` computes `k1 = 3`, `k2 = 1`, `a11 = -3`, `a12 = 0`, `a21 = 1`, takes the general
branch for the principal directions and forms `w1 = Fu + Fv*((-k1 - a11)/a12)` with the
numerator `0` and the divisor `0`; since `|k1| > |k2|` the swap step makes this `w1` the
torus axis, from which the placement, the mapping and `positionError` are computed. -/
theorem create_torusAxis_undefined_at :
    ((create_forms Real.sqrt (shearSurface : SurfaceInfo ℝ)).E
        * (create_forms Real.sqrt (shearSurface : SurfaceInfo ℝ)).G
      - (create_forms Real.sqrt (shearSurface : SurfaceInfo ℝ)).F
        * (create_forms Real.sqrt (shearSurface : SurfaceInfo ℝ)).F > 0 ∧
      0 ≤ (shearSurface : SurfaceInfo ℝ).M1 ∧ 0 ≤ (shearSurface : SurfaceInfo ℝ).M2 ∧
      0 ≤ (shearSurface : SurfaceInfo ℝ).M3 ∧ 0 ≤ (shearSurface : SurfaceInfo ℝ).M4 ∧
      (shearSurface : SurfaceInfo ℝ).uDomain.beg ≤ (shearSurface : SurfaceInfo ℝ).uDomain.end_ ∧
      (shearSurface : SurfaceInfo ℝ).vDomain.beg
        ≤ (shearSurface : SurfaceInfo ℝ).vDomain.end_) ∧
    (create_principal Real.sqrt (create_forms Real.sqrt (shearSurface : SurfaceInfo ℝ))).k1
      = 3 ∧
    (create_principal Real.sqrt (create_forms Real.sqrt (shearSurface : SurfaceInfo ℝ))).k2
      = 1 ∧
    (create_principal Real.sqrt (create_forms Real.sqrt (shearSurface : SurfaceInfo ℝ))).a11
      = -3 ∧
    (create_directions (shearSurface : SurfaceInfo ℝ).Fu (shearSurface : SurfaceInfo ℝ).Fv
      (create_principal Real.sqrt (create_forms Real.sqrt (shearSurface : SurfaceInfo ℝ)))).1
      = false ∧
    (create_principal Real.sqrt (create_forms Real.sqrt (shearSurface : SurfaceInfo ℝ))).a12
      = 0 ∧
    (create_curvature Real.pi
      (create_principal Real.sqrt (create_forms Real.sqrt (shearSurface : SurfaceInfo ℝ))).k1
      (create_principal Real.sqrt (create_forms Real.sqrt (shearSurface : SurfaceInfo ℝ))).k2
      ).swapped = true := by
  have hff : create_forms Real.sqrt (shearSurface : SurfaceInfo ℝ) = ⟨1, 1, 2, 2, 1, 2⟩ := by
    norm_num [create_forms, shearSurface, Vec3.Tcross, Vec3.cross, Vec3.dot]
  have hp : create_principal Real.sqrt (⟨1, 1, 2, 2, 1, 2⟩ : FundamentalForms ℝ)
      = ⟨3, 2, 1, 3, 1, -3, 0, 1, -1⟩ := by
    norm_num [create_principal]
  rw [hff, hp]
  refine ⟨⟨by norm_num, ?_, ?_, ?_, ?_, ?_, ?_⟩, rfl, rfl, rfl, ?_, rfl, ?_⟩
  · norm_num [shearSurface]
  · norm_num [shearSurface]
  · norm_num [shearSurface]
  · norm_num [shearSurface]
  · norm_num [shearSurface]
  · norm_num [shearSurface]
  · norm_num [create_directions]
  · norm_num [create_curvature, curvatureEps]

end CurvatureClaims

/-! ### Claims on the inward regions and the latitude ranges -/

section RegionClaims

/-- An angle with a full-turn translate in `[0, 2*PI)` has that translate as its canonical
representative. -/
theorem regularize_of_translate {K : Type} [LinearOrderedField K] [FloorRing K] (PI x : K)
    (k : ℤ) (hPI : 0 < PI) (h0 : 0 ≤ x + (k : K) * (2 * PI))
    (h1 : x + (k : K) * (2 * PI) < 2 * PI) :
    piDomain.regularize PI x = x + (k : K) * (2 * PI) := by
  have h2 : (0 : K) < 2 * PI := by linarith
  have hf : Int.floor (x / (2 * PI)) = -k := by
    rw [Int.floor_eq_iff]
    push_cast
    constructor
    · rw [le_div_iff₀ h2]
      linarith
    · rw [div_lt_iff₀ h2]
      linarith
  unfold piDomain.regularize PI20
  rw [hf]
  push_cast
  ring

/-- The regions of the branch "the n-domain has neither boundary and `h1` does not have
its begin value": only the `h2` pair is valid, the outward region is the begin and end
values measured from `PI05`, and the inward region is the reflection of `gaussmap[0]`,
which still holds the default value. -/
theorem create_regions_h2_only {K : Type} [LinearOrderedField K] [FloorRing K]
    (PI : K) (dflt : Gaussmap K) (patch : TorusPatch K)
    (h05 : patch.vDomain.has PI (PI05 PI) = false)
    (h15 : patch.vDomain.has PI (PI15 PI) = false)
    (hh1 : (TorusPatchGaussmap.h1 PI).has PI patch.vDomain.beg = false) :
    (TorusPatchGaussmap.create_regions PI dflt patch).validGaussmap0 = false ∧
    (TorusPatchGaussmap.create_regions PI dflt patch).validGaussmap1 = true ∧
    (TorusPatchGaussmap.create_regions PI dflt patch).validGaussmap2 = false ∧
    (TorusPatchGaussmap.create_regions PI dflt patch).validGaussmap3 = true ∧
    (TorusPatchGaussmap.create_regions PI dflt patch).gaussmap0.vDomain = dflt.vDomain ∧
    (TorusPatchGaussmap.create_regions PI dflt patch).gaussmap1.vDomain
      = ⟨piDomain.regularize PI patch.vDomain.beg - PI05 PI,
          piDomain.regularize PI patch.vDomain.end_ - PI05 PI⟩ ∧
    (TorusPatchGaussmap.create_regions PI dflt patch).gaussmap3.vDomain
      = TorusPatchGaussmap.invertGaussmapDomainV PI dflt.vDomain := by
  unfold TorusPatchGaussmap.create_regions
  simp [h05, h15, hh1, piDomain.set]

/-- The regions built for an n-domain `[a, b]` strictly inside `h2`, `pi/2 < a <= b <
3*pi/2`, over the reals. -/
theorem create_inside_h2 (dflt : Gaussmap ℝ) (majorRadius minorRadius : ℝ)
    (uDomain : piDomain ℝ) (a b : ℝ) (ha : Real.pi / 2 < a) (hab : a ≤ b)
    (hb : b < 3 * Real.pi / 2) :
    (TorusPatchGaussmap.create Real.pi dflt
        ⟨majorRadius, minorRadius, uDomain, ⟨a, b⟩⟩).validGaussmap1 = true ∧
    (TorusPatchGaussmap.create Real.pi dflt
        ⟨majorRadius, minorRadius, uDomain, ⟨a, b⟩⟩).validGaussmap3 = true ∧
    (TorusPatchGaussmap.create Real.pi dflt
        ⟨majorRadius, minorRadius, uDomain, ⟨a, b⟩⟩).gaussmap1.vDomain
      = ⟨a - Real.pi / 2, b - Real.pi / 2⟩ ∧
    (TorusPatchGaussmap.create Real.pi dflt
        ⟨majorRadius, minorRadius, uDomain, ⟨a, b⟩⟩).gaussmap3.vDomain
      = TorusPatchGaussmap.invertGaussmapDomainV Real.pi dflt.vDomain := by
  have hpi := Real.pi_pos
  have ra : piDomain.regularize Real.pi a = a :=
    regularize_of_mem Real.pi a hpi (by linarith) (by linarith)
  have rb : piDomain.regularize Real.pi b = b :=
    regularize_of_mem Real.pi b hpi (by linarith) (by linarith)
  have h05 : (⟨a, b⟩ : piDomain ℝ).has Real.pi (PI05 Real.pi) = false := by
    unfold piDomain.has PI05
    rw [decide_eq_false_iff_not,
      regularize_of_translate Real.pi _ 1 hpi (by push_cast; linarith) (by push_cast; linarith)]
    push_cast
    simp only [not_le]
    linarith
  have h15 : (⟨a, b⟩ : piDomain ℝ).has Real.pi (PI15 Real.pi) = false := by
    unfold piDomain.has PI15
    rw [decide_eq_false_iff_not, regularize_of_mem Real.pi _ hpi (by linarith) (by linarith)]
    simp only [not_le]
    linarith
  have hh1 : (TorusPatchGaussmap.h1 Real.pi).has Real.pi a = false := by
    unfold piDomain.has TorusPatchGaussmap.h1 piDomain.create PI05
    rw [decide_eq_false_iff_not, regularize_of_mem Real.pi _ hpi (by linarith) (by linarith)]
    simp only [not_le]
    linarith
  obtain ⟨-, e1, -, e3, -, g1, -, g3⟩ := TorusPatchGaussmap_create_fields Real.pi dflt
    ⟨majorRadius, minorRadius, uDomain, ⟨a, b⟩⟩
  obtain ⟨-, c1, -, c3, -, d1, d3⟩ := create_regions_h2_only Real.pi dflt
    ⟨majorRadius, minorRadius, uDomain, ⟨a, b⟩⟩ h05 h15 hh1
  rw [e1, e3, g1, g3, d1, d3, ra, rb]
  exact ⟨c1, c3, rfl, rfl⟩

/-- C22, the code at two failing inputs.  For the patches with n-domains `[3*pi/4, pi]` and
`[pi, 5*pi/4]`, both strictly inside `h2`, and for every default region `dflt`, `create`
marks the inward `h2` region valid and sets `gaussmap[3].vDomain` to the reflection of
`gaussmap[0].vDomain`, which is the default value, for both patches alike
(TorusGaussmap.h:151); the reflections of `gaussmap[1].vDomain` are `[pi/2, 3*pi/4]` and
`[pi/4, pi/2]`, so for no default value do both patches satisfy the mirror relation. -/
theorem TorusPatchGaussmap_create_inward_h2_at (dflt : Gaussmap ℝ) :
    (TorusPatchGaussmap.create Real.pi dflt
        ⟨1, 1, ⟨0, 1⟩, ⟨3 * Real.pi / 4, Real.pi⟩⟩).validGaussmap3 = true ∧
    (TorusPatchGaussmap.create Real.pi dflt
        ⟨1, 1, ⟨0, 1⟩, ⟨3 * Real.pi / 4, Real.pi⟩⟩).gaussmap3.vDomain
      = TorusPatchGaussmap.invertGaussmapDomainV Real.pi dflt.vDomain ∧
    TorusPatchGaussmap.invertGaussmapDomainV Real.pi
        (TorusPatchGaussmap.create Real.pi dflt
          ⟨1, 1, ⟨0, 1⟩, ⟨3 * Real.pi / 4, Real.pi⟩⟩).gaussmap1.vDomain
      = ⟨Real.pi / 2, 3 * Real.pi / 4⟩ ∧
    (TorusPatchGaussmap.create Real.pi dflt
        ⟨1, 1, ⟨0, 1⟩, ⟨Real.pi, 5 * Real.pi / 4⟩⟩).validGaussmap3 = true ∧
    (TorusPatchGaussmap.create Real.pi dflt
        ⟨1, 1, ⟨0, 1⟩, ⟨Real.pi, 5 * Real.pi / 4⟩⟩).gaussmap3.vDomain
      = TorusPatchGaussmap.invertGaussmapDomainV Real.pi dflt.vDomain ∧
    TorusPatchGaussmap.invertGaussmapDomainV Real.pi
        (TorusPatchGaussmap.create Real.pi dflt
          ⟨1, 1, ⟨0, 1⟩, ⟨Real.pi, 5 * Real.pi / 4⟩⟩).gaussmap1.vDomain
      = ⟨Real.pi / 4, Real.pi / 2⟩ ∧
    ¬ ((TorusPatchGaussmap.create Real.pi dflt
          ⟨1, 1, ⟨0, 1⟩, ⟨3 * Real.pi / 4, Real.pi⟩⟩).gaussmap3.vDomain
        = TorusPatchGaussmap.invertGaussmapDomainV Real.pi
            (TorusPatchGaussmap.create Real.pi dflt
              ⟨1, 1, ⟨0, 1⟩, ⟨3 * Real.pi / 4, Real.pi⟩⟩).gaussmap1.vDomain ∧
      (TorusPatchGaussmap.create Real.pi dflt
          ⟨1, 1, ⟨0, 1⟩, ⟨Real.pi, 5 * Real.pi / 4⟩⟩).gaussmap3.vDomain
        = TorusPatchGaussmap.invertGaussmapDomainV Real.pi
            (TorusPatchGaussmap.create Real.pi dflt
              ⟨1, 1, ⟨0, 1⟩, ⟨Real.pi, 5 * Real.pi / 4⟩⟩).gaussmap1.vDomain) := by
  have hpi := Real.pi_pos
  obtain ⟨-, a3, a1, ag⟩ := create_inside_h2 dflt 1 1 ⟨0, 1⟩ (3 * Real.pi / 4) Real.pi
    (by linarith) (by linarith) (by linarith)
  obtain ⟨-, b3, b1, bg⟩ := create_inside_h2 dflt 1 1 ⟨0, 1⟩ Real.pi (5 * Real.pi / 4)
    (by linarith) (by linarith) (by linarith)
  have ma : TorusPatchGaussmap.invertGaussmapDomainV Real.pi
        (TorusPatchGaussmap.create Real.pi dflt
          ⟨1, 1, ⟨0, 1⟩, ⟨3 * Real.pi / 4, Real.pi⟩⟩).gaussmap1.vDomain
      = ⟨Real.pi / 2, 3 * Real.pi / 4⟩ := by
    rw [a1]
    simp only [TorusPatchGaussmap.invertGaussmapDomainV, piDomain.create, piDomain.mk.injEq]
    constructor <;> ring
  have mb : TorusPatchGaussmap.invertGaussmapDomainV Real.pi
        (TorusPatchGaussmap.create Real.pi dflt
          ⟨1, 1, ⟨0, 1⟩, ⟨Real.pi, 5 * Real.pi / 4⟩⟩).gaussmap1.vDomain
      = ⟨Real.pi / 4, Real.pi / 2⟩ := by
    rw [b1]
    simp only [TorusPatchGaussmap.invertGaussmapDomainV, piDomain.create, piDomain.mk.injEq]
    constructor <;> ring
  refine ⟨a3, ag, ma, b3, bg, mb, ?_⟩
  rintro ⟨h1, h2⟩
  rw [ag, ma] at h1
  rw [bg, mb, h1] at h2
  have := congrArg piDomain.beg h2
  simp only at this
  linarith

/-- The regions of the branch "the n-domain has `PI15` and not `PI05`" when `h1` has the
begin value and its canonical representative is at least `PI15`. -/
theorem create_regions_PI15_h1 {K : Type} [LinearOrderedField K] [FloorRing K]
    (PI : K) (dflt : Gaussmap K) (patch : TorusPatch K)
    (h05 : patch.vDomain.has PI (PI05 PI) = false)
    (h15 : patch.vDomain.has PI (PI15 PI) = true)
    (hh1 : (TorusPatchGaussmap.h1 PI).has PI patch.vDomain.beg = true)
    (hge : piDomain.regularize PI patch.vDomain.beg ≥ PI15 PI) :
    (TorusPatchGaussmap.create_regions PI dflt patch).validGaussmap0 = true ∧
    (TorusPatchGaussmap.create_regions PI dflt patch).validGaussmap1 = true ∧
    (TorusPatchGaussmap.create_regions PI dflt patch).validGaussmap2 = true ∧
    (TorusPatchGaussmap.create_regions PI dflt patch).validGaussmap3 = true ∧
    (TorusPatchGaussmap.create_regions PI dflt patch).gaussmap0.vDomain
      = ⟨piDomain.regularize PI patch.vDomain.beg - PI20 PI + PI05 PI, PI⟩ ∧
    (TorusPatchGaussmap.create_regions PI dflt patch).gaussmap1.vDomain
      = ⟨PI15 PI - piDomain.regularize PI patch.vDomain.end_, PI⟩ ∧
    (TorusPatchGaussmap.create_regions PI dflt patch).gaussmap2.vDomain
      = ⟨PI - PI, PI - (piDomain.regularize PI patch.vDomain.beg - PI20 PI + PI05 PI)⟩ ∧
    (TorusPatchGaussmap.create_regions PI dflt patch).gaussmap3.vDomain
      = ⟨PI - PI, PI - (PI15 PI - piDomain.regularize PI patch.vDomain.end_)⟩ := by
  unfold TorusPatchGaussmap.create_regions
  simp [h05, h15, hh1, hge, piDomain.set, piDomain.create,
    TorusPatchGaussmap.invertGaussmapDomainV]

/-- C23, the code at a failing input.  For the patch with n-domain `[3*pi/2, 7*pi/4]`
(`beg <= end`, width `pi/4`, begin value exactly on the boundary `3*pi/2`) and every
default region, `create` marks all four regions valid; the begin value is a member of
`h1`, so it is taken as the `h1` side and the end value as the `h2` side, and the outward
`h2` region gets the v-domain `[3*pi/2 - 7*pi/4, pi] = [-pi/4, pi]`, which starts below `0`,
and the inward `h2` region its reflection `[0, 5*pi/4]`, which ends above `pi`. -/
theorem TorusPatchGaussmap_create_boundary_at (dflt : Gaussmap ℝ) :
    (3 * Real.pi / 2 ≤ 7 * Real.pi / 4 ∧ 7 * Real.pi / 4 - 3 * Real.pi / 2 ≤ 2 * Real.pi) ∧
    (TorusPatchGaussmap.create Real.pi dflt
        ⟨1, 1, ⟨0, 1⟩, ⟨3 * Real.pi / 2, 7 * Real.pi / 4⟩⟩).validGaussmap1 = true ∧
    (TorusPatchGaussmap.create Real.pi dflt
        ⟨1, 1, ⟨0, 1⟩, ⟨3 * Real.pi / 2, 7 * Real.pi / 4⟩⟩).gaussmap1.vDomain
      = ⟨-(Real.pi / 4), Real.pi⟩ ∧
    (TorusPatchGaussmap.create Real.pi dflt
        ⟨1, 1, ⟨0, 1⟩, ⟨3 * Real.pi / 2, 7 * Real.pi / 4⟩⟩).gaussmap1.vDomain.beg < 0 ∧
    (TorusPatchGaussmap.create Real.pi dflt
        ⟨1, 1, ⟨0, 1⟩, ⟨3 * Real.pi / 2, 7 * Real.pi / 4⟩⟩).validGaussmap3 = true ∧
    (TorusPatchGaussmap.create Real.pi dflt
        ⟨1, 1, ⟨0, 1⟩, ⟨3 * Real.pi / 2, 7 * Real.pi / 4⟩⟩).gaussmap3.vDomain
      = ⟨0, 5 * Real.pi / 4⟩ ∧
    Real.pi < (TorusPatchGaussmap.create Real.pi dflt
        ⟨1, 1, ⟨0, 1⟩, ⟨3 * Real.pi / 2, 7 * Real.pi / 4⟩⟩).gaussmap3.vDomain.end_ := by
  have hpi := Real.pi_pos
  have ra : piDomain.regularize Real.pi (3 * Real.pi / 2) = 3 * Real.pi / 2 :=
    regularize_of_mem Real.pi _ hpi (by linarith) (by linarith)
  have rb : piDomain.regularize Real.pi (7 * Real.pi / 4) = 7 * Real.pi / 4 :=
    regularize_of_mem Real.pi _ hpi (by linarith) (by linarith)
  have h05 : (⟨3 * Real.pi / 2, 7 * Real.pi / 4⟩ : piDomain ℝ).has Real.pi (PI05 Real.pi)
      = false := by
    unfold piDomain.has PI05
    rw [decide_eq_false_iff_not,
      regularize_of_translate Real.pi _ 1 hpi (by push_cast; linarith) (by push_cast; linarith)]
    push_cast
    simp only [not_le]
    linarith
  have h15 : (⟨3 * Real.pi / 2, 7 * Real.pi / 4⟩ : piDomain ℝ).has Real.pi (PI15 Real.pi)
      = true := by
    unfold piDomain.has PI15
    rw [decide_eq_true_iff, regularize_of_mem Real.pi _ hpi (by linarith) (by linarith)]
    linarith
  have hh1 : (TorusPatchGaussmap.h1 Real.pi).has Real.pi (3 * Real.pi / 2) = true := by
    unfold piDomain.has TorusPatchGaussmap.h1 piDomain.create PI05
    rw [decide_eq_true_iff,
      regularize_of_translate Real.pi _ (-1) hpi (by push_cast; linarith)
        (by push_cast; linarith)]
    push_cast
    linarith
  obtain ⟨-, e1, -, e3, -, g1, -, g3⟩ := TorusPatchGaussmap_create_fields Real.pi dflt
    ⟨1, 1, ⟨0, 1⟩, ⟨3 * Real.pi / 2, 7 * Real.pi / 4⟩⟩
  obtain ⟨-, c1, -, c3, -, d1, -, d3⟩ := create_regions_PI15_h1 Real.pi dflt
    ⟨1, 1, ⟨0, 1⟩, ⟨3 * Real.pi / 2, 7 * Real.pi / 4⟩⟩ h05 h15 hh1
    (by rw [ra]; unfold PI15; exact le_refl _)
  have v1 : (TorusPatchGaussmap.create Real.pi dflt
        ⟨1, 1, ⟨0, 1⟩, ⟨3 * Real.pi / 2, 7 * Real.pi / 4⟩⟩).gaussmap1.vDomain
      = ⟨-(Real.pi / 4), Real.pi⟩ := by
    rw [g1, d1, rb]
    simp only [PI15, piDomain.mk.injEq]
    constructor
    · ring
    · trivial
  have v3 : (TorusPatchGaussmap.create Real.pi dflt
        ⟨1, 1, ⟨0, 1⟩, ⟨3 * Real.pi / 2, 7 * Real.pi / 4⟩⟩).gaussmap3.vDomain
      = ⟨0, 5 * Real.pi / 4⟩ := by
    rw [g3, d3, rb]
    simp only [PI15, piDomain.mk.injEq]
    constructor <;> ring
  refine ⟨⟨by linarith, by linarith⟩, ?_, v1, ?_, ?_, v3, ?_⟩
  · rw [e1]
    exact c1
  · rw [v1]
    show -(Real.pi / 4) < 0
    linarith
  · rw [e3]
    exact c3
  · rw [v3]
    show Real.pi < 5 * Real.pi / 4
    linarith

end RegionClaims

end MN

